import Mathlib

/-!
# Cepums 8086 core: a shallow embedding of `Processor.cpp`

The C++ class `Cepums::Processor` is embedded as a record of its fields together
with functions that pass the record (and the memory / I/O collaborators)
explicitly.  Machine integers are natural numbers; every truncation that C++
performs when a value is stored in a `uint8_t` / `uint16_t` / `uint32_t` is
written as an explicit remainder.  Expressions that C++ evaluates in `int`
(after integer promotion) are evaluated in `Int`.

Host-visible aborts (`VERIFY_NOT_REACHED`, `TODO`, `ILLEGAL_INSTRUCTION`,
`UNKNOWN_INSTRUCTION`) end the computation with a `Fault`.
-/

namespace Cepums

/-! ## Faults -/

/-- Host-visible ways in which a primitive or a step stops without completing. -/
inductive Fault where
  /-- Embeds `VERIFY_NOT_REACHED()`. -/
  | verifyNotReached
  /-- Embeds `TODO()`. -/
  | todo
  /-- Embeds `ILLEGAL_INSTRUCTION()`. -/
  | illegalInstruction
  /-- Embeds `UNKNOWN_INSTRUCTION()`. -/
  | unknownInstruction
  /-- An opcode form whose C++ body is not embedded in this development. -/
  | outsideFragment
  deriving DecidableEq, Repr

/-! ## Limits of the C integer types used by the source -/

def UCHAR_MAX : Int := 255
def SCHAR_MAX : Int := 127
def USHRT_MAX : Int := 65535
def SHRT_MAX : Int := 32767

/-! ## FLAGS word -/

/-- Modelled from the spec: the flag bit positions (`CF=0, PF=2, AF=4, ZF=6, SF=7,
TF=8, IF=9, DF=10, OF=11`); the header that defines them is not part of the sources. -/
def CARRY_FLAG : Nat := 0
/-- Modelled from the spec: bit position of PF. -/
def PARITY_FLAG : Nat := 2
/-- Modelled from the spec: bit position of AF. -/
def AUXCARRY_FLAG : Nat := 4
/-- Modelled from the spec: bit position of ZF. -/
def ZERO_FLAG : Nat := 6
/-- Modelled from the spec: bit position of SF. -/
def SIGN_FLAG : Nat := 7
/-- Modelled from the spec: bit position of TF. -/
def TRAP_FLAG : Nat := 8
/-- Modelled from the spec: bit position of IF. -/
def INTERRUPT_ENABLE_FLAG : Nat := 9
/-- Modelled from the spec: bit position of DF. -/
def DIRECTION_FLAG : Nat := 10
/-- Modelled from the spec: bit position of OF. -/
def OVERFLOW_FLAG : Nat := 11

/-- Modelled from the spec: the macro `IS_BIT_SET(value, bit)` (header not in the
sources) tests bit `bit` of `value`. -/
def IS_BIT_SET (value bit : Nat) : Bool := Nat.testBit value bit

/-- Modelled from the spec: the macro `SET_FLAG_BIT(flags, bit)` sets one bit of the
16-bit FLAGS word. -/
def SET_FLAG_BIT (flags bit : Nat) : Nat := flags ||| (1 <<< bit)

/-- Modelled from the spec: the macro `CLEAR_FLAG_BIT(flags, bit)` clears one bit of
the 16-bit FLAGS word (`flags &= ~(1 << bit)` at width 16). -/
def CLEAR_FLAG_BIT (flags bit : Nat) : Nat := flags &&& (0xFFFF ^^^ (1 <<< bit))

/-- Modelled from the spec: `DO_PARITY_BYTE` / `DO_PARITY_WORD` followed by
`IS_PARITY_EVEN` (macros not in the sources) decide PF, which the spec defines as
even parity of the low 8 bits of the result. -/
def IS_PARITY_EVEN (value : Nat) : Bool :=
  ((List.range 8).filter (fun i => Nat.testBit value i)).length % 2 == 0

/-! ## Register file -/

/-- Modelled from the spec: segment register indices `0..3` are `ES, CS, SS, DS`. -/
def REGISTER_ES : Nat := 0
/-- Modelled from the spec: index of CS. -/
def REGISTER_CS : Nat := 1
/-- Modelled from the spec: index of SS. -/
def REGISTER_SS : Nat := 2
/-- Modelled from the spec: index of DS. -/
def REGISTER_DS : Nat := 3
/-- Modelled from the spec: the value of `m_segmentPrefix` that stands for "no
override" (the constant is not in the sources; any value that is not a segment
register index serves). -/
def EMPTY_SEGMENT_OVERRIDE : Nat := 0xFF

/-- The fields of `Cepums::Processor` that `Processor.cpp` reads and writes. -/
structure Processor where
  m_AX : Nat
  m_BX : Nat
  m_CX : Nat
  m_DX : Nat
  m_stackPointer : Nat
  m_basePointer : Nat
  m_sourceIndex : Nat
  m_destinationIndex : Nat
  m_codeSegment : Nat
  m_dataSegment : Nat
  m_stackSegment : Nat
  m_extraSegment : Nat
  m_instructionPointer : Nat
  m_flags : Nat
  m_segmentPrefix : Nat
  m_segmentPrefixCounter : Nat
  m_internalInterrupt : Nat
  m_cyclesToWait : Nat
  deriving DecidableEq, Repr

namespace Processor

/-- Every 16-bit field holds a 16-bit value (what the C++ field types enforce). -/
def WellFormed (p : Processor) : Prop :=
  p.m_AX < 65536 ∧ p.m_BX < 65536 ∧ p.m_CX < 65536 ∧ p.m_DX < 65536 ∧
  p.m_stackPointer < 65536 ∧ p.m_basePointer < 65536 ∧
  p.m_sourceIndex < 65536 ∧ p.m_destinationIndex < 65536 ∧
  p.m_codeSegment < 65536 ∧ p.m_dataSegment < 65536 ∧
  p.m_stackSegment < 65536 ∧ p.m_extraSegment < 65536 ∧
  p.m_instructionPointer < 65536 ∧ p.m_flags < 65536

instance (p : Processor) : Decidable p.WellFormed := by
  unfold WellFormed; infer_instance

/-! Modelled from the spec: the 8-bit register views (`AL()`, `AH()`, ... and their
one-argument setters) live in the header, which is not part of the sources; the
spec maps `AL, CL, DL, BL` onto the low byte and `AH, CH, DH, BH` onto the high
byte of `AX, CX, DX, BX`. -/

/-- Modelled from the spec: low byte of a 16-bit register. -/
def lowByte (word : Nat) : Nat := word % 256
/-- Modelled from the spec: high byte of a 16-bit register. -/
def highByte (word : Nat) : Nat := word / 256 % 256
/-- Modelled from the spec: replace the low byte of a 16-bit register. -/
def withLowByte (word data : Nat) : Nat := highByte word * 256 + data % 256
/-- Modelled from the spec: replace the high byte of a 16-bit register. -/
def withHighByte (word data : Nat) : Nat := data % 256 * 256 + lowByte word

def AL (p : Processor) : Nat := lowByte p.m_AX
def BL (p : Processor) : Nat := lowByte p.m_BX
def CL (p : Processor) : Nat := lowByte p.m_CX
def DL (p : Processor) : Nat := lowByte p.m_DX
def AH (p : Processor) : Nat := highByte p.m_AX
def BH (p : Processor) : Nat := highByte p.m_BX
def CH (p : Processor) : Nat := highByte p.m_CX
def DH (p : Processor) : Nat := highByte p.m_DX

def setAL (p : Processor) (data : Nat) : Processor := { p with m_AX := withLowByte p.m_AX data }
def setBL (p : Processor) (data : Nat) : Processor := { p with m_BX := withLowByte p.m_BX data }
def setCL (p : Processor) (data : Nat) : Processor := { p with m_CX := withLowByte p.m_CX data }
def setDL (p : Processor) (data : Nat) : Processor := { p with m_DX := withLowByte p.m_DX data }
def setAH (p : Processor) (data : Nat) : Processor := { p with m_AX := withHighByte p.m_AX data }
def setBH (p : Processor) (data : Nat) : Processor := { p with m_BX := withHighByte p.m_BX data }
def setCH (p : Processor) (data : Nat) : Processor := { p with m_CX := withHighByte p.m_CX data }
def setDH (p : Processor) (data : Nat) : Processor := { p with m_DX := withHighByte p.m_DX data }

/-- Embeds `Processor::reset`. -/
def reset (p : Processor) : Processor :=
  { p with
    m_flags := 0
    m_instructionPointer := 0
    m_codeSegment := 0xFFFF
    m_dataSegment := 0
    m_stackSegment := 0
    m_extraSegment := 0 }

/-- Embeds `Processor::updateRegisterFromREG8`. -/
def updateRegisterFromREG8 (p : Processor) (REG data : Nat) : Except Fault Processor :=
  match REG with
  | 0 => .ok (p.setAL data)
  | 1 => .ok (p.setCL data)
  | 2 => .ok (p.setDL data)
  | 3 => .ok (p.setBL data)
  | 4 => .ok (p.setAH data)
  | 5 => .ok (p.setCH data)
  | 6 => .ok (p.setDH data)
  | 7 => .ok (p.setBH data)
  | _ => .error .verifyNotReached

/-- Embeds `Processor::updateRegisterFromREG16`. -/
def updateRegisterFromREG16 (p : Processor) (REG data : Nat) : Except Fault Processor :=
  match REG with
  | 0 => .ok { p with m_AX := data % 65536 }
  | 1 => .ok { p with m_CX := data % 65536 }
  | 2 => .ok { p with m_DX := data % 65536 }
  | 3 => .ok { p with m_BX := data % 65536 }
  | 4 => .ok { p with m_stackPointer := data % 65536 }
  | 5 => .ok { p with m_basePointer := data % 65536 }
  | 6 => .ok { p with m_sourceIndex := data % 65536 }
  | 7 => .ok { p with m_destinationIndex := data % 65536 }
  | _ => .error .verifyNotReached

/-- Embeds `Processor::updateSegmentRegister`. -/
def updateSegmentRegister (p : Processor) (SEGREG data : Nat) : Except Fault Processor :=
  if SEGREG = REGISTER_ES then .ok { p with m_extraSegment := data % 65536 }
  else if SEGREG = REGISTER_CS then .ok { p with m_codeSegment := data % 65536 }
  else if SEGREG = REGISTER_SS then .ok { p with m_stackSegment := data % 65536 }
  else if SEGREG = REGISTER_DS then .ok { p with m_dataSegment := data % 65536 }
  else .error .verifyNotReached

/-- Embeds `Processor::getRegisterValueFromREG8`. -/
def getRegisterValueFromREG8 (p : Processor) (REG : Nat) : Except Fault Nat :=
  match REG with
  | 0 => .ok p.AL
  | 1 => .ok p.CL
  | 2 => .ok p.DL
  | 3 => .ok p.BL
  | 4 => .ok p.AH
  | 5 => .ok p.CH
  | 6 => .ok p.DH
  | 7 => .ok p.BH
  | _ => .error .verifyNotReached

/-- Embeds `Processor::getRegisterFromREG16` (read through the returned reference). -/
def getRegisterFromREG16 (p : Processor) (REG : Nat) : Except Fault Nat :=
  match REG with
  | 0 => .ok p.m_AX
  | 1 => .ok p.m_CX
  | 2 => .ok p.m_DX
  | 3 => .ok p.m_BX
  | 4 => .ok p.m_stackPointer
  | 5 => .ok p.m_basePointer
  | 6 => .ok p.m_sourceIndex
  | 7 => .ok p.m_destinationIndex
  | _ => .error .verifyNotReached

/-- Embeds `Processor::getSegmentRegisterValue`. -/
def getSegmentRegisterValue (p : Processor) (SEGREG : Nat) : Except Fault Nat :=
  if SEGREG = REGISTER_ES then .ok p.m_extraSegment
  else if SEGREG = REGISTER_CS then .ok p.m_codeSegment
  else if SEGREG = REGISTER_SS then .ok p.m_stackSegment
  else if SEGREG = REGISTER_DS then .ok p.m_dataSegment
  else .error .verifyNotReached

/-- Modelled from the spec: the macro `RESET_SEGMENT_PREFIX()` (not in the sources)
returns the override and its age counter to the "none" state. -/
def RESET_SEGMENT_PREFIX (p : Processor) : Processor :=
  { p with m_segmentPrefix := EMPTY_SEGMENT_OVERRIDE, m_segmentPrefixCounter := 0 }

/-- Embeds `Processor::getSegmentRegisterValueAndResetOverride`. -/
def getSegmentRegisterValueAndResetOverride (p : Processor) : Except Fault (Nat × Processor) := do
  let value ← p.getSegmentRegisterValue p.m_segmentPrefix
  pure (value, p.RESET_SEGMENT_PREFIX)

/-- Embeds `Processor::hasSegmentOverridePrefix`. -/
def hasSegmentOverridePrefix (p : Processor) : Bool :=
  if p.m_segmentPrefix ≠ EMPTY_SEGMENT_OVERRIDE then true else false

/-- Assignment of one flag bit from a condition: the source's recurring
`if (c) SET_FLAG_BIT(m_flags, bit); else CLEAR_FLAG_BIT(m_flags, bit);`. -/
def withFlag (p : Processor) (bit : Nat) (condition : Bool) : Processor :=
  { p with m_flags := if condition then SET_FLAG_BIT p.m_flags bit else CLEAR_FLAG_BIT p.m_flags bit }

/-- Embeds `Processor::setFlagsAfterLogicalOperation(uint8_t)`. -/
def setFlagsAfterLogicalOperationByte (p : Processor) (byte : Nat) : Processor :=
  let p := { p with m_flags := CLEAR_FLAG_BIT p.m_flags OVERFLOW_FLAG }
  let p := { p with m_flags := CLEAR_FLAG_BIT p.m_flags CARRY_FLAG }
  let p := p.withFlag SIGN_FLAG (IS_BIT_SET byte 7)
  let p := p.withFlag ZERO_FLAG (decide (byte = 0))
  p.withFlag PARITY_FLAG (IS_PARITY_EVEN byte)

/-- Embeds `Processor::setFlagsAfterLogicalOperation(uint16_t)`. -/
def setFlagsAfterLogicalOperationWord (p : Processor) (word : Nat) : Processor :=
  let p := { p with m_flags := CLEAR_FLAG_BIT p.m_flags OVERFLOW_FLAG }
  let p := { p with m_flags := CLEAR_FLAG_BIT p.m_flags CARRY_FLAG }
  let p := p.withFlag SIGN_FLAG (IS_BIT_SET word 15)
  let p := p.withFlag ZERO_FLAG (decide (word = 0))
  p.withFlag PARITY_FLAG (IS_PARITY_EVEN word)

/-- Embeds `Processor::setFlagsAfterArithmeticOperation(uint8_t)`. -/
def setFlagsAfterArithmeticOperationByte (p : Processor) (byte : Nat) : Processor :=
  let p := p.withFlag SIGN_FLAG (IS_BIT_SET byte 7)
  let p := p.withFlag ZERO_FLAG (decide (byte = 0))
  p.withFlag PARITY_FLAG (IS_PARITY_EVEN byte)

/-- Embeds `Processor::setFlagsAfterArithmeticOperation(uint16_t)`. -/
def setFlagsAfterArithmeticOperationWord (p : Processor) (word : Nat) : Processor :=
  let p := p.withFlag SIGN_FLAG (IS_BIT_SET word 15)
  let p := p.withFlag ZERO_FLAG (decide (word = 0))
  p.withFlag PARITY_FLAG (IS_PARITY_EVEN word)

end Processor

/-! ## Conversions to the fixed-width unsigned types -/

/-- Conversion of a C `int` value to `uint8_t`. -/
def toU8 (i : Int) : Nat := (i % 256).toNat
/-- Conversion of a C `int` value to `uint16_t`. -/
def toU16 (i : Int) : Nat := (i % 65536).toNat
/-- Conversion of a C `int` value to `uint32_t`. -/
def toU32 (i : Int) : Nat := (i % 4294967296).toNat

/-- Conversion of a byte to `int8_t` (two's complement). -/
def toI8 (byte : Nat) : Int := if byte % 256 ≥ 128 then (byte % 256 : Nat) - 256 else (byte % 256 : Nat)
/-- Conversion of a word to `int16_t` (two's complement). -/
def toI16 (word : Nat) : Int :=
  if word % 65536 ≥ 32768 then (word % 65536 : Nat) - 65536 else (word % 65536 : Nat)

/-! ## External collaborators -/

/-- Modelled from the spec: the memory manager is an external collaborator (not in
the sources); it is a byte store indexed by 20-bit physical address. -/
abbrev MemoryManager := Nat → Nat

namespace MemoryManager

/-- Modelled from the spec: physical address `((segment << 4) + offset) & 0xFFFFF`
of a 16-bit segment and a 16-bit offset. -/
def physicalAddress (segment offset : Nat) : Nat :=
  (segment % 65536 * 16 + offset % 65536) % 1048576

/-- Modelled from the spec: `read_byte(segment, offset) -> u8`. -/
def readByte (mm : MemoryManager) (segment offset : Nat) : Nat :=
  mm (physicalAddress segment offset) % 256

/-- Modelled from the spec: `read_word`, little-endian, low byte at `offset`, high
byte at `offset + 1`, the offset wrapping at 16 bits. -/
def readWord (mm : MemoryManager) (segment offset : Nat) : Nat :=
  readByte mm segment offset + 256 * readByte mm segment ((offset + 1) % 65536)

/-- Modelled from the spec: `write_byte(segment, offset, u8)`. -/
def writeByte (mm : MemoryManager) (segment offset value : Nat) : MemoryManager :=
  fun address => if address = physicalAddress segment offset then value % 256 else mm address

/-- Modelled from the spec: `write_word`, little-endian, the offset wrapping at 16 bits. -/
def writeWord (mm : MemoryManager) (segment offset value : Nat) : MemoryManager :=
  writeByte (writeByte mm segment offset (value % 256)) segment ((offset + 1) % 65536)
    (value / 256 % 256)

end MemoryManager

/-- Modelled from the spec: the I/O manager is an external collaborator (not in the
sources); the core only uses its queue of pending hardware interrupt vectors. -/
structure IOManager where
  pendingInterrupts : List Nat
  deriving DecidableEq, Repr

namespace IOManager

/-- Modelled from the spec: `has_pending_interrupt() -> bool`. -/
def hasPendingInterrupts (io : IOManager) : Bool := !io.pendingInterrupts.isEmpty

/-- Modelled from the spec: `take_pending_interrupt() -> u8`, which dequeues one vector. -/
def getPendingInterrupt (io : IOManager) : Nat × IOManager :=
  match io.pendingInterrupts with
  | [] => (0, io)
  | vector :: rest => (vector % 256, { pendingInterrupts := rest })

end IOManager

/-! ## Operands -/

/-- The two operand sizes. -/
inductive OperandSize where
  | Byte
  | Word
  deriving DecidableEq, Repr

/-- Modelled from the spec: the operand kinds that `type()` reports. -/
inductive OperandType where
  | Register
  | Memory
  | Immediate
  | Segment
  deriving DecidableEq, Repr

/-- Modelled from the spec: the operand hierarchy (`Register8`, `Register16`,
`SegmentRegister`, `Memory8`, `Memory16`, `Immediate8`, `Immediate16`) is declared
outside the sources; the spec describes it as a tagged family with a uniform
read / write contract against the register file or the memory manager. -/
inductive Operand where
  | Register8 (reg : Nat)
  | Register16 (reg : Nat)
  | SegmentRegister (segreg : Nat)
  | Memory8 (segment offset : Nat)
  | Memory16 (segment offset : Nat)
  | Immediate8 (value : Nat)
  | Immediate16 (value : Nat)
  deriving DecidableEq, Repr

namespace Operand

/-- Modelled from the spec: `size() ∈ {Byte, Word}`. -/
def size : Operand → OperandSize
  | Register8 _ => .Byte
  | Memory8 _ _ => .Byte
  | Immediate8 _ => .Byte
  | Register16 _ => .Word
  | SegmentRegister _ => .Word
  | Memory16 _ _ => .Word
  | Immediate16 _ => .Word

/-- Modelled from the spec: `type() ∈ {Register, Memory, Immediate, Segment}`. -/
def type : Operand → OperandType
  | Register8 _ => .Register
  | Register16 _ => .Register
  | SegmentRegister _ => .Segment
  | Memory8 _ _ => .Memory
  | Memory16 _ _ => .Memory
  | Immediate8 _ => .Immediate
  | Immediate16 _ => .Immediate

/-- Modelled from the spec: `apply_segment_override()`; a memory operand takes the
value of the overriding segment register, which consumes the override; every
other operand ignores it. -/
def handleSegmentOverridePrefix (o : Operand) (p : Processor) :
    Except Fault (Operand × Processor) :=
  match o with
  | Memory8 segment offset =>
    if p.hasSegmentOverridePrefix then do
      let (value, p) ← p.getSegmentRegisterValueAndResetOverride
      pure (Memory8 value offset, p)
    else pure (Memory8 segment offset, p)
  | Memory16 segment offset =>
    if p.hasSegmentOverridePrefix then do
      let (value, p) ← p.getSegmentRegisterValueAndResetOverride
      pure (Memory16 value offset, p)
    else pure (Memory16 segment offset, p)
  | o => pure (o, p)

/-- Modelled from the spec: `read()` of a byte operand; an operand of the other size
has no byte value. -/
def valueByte (o : Operand) (p : Processor) (mm : MemoryManager) : Except Fault Nat :=
  match o with
  | Register8 reg => p.getRegisterValueFromREG8 reg
  | Memory8 segment offset => pure (mm.readByte segment offset)
  | Immediate8 value => pure (value % 256)
  | _ => .error .illegalInstruction

/-- Modelled from the spec: `read()` of a word operand; an operand of the other size
has no word value. -/
def valueWord (o : Operand) (p : Processor) (mm : MemoryManager) : Except Fault Nat :=
  match o with
  | Register16 reg => p.getRegisterFromREG16 reg
  | SegmentRegister segreg => p.getSegmentRegisterValue segreg
  | Memory16 segment offset => pure (mm.readWord segment offset)
  | Immediate16 value => pure (value % 65536)
  | _ => .error .illegalInstruction

/-- Modelled from the spec: `write(v)` of a byte operand; writing to an immediate is
an illegal-instruction fault. -/
def updateByte (o : Operand) (p : Processor) (mm : MemoryManager) (data : Nat) :
    Except Fault (Processor × MemoryManager) :=
  match o with
  | Register8 reg => do
    let p ← p.updateRegisterFromREG8 reg data
    pure (p, mm)
  | Memory8 segment offset => pure (p, mm.writeByte segment offset data)
  | _ => .error .illegalInstruction

/-- Modelled from the spec: `write(v)` of a word operand; writing to an immediate is
an illegal-instruction fault. -/
def updateWord (o : Operand) (p : Processor) (mm : MemoryManager) (data : Nat) :
    Except Fault (Processor × MemoryManager) :=
  match o with
  | Register16 reg => do
    let p ← p.updateRegisterFromREG16 reg data
    pure (p, mm)
  | SegmentRegister segreg => do
    let p ← p.updateSegmentRegister segreg data
    pure (p, mm)
  | Memory16 segment offset => pure (p, mm.writeWord segment offset data)
  | _ => .error .illegalInstruction

end Operand

/-! ## Execution primitives

In the C++ bodies the operands are read several times; the reads do not depend on
FLAGS and the destination is written only after the last read, so each operand is
read once here. -/

namespace Processor

/-- Value of CF as the 0/1 number the source stores in `carryFlag`. -/
def carryFlagValue (p : Processor) : Nat := (IS_BIT_SET p.m_flags CARRY_FLAG).toNat

/-- Embeds `Processor::ins$ADC`. -/
def ins_ADC (p : Processor) (mm : MemoryManager) (destination source : Operand) :
    Except Fault (Processor × MemoryManager) := do
  let (destination, p) ← destination.handleSegmentOverridePrefix p
  let (source, p) ← source.handleSegmentOverridePrefix p
  match destination.size with
  | .Byte =>
    let carryFlag := p.carryFlagValue
    let a ← destination.valueByte p mm
    let b ← source.valueByte p mm
    let carry : Bool := decide ((a : Int) > UCHAR_MAX - b - carryFlag)
    let result := if carry then toU8 ((UCHAR_MAX - b) + a + carryFlag) else toU8 (a + b + carryFlag)
    let p := p.withFlag CARRY_FLAG carry
    let p := p.withFlag OVERFLOW_FLAG (decide ((b : Int) > SCHAR_MAX - a - carryFlag))
    let (p, mm) ← destination.updateByte p mm result
    pure (p.setFlagsAfterArithmeticOperationByte result, mm)
  | .Word =>
    let carryFlag := p.carryFlagValue
    let a ← destination.valueWord p mm
    let b ← source.valueWord p mm
    let carry : Bool := decide ((a : Int) > USHRT_MAX - b - carryFlag)
    let result := if carry then toU16 ((USHRT_MAX - b) + a + carryFlag) else toU16 (a + b + carryFlag)
    let p := p.withFlag CARRY_FLAG carry
    let p := p.withFlag OVERFLOW_FLAG (decide ((b : Int) > SHRT_MAX - a - carryFlag))
    let (p, mm) ← destination.updateWord p mm result
    pure (p.setFlagsAfterArithmeticOperationWord result, mm)

/-- Embeds `Processor::ins$ADD`. -/
def ins_ADD (p : Processor) (mm : MemoryManager) (destination source : Operand) :
    Except Fault (Processor × MemoryManager) := do
  let (destination, p) ← destination.handleSegmentOverridePrefix p
  let (source, p) ← source.handleSegmentOverridePrefix p
  match destination.size with
  | .Byte =>
    let a ← destination.valueByte p mm
    let b ← source.valueByte p mm
    let carry : Bool := decide ((a : Int) > UCHAR_MAX - b)
    let result := if carry then toU8 ((UCHAR_MAX - b) + a) else toU8 (a + b)
    let p := p.withFlag CARRY_FLAG carry
    let p := p.withFlag OVERFLOW_FLAG (decide ((b : Int) > SCHAR_MAX - a))
    let (p, mm) ← destination.updateByte p mm result
    pure (p.setFlagsAfterArithmeticOperationByte result, mm)
  | .Word =>
    let a ← destination.valueWord p mm
    let b ← source.valueWord p mm
    let carry : Bool := decide ((a : Int) > USHRT_MAX - b)
    let result := if carry then toU16 ((USHRT_MAX - b) + a) else toU16 (a + b)
    let p := p.withFlag CARRY_FLAG carry
    let p := p.withFlag OVERFLOW_FLAG (decide ((b : Int) > SHRT_MAX - a))
    let (p, mm) ← destination.updateWord p mm result
    pure (p.setFlagsAfterArithmeticOperationWord result, mm)

/-- Embeds `Processor::ins$AND`. -/
def ins_AND (p : Processor) (mm : MemoryManager) (destination source : Operand) :
    Except Fault (Processor × MemoryManager) := do
  let (destination, p) ← destination.handleSegmentOverridePrefix p
  let (source, p) ← source.handleSegmentOverridePrefix p
  match destination.size with
  | .Byte =>
    let result := (← destination.valueByte p mm) &&& (← source.valueByte p mm)
    let (p, mm) ← destination.updateByte p mm result
    pure (p.setFlagsAfterLogicalOperationByte result, mm)
  | .Word =>
    let result := (← destination.valueWord p mm) &&& (← source.valueWord p mm)
    let (p, mm) ← destination.updateWord p mm result
    pure (p.setFlagsAfterLogicalOperationWord result, mm)

/-- Embeds `Processor::ins$CMP`. -/
def ins_CMP (p : Processor) (mm : MemoryManager) (destination source : Operand) :
    Except Fault (Processor × MemoryManager) := do
  let (destination, p) ← destination.handleSegmentOverridePrefix p
  let (source, p) ← source.handleSegmentOverridePrefix p
  match destination.size with
  | .Byte =>
    let a ← destination.valueByte p mm
    let b ← source.valueByte p mm
    let result := toU8 (a - b)
    let p := p.withFlag CARRY_FLAG (decide (b > a))
    let p := p.withFlag OVERFLOW_FLAG (decide ((b : Int) > SCHAR_MAX - b))
    pure (p.setFlagsAfterArithmeticOperationByte result, mm)
  | .Word =>
    let a ← destination.valueWord p mm
    let b ← source.valueWord p mm
    let result := toU16 (a - b)
    let p := p.withFlag CARRY_FLAG (decide (b > a))
    let p := p.withFlag OVERFLOW_FLAG (decide ((b : Int) > SHRT_MAX - b))
    pure (p.setFlagsAfterArithmeticOperationWord result, mm)

/-- Embeds `Processor::ins$DEC`. -/
def ins_DEC (p : Processor) (mm : MemoryManager) (operand : Operand) :
    Except Fault (Processor × MemoryManager) := do
  let (operand, p) ← operand.handleSegmentOverridePrefix p
  match operand.size with
  | .Byte =>
    let oldValue ← operand.valueByte p mm
    let result := toU8 (oldValue - 1)
    let (p, mm) ← operand.updateByte p mm result
    let p := p.withFlag OVERFLOW_FLAG (decide ((oldValue : Int) ≥ SCHAR_MAX))
    pure (p.setFlagsAfterArithmeticOperationByte result, mm)
  | .Word =>
    let oldValue ← operand.valueWord p mm
    let result := toU16 (oldValue - 1)
    let (p, mm) ← operand.updateWord p mm result
    let p := p.withFlag OVERFLOW_FLAG (decide ((oldValue : Int) ≥ SHRT_MAX))
    pure (p.setFlagsAfterArithmeticOperationWord result, mm)

/-- Embeds `Processor::ins$INC`. -/
def ins_INC (p : Processor) (mm : MemoryManager) (operand : Operand) :
    Except Fault (Processor × MemoryManager) := do
  let (operand, p) ← operand.handleSegmentOverridePrefix p
  match operand.size with
  | .Byte =>
    let oldValue ← operand.valueByte p mm
    let result := toU8 (oldValue + 1)
    let (p, mm) ← operand.updateByte p mm result
    let p := p.withFlag OVERFLOW_FLAG (decide ((oldValue : Int) ≥ SCHAR_MAX))
    pure (p.setFlagsAfterArithmeticOperationByte result, mm)
  | .Word =>
    let oldValue ← operand.valueWord p mm
    let result := toU16 (oldValue + 1)
    let (p, mm) ← operand.updateWord p mm result
    let p := p.withFlag OVERFLOW_FLAG (decide ((oldValue : Int) ≥ SHRT_MAX))
    pure (p.setFlagsAfterArithmeticOperationWord result, mm)

/-- Embeds `Processor::ins$OR`. -/
def ins_OR (p : Processor) (mm : MemoryManager) (destination source : Operand) :
    Except Fault (Processor × MemoryManager) := do
  let (destination, p) ← destination.handleSegmentOverridePrefix p
  let (source, p) ← source.handleSegmentOverridePrefix p
  match destination.size with
  | .Byte =>
    let result := (← destination.valueByte p mm) ||| (← source.valueByte p mm)
    let (p, mm) ← destination.updateByte p mm result
    pure (p.setFlagsAfterLogicalOperationByte result, mm)
  | .Word =>
    let result := (← destination.valueWord p mm) ||| (← source.valueWord p mm)
    let (p, mm) ← destination.updateWord p mm result
    pure (p.setFlagsAfterLogicalOperationWord result, mm)

/-- Embeds `Processor::ins$SUB`. -/
def ins_SUB (p : Processor) (mm : MemoryManager) (destination source : Operand) :
    Except Fault (Processor × MemoryManager) := do
  let (destination, p) ← destination.handleSegmentOverridePrefix p
  let (source, p) ← source.handleSegmentOverridePrefix p
  match destination.size with
  | .Byte =>
    let a ← destination.valueByte p mm
    let b ← source.valueByte p mm
    let result := toU8 (a - b)
    let p := p.withFlag CARRY_FLAG (decide ((a : Int) > UCHAR_MAX - b))
    let p := p.withFlag OVERFLOW_FLAG (decide ((b : Int) > SCHAR_MAX - a))
    let (p, mm) ← destination.updateByte p mm result
    pure (p.setFlagsAfterArithmeticOperationByte result, mm)
  | .Word =>
    let a ← destination.valueWord p mm
    let b ← source.valueWord p mm
    let result := toU16 (a - b)
    let p := p.withFlag CARRY_FLAG (decide ((a : Int) > USHRT_MAX - b))
    let p := p.withFlag OVERFLOW_FLAG (decide ((b : Int) > SHRT_MAX - a))
    let (p, mm) ← destination.updateWord p mm result
    pure (p.setFlagsAfterArithmeticOperationWord result, mm)

/-- Embeds `Processor::ins$TEST`. -/
def ins_TEST (p : Processor) (mm : MemoryManager) (destination source : Operand) :
    Except Fault (Processor × MemoryManager) := do
  let (destination, p) ← destination.handleSegmentOverridePrefix p
  let (source, p) ← source.handleSegmentOverridePrefix p
  match destination.size with
  | .Byte =>
    let result := (← destination.valueByte p mm) &&& (← source.valueByte p mm)
    pure (p.setFlagsAfterLogicalOperationByte result, mm)
  | .Word =>
    let result := (← destination.valueWord p mm) &&& (← source.valueWord p mm)
    pure (p.setFlagsAfterLogicalOperationWord result, mm)

/-- Embeds `Processor::ins$XOR`. -/
def ins_XOR (p : Processor) (mm : MemoryManager) (destination source : Operand) :
    Except Fault (Processor × MemoryManager) := do
  let (destination, p) ← destination.handleSegmentOverridePrefix p
  let (source, p) ← source.handleSegmentOverridePrefix p
  match destination.size with
  | .Byte =>
    let result := (← destination.valueByte p mm) ^^^ (← source.valueByte p mm)
    let (p, mm) ← destination.updateByte p mm result
    pure (p.setFlagsAfterLogicalOperationByte result, mm)
  | .Word =>
    let result := (← destination.valueWord p mm) ^^^ (← source.valueWord p mm)
    let (p, mm) ← destination.updateWord p mm result
    pure (p.setFlagsAfterLogicalOperationWord result, mm)

/-- Embeds `Processor::ins$MULregisterByte`. -/
def ins_MULregisterByte (p : Processor) (REG : Nat) : Except Fault Processor := do
  let registerValue ← p.getRegisterValueFromREG8 REG
  let p := { p with m_AX := toU16 (registerValue * p.AL) }
  if p.AH > 0 then
    pure ((p.withFlag CARRY_FLAG true).withFlag OVERFLOW_FLAG true)
  else
    pure ((p.withFlag CARRY_FLAG false).withFlag OVERFLOW_FLAG false)

/-- Embeds `Processor::ins$MULregisterWord`.  The product of the two promoted
operands is taken modulo `2 ^ 32`, as the conversion to `uint32_t` leaves it. -/
def ins_MULregisterWord (p : Processor) (REG : Nat) : Except Fault Processor := do
  let registerValue ← p.getRegisterFromREG16 REG
  let result := toU32 (registerValue * p.m_AX)
  let p := { p with m_DX := (result >>> 16) % 65536 }
  let p := { p with m_AX := (result &&& 0xFFFF) % 65536 }
  if p.m_DX > 0 then
    pure ((p.withFlag CARRY_FLAG true).withFlag OVERFLOW_FLAG true)
  else
    pure ((p.withFlag CARRY_FLAG false).withFlag OVERFLOW_FLAG false)

/-- Embeds `Processor::ins$NOTregisterWord`. -/
def ins_NOTregisterWord (p : Processor) (REG : Nat) : Except Fault Processor := do
  let registerValue ← p.getRegisterFromREG16 REG
  let registerValue := registerValue ^^^ 0xFFFF
  p.updateRegisterFromREG16 REG registerValue

/-- Embeds `Processor::ins$DIVregisterByte`. -/
def ins_DIVregisterByte (p : Processor) (REG : Nat) : Except Fault Processor := do
  let divisor ← p.getRegisterValueFromREG8 REG
  if divisor = 0 then
    pure { p with m_internalInterrupt := 1 }
  else
    let dividend := p.m_AX
    let result := (dividend / divisor) % 65536
    if result > 0xFF then
      pure { p with m_internalInterrupt := 1 }
    else
      let p := p.setAL result
      let remainder := (dividend % divisor) % 65536
      pure (p.setAH remainder)

/-- Embeds `Processor::ins$DIVregisterWord`. -/
def ins_DIVregisterWord (p : Processor) (REG : Nat) : Except Fault Processor := do
  let divisor ← p.getRegisterFromREG16 REG
  if divisor = 0 then
    pure { p with m_internalInterrupt := 1 }
  else
    let dividend := p.m_AX ||| toU32 (p.m_DX <<< 16)
    let result := dividend / divisor
    if result > 0xFFFF then
      .error .todo
    else
      let p := { p with m_AX := result % 65536 }
      let remainder := (dividend % divisor) % 65536
      pure { p with m_DX := remainder }

/-- Embeds `Processor::ins$INT`. -/
def ins_INT (p : Processor) (memoryManager : MemoryManager) (immediate : Nat) :
    Processor × MemoryManager :=
  let p := { p with m_stackPointer := toU16 (p.m_stackPointer - 2) }
  let memoryManager := memoryManager.writeWord p.m_stackSegment p.m_stackPointer p.m_flags
  let p := { p with m_flags := CLEAR_FLAG_BIT p.m_flags INTERRUPT_ENABLE_FLAG }
  let p := { p with m_flags := CLEAR_FLAG_BIT p.m_flags TRAP_FLAG }
  let p := { p with m_stackPointer := toU16 (p.m_stackPointer - 2) }
  let memoryManager := memoryManager.writeWord p.m_stackSegment p.m_stackPointer p.m_codeSegment
  let p := { p with m_stackPointer := toU16 (p.m_stackPointer - 2) }
  let memoryManager :=
    memoryManager.writeWord p.m_stackSegment p.m_stackPointer p.m_instructionPointer
  let p := { p with m_instructionPointer := memoryManager.readWord 0 (toU16 (immediate * 4)) }
  let p := { p with m_codeSegment := memoryManager.readWord 0 (toU16 (immediate * 4 + 2)) }
  (p, memoryManager)

/-- Embeds `Processor::ins$IRET`. -/
def ins_IRET (p : Processor) (memoryManager : MemoryManager) : Processor :=
  let p := { p with
    m_instructionPointer := memoryManager.readWord p.m_stackSegment p.m_stackPointer }
  let p := { p with m_stackPointer := toU16 (p.m_stackPointer + 2) }
  let p := { p with m_codeSegment := memoryManager.readWord p.m_stackSegment p.m_stackPointer }
  let p := { p with m_stackPointer := toU16 (p.m_stackPointer + 2) }
  let p := { p with m_flags := memoryManager.readWord p.m_stackSegment p.m_stackPointer }
  { p with m_stackPointer := toU16 (p.m_stackPointer + 2) }

/-- Embeds `Processor::ins$JMPshort`; `increment` is the `int8_t` argument. -/
def ins_JMPshort (p : Processor) (increment : Int) : Processor :=
  { p with m_instructionPointer := toU16 (p.m_instructionPointer + increment) }

/-- Embeds `Processor::ins$MOV`. -/
def ins_MOV (p : Processor) (mm : MemoryManager) (destination source : Operand) :
    Except Fault (Processor × MemoryManager) := do
  if destination.type = .Memory ∧ source.type = .Memory then
    .error .illegalInstruction
  else
    let (destination, p) ← destination.handleSegmentOverridePrefix p
    let (source, p) ← source.handleSegmentOverridePrefix p
    match destination.size with
    | .Byte => destination.updateByte p mm (← source.valueByte p mm)
    | .Word => destination.updateWord p mm (← source.valueWord p mm)

/-- Embeds `Processor::ins$POPF`. -/
def ins_POPF (p : Processor) (memoryManager : MemoryManager) : Processor :=
  let p := { p with m_flags := memoryManager.readWord p.m_stackSegment p.m_stackPointer }
  { p with m_stackPointer := toU16 (p.m_stackPointer + 2) }

/-- Embeds `Processor::ins$POPregisterWord`; the register indices `REGISTER_AX ..
REGISTER_DI` are `0 .. 7` in the order `AX, CX, DX, BX, SP, BP, SI, DI`. -/
def ins_POPregisterWord (p : Processor) (memoryManager : MemoryManager) (REG : Nat) :
    Except Fault Processor := do
  let word := memoryManager.readWord p.m_stackSegment p.m_stackPointer
  let p ← (match REG with
    | 0 => pure { p with m_AX := word }
    | 1 => pure { p with m_CX := word }
    | 2 => pure { p with m_DX := word }
    | 3 => pure { p with m_BX := word }
    | 4 => pure { p with m_stackPointer := word }
    | 5 => pure { p with m_basePointer := word }
    | 6 => pure { p with m_sourceIndex := word }
    | 7 => pure { p with m_destinationIndex := word }
    | _ => .error .illegalInstruction : Except Fault Processor)
  pure { p with m_stackPointer := toU16 (p.m_stackPointer + 2) }

/-- Embeds `Processor::ins$PUSHF`. -/
def ins_PUSHF (p : Processor) (memoryManager : MemoryManager) : Processor × MemoryManager :=
  let p := { p with m_stackPointer := toU16 (p.m_stackPointer - 2) }
  (p, memoryManager.writeWord p.m_stackSegment p.m_stackPointer p.m_flags)

/-- Embeds `Processor::ins$PUSHregisterWord`; the register is read after `SP` has
been decremented. -/
def ins_PUSHregisterWord (p : Processor) (memoryManager : MemoryManager) (REG : Nat) :
    Except Fault (Processor × MemoryManager) := do
  let p := { p with m_stackPointer := toU16 (p.m_stackPointer - 2) }
  let value ← (match REG with
    | 0 => pure p.m_AX
    | 1 => pure p.m_CX
    | 2 => pure p.m_DX
    | 3 => pure p.m_BX
    | 4 => pure p.m_stackPointer
    | 5 => pure p.m_basePointer
    | 6 => pure p.m_sourceIndex
    | 7 => pure p.m_destinationIndex
    | _ => .error .illegalInstruction : Except Fault Nat)
  pure (p, memoryManager.writeWord p.m_stackSegment p.m_stackPointer value)

/-! ## Control transfer and string primitives -/

/-- Modelled from the spec: the macro `DATA_SEGMENT` (not in the sources) names the
current value of DS. -/
def DATA_SEGMENT (p : Processor) : Nat := p.m_dataSegment
/-- Modelled from the spec: the macro `EXTRA_SEGMENT` (not in the sources) names the
current value of ES. -/
def EXTRA_SEGMENT (p : Processor) : Nat := p.m_extraSegment
/-- Modelled from the spec: the macro `CODE_SEGMENT` (not in the sources) names the
current value of CS. -/
def CODE_SEGMENT (p : Processor) : Nat := p.m_codeSegment
/-- Modelled from the spec: the macro `STACK_SEGMENT` (not in the sources) names the
current value of SS. -/
def STACK_SEGMENT (p : Processor) : Nat := p.m_stackSegment

/-- Embeds `Processor::ins$CALLnear`; `offset` is the `int16_t` argument. -/
def ins_CALLnear (p : Processor) (memoryManager : MemoryManager) (offset : Int) :
    Processor × MemoryManager :=
  let p := { p with m_stackPointer := toU16 (p.m_stackPointer - 2) }
  let memoryManager :=
    memoryManager.writeWord p.m_stackSegment p.m_stackPointer p.m_instructionPointer
  ({ p with m_instructionPointer := toU16 (p.m_instructionPointer + offset) }, memoryManager)

/-- Embeds `Processor::ins$JMPinterSegment`; both arguments are `uint16_t`. -/
def ins_JMPinterSegment (p : Processor) (newCodeSegment newInstructionPointer : Nat) :
    Processor :=
  let p := { p with m_codeSegment := newCodeSegment % 65536 }
  { p with m_instructionPointer := newInstructionPointer % 65536 }

/-- Embeds `Processor::ins$LODSbyte`: every case of the switch on `m_segmentPrefix`
ends with `RESET_SEGMENT_PREFIX()`. -/
def ins_LODSbyte (p : Processor) (memoryManager : MemoryManager) : Processor :=
  let p :=
    if p.m_segmentPrefix = REGISTER_ES then
      (p.setAL (memoryManager.readByte p.EXTRA_SEGMENT p.m_sourceIndex)).RESET_SEGMENT_PREFIX
    else if p.m_segmentPrefix = REGISTER_CS then
      (p.setAL (memoryManager.readByte p.CODE_SEGMENT p.m_sourceIndex)).RESET_SEGMENT_PREFIX
    else if p.m_segmentPrefix = REGISTER_SS then
      (p.setAL (memoryManager.readByte p.STACK_SEGMENT p.m_sourceIndex)).RESET_SEGMENT_PREFIX
    else
      (p.setAL (memoryManager.readByte p.DATA_SEGMENT p.m_sourceIndex)).RESET_SEGMENT_PREFIX
  if IS_BIT_SET p.m_flags DIRECTION_FLAG then
    { p with m_sourceIndex := toU16 (p.m_sourceIndex - 1) }
  else
    { p with m_sourceIndex := toU16 (p.m_sourceIndex + 1) }

/-- Embeds `Processor::ins$LODSword`: the cases `REGISTER_ES`, `REGISTER_CS` and
`REGISTER_SS` of the switch on `m_segmentPrefix` end with `RESET_SEGMENT_PREFIX()`,
the case `REGISTER_DS` / `default` does not. -/
def ins_LODSword (p : Processor) (memoryManager : MemoryManager) : Processor :=
  let p :=
    if p.m_segmentPrefix = REGISTER_ES then
      ({ p with m_AX := memoryManager.readWord p.m_extraSegment p.m_sourceIndex } :
        Processor).RESET_SEGMENT_PREFIX
    else if p.m_segmentPrefix = REGISTER_CS then
      ({ p with m_AX := memoryManager.readWord p.m_codeSegment p.m_sourceIndex } :
        Processor).RESET_SEGMENT_PREFIX
    else if p.m_segmentPrefix = REGISTER_SS then
      ({ p with m_AX := memoryManager.readWord p.m_stackSegment p.m_sourceIndex } :
        Processor).RESET_SEGMENT_PREFIX
    else
      { p with m_AX := memoryManager.readWord p.m_dataSegment p.m_sourceIndex }
  if IS_BIT_SET p.m_flags DIRECTION_FLAG then
    { p with m_sourceIndex := toU16 (p.m_sourceIndex - 2) }
  else
    { p with m_sourceIndex := toU16 (p.m_sourceIndex + 2) }

/-- Embeds `Processor::ins$MOVSword`; the body does not look at `m_segmentPrefix`. -/
def ins_MOVSword (p : Processor) (memoryManager : MemoryManager) :
    Processor × MemoryManager :=
  let source := memoryManager.readWord p.m_dataSegment p.m_sourceIndex
  let memoryManager := memoryManager.writeWord p.m_extraSegment p.m_destinationIndex source
  if IS_BIT_SET p.m_flags DIRECTION_FLAG then
    ({ p with
        m_sourceIndex := toU16 (p.m_sourceIndex - 2)
        m_destinationIndex := toU16 (p.m_destinationIndex - 2) }, memoryManager)
  else
    ({ p with
        m_sourceIndex := toU16 (p.m_sourceIndex + 2)
        m_destinationIndex := toU16 (p.m_destinationIndex + 2) }, memoryManager)

/-- Embeds `Processor::ins$REP_CMPSbyte`: the loop
`while (CX() != 0 && IS_BIT_SET(m_flags, ZERO_FLAG))`, run for at most `fuel`
iterations; `none` when the loop has not ended by then. -/
def ins_REP_CMPSbyte : Nat → Processor → MemoryManager → Option (Processor × MemoryManager)
  | 0, p, memoryManager =>
    if p.m_CX ≠ 0 ∧ IS_BIT_SET p.m_flags ZERO_FLAG = true then none
    else some (p, memoryManager)
  | fuel + 1, p, memoryManager =>
    if p.m_CX ≠ 0 ∧ IS_BIT_SET p.m_flags ZERO_FLAG = true then
      let operand1 := memoryManager.readByte p.m_dataSegment p.m_sourceIndex
      let operand2 := memoryManager.readByte p.m_extraSegment p.m_destinationIndex
      let result := toU8 (operand1 - operand2)
      let p := p.withFlag CARRY_FLAG (decide (operand1 > operand2))
      let p := p.withFlag OVERFLOW_FLAG (decide ((operand1 : Int) > SCHAR_MAX - operand2))
      let p := p.setFlagsAfterArithmeticOperationByte result
      let p : Processor :=
        if IS_BIT_SET p.m_flags DIRECTION_FLAG then
          { p with
            m_sourceIndex := toU16 (p.m_sourceIndex - 1)
            m_destinationIndex := toU16 (p.m_destinationIndex - 1) }
        else
          { p with
            m_sourceIndex := toU16 (p.m_sourceIndex + 1)
            m_destinationIndex := toU16 (p.m_destinationIndex + 1) }
      ins_REP_CMPSbyte fuel { p with m_CX := toU16 (p.m_CX - 1) } memoryManager
    else some (p, memoryManager)

/-- Embeds `Processor::ins$REP_MOVSword`: the loop `while (CX() != 0)`, run for at
most `fuel` iterations; `none` when the loop has not ended by then. -/
def ins_REP_MOVSword : Nat → Processor → MemoryManager → Option (Processor × MemoryManager)
  | 0, p, memoryManager => if p.m_CX ≠ 0 then none else some (p, memoryManager)
  | fuel + 1, p, memoryManager =>
    if p.m_CX ≠ 0 then
      let source := memoryManager.readWord p.m_dataSegment p.m_sourceIndex
      let memoryManager :=
        memoryManager.writeWord p.m_extraSegment p.m_destinationIndex source
      let p : Processor :=
        if IS_BIT_SET p.m_flags DIRECTION_FLAG then
          { p with
            m_sourceIndex := toU16 (p.m_sourceIndex - 2)
            m_destinationIndex := toU16 (p.m_destinationIndex - 2) }
        else
          { p with
            m_sourceIndex := toU16 (p.m_sourceIndex + 2)
            m_destinationIndex := toU16 (p.m_destinationIndex + 2) }
      ins_REP_MOVSword fuel { p with m_CX := toU16 (p.m_CX - 1) } memoryManager
    else some (p, memoryManager)

/-- Embeds `Processor::ins$RETnear`. -/
def ins_RETnear (p : Processor) (memoryManager : MemoryManager) : Processor :=
  let p := { p with
    m_instructionPointer := memoryManager.readWord p.m_stackSegment p.m_stackPointer }
  { p with m_stackPointer := toU16 (p.m_stackPointer + 2) }

/-- Embeds `Processor::ins$STOSbyte`. -/
def ins_STOSbyte (p : Processor) (memoryManager : MemoryManager) :
    Processor × MemoryManager :=
  let memoryManager := memoryManager.writeByte p.m_extraSegment p.m_destinationIndex p.AL
  if IS_BIT_SET p.m_flags DIRECTION_FLAG then
    ({ p with m_destinationIndex := toU16 (p.m_destinationIndex - 1) }, memoryManager)
  else
    ({ p with m_destinationIndex := toU16 (p.m_destinationIndex + 1) }, memoryManager)

/-- Embeds `Processor::ins$STOSword`. -/
def ins_STOSword (p : Processor) (memoryManager : MemoryManager) :
    Processor × MemoryManager :=
  let memoryManager := memoryManager.writeWord p.m_extraSegment p.m_destinationIndex p.m_AX
  if IS_BIT_SET p.m_flags DIRECTION_FLAG then
    ({ p with m_destinationIndex := toU16 (p.m_destinationIndex - 2) }, memoryManager)
  else
    ({ p with m_destinationIndex := toU16 (p.m_destinationIndex + 2) }, memoryManager)

/-! ## Effective address -/

/-- Modelled from the spec: the helper `signExtendByteToWord` (declared in the
header, not in the sources) sign-extends a byte to 16 bits. -/
def signExtendByteToWord (byte : Nat) : Nat := toU16 (toI8 byte)

/-- Modelled from the spec: the macro `SET8BITREGISTERLOW(word, byte)` (not in the
sources) replaces the low byte of a 16-bit variable. -/
def SET8BITREGISTERLOW (word byte : Nat) : Nat := withLowByte word byte

/-- Modelled from the spec: the macro `SET8BITREGISTERHIGH(word, byte)` (not in the
sources) replaces the high byte of a 16-bit variable. -/
def SET8BITREGISTERHIGH (word byte : Nat) : Nat := withHighByte word byte

/-- Embeds `Processor::getEffectiveAddressFromBits`.  The C++ function returns the
offset and hands the segment back through a reference parameter; here both come
back as the pair `(segment, offset)`.  The local `fullDisplacement` of the case
`mod = 10` starts from zero: both of its bytes are overwritten before it is read.
The parameter `isWord` is never read by the body. -/
def getEffectiveAddressFromBits (p : Processor) (rmBits modBits _isWord displacementLow
    displacementHigh defaultSegment : Nat) : Except Fault (Nat × Nat) :=
  let segment := defaultSegment
  match modBits with
  | 0 =>
    match rmBits with
    | 0 => pure (segment, (p.m_BX + p.m_sourceIndex) % 65536)
    | 1 => pure (segment, (p.m_BX + p.m_destinationIndex) % 65536)
    | 2 => pure (p.m_stackSegment, (p.m_basePointer + p.m_sourceIndex) % 65536)
    | 3 => pure (p.m_stackSegment, (p.m_basePointer + p.m_destinationIndex) % 65536)
    | 4 => pure (segment, p.m_sourceIndex % 65536)
    | 5 => pure (segment, p.m_destinationIndex % 65536)
    | 6 =>
      let address := displacementHigh % 256 * 256 % 65536
      let address := address ||| displacementLow % 256
      pure (segment, address)
    | 7 => pure (segment, p.m_BX % 65536)
    | _ => .error .verifyNotReached
  | 1 =>
    let fullDisplacement := signExtendByteToWord displacementLow
    match rmBits with
    | 0 => pure (segment, (p.m_BX + p.m_sourceIndex + fullDisplacement) % 65536)
    | 1 => pure (segment, (p.m_BX + p.m_destinationIndex + fullDisplacement) % 65536)
    | 2 =>
      pure (p.m_stackSegment, (p.m_basePointer + p.m_sourceIndex + fullDisplacement) % 65536)
    | 3 =>
      pure (p.m_stackSegment,
        (p.m_basePointer + p.m_destinationIndex + fullDisplacement) % 65536)
    | 4 => pure (segment, (p.m_sourceIndex + fullDisplacement) % 65536)
    | 5 => pure (segment, (p.m_destinationIndex + fullDisplacement) % 65536)
    | 6 => pure (p.m_stackSegment, (p.m_basePointer + fullDisplacement) % 65536)
    | 7 => pure (segment, (p.m_BX + fullDisplacement) % 65536)
    | _ => .error .verifyNotReached
  | 2 =>
    let fullDisplacement := SET8BITREGISTERLOW 0 displacementLow
    let fullDisplacement := SET8BITREGISTERHIGH fullDisplacement displacementHigh
    match rmBits with
    | 0 => pure (segment, (p.m_BX + p.m_sourceIndex + fullDisplacement) % 65536)
    | 1 => pure (segment, (p.m_BX + p.m_destinationIndex + fullDisplacement) % 65536)
    | 2 =>
      pure (p.m_stackSegment, (p.m_basePointer + p.m_sourceIndex + fullDisplacement) % 65536)
    | 3 =>
      pure (p.m_stackSegment,
        (p.m_basePointer + p.m_destinationIndex + fullDisplacement) % 65536)
    | 4 => pure (segment, (p.m_sourceIndex + fullDisplacement) % 65536)
    | 5 => pure (segment, (p.m_destinationIndex + fullDisplacement) % 65536)
    | 6 => pure (segment, (p.m_basePointer + fullDisplacement) % 65536)
    | 7 => pure (segment, (p.m_BX + fullDisplacement) % 65536)
    | _ => .error .verifyNotReached
  | _ => .error .verifyNotReached

/-! ## Shifts, rotates, the displacement loader and the stubs -/

/-- Embeds `Processor::ins$LOCK`, whose body is `TODO()`. -/
def ins_LOCK (_p : Processor) : Except Fault Processor := .error .todo

/-- The loop `while (counter != 0) { ...; counter--; }` of
`Processor::ins$RCRregisterByCLWord`, by recursion on the local `counter`; the
local `registerValue` is carried along. -/
def ins_RCRregisterByCLWord_loop : Nat → Processor → Nat → Nat → Except Fault Processor
  | 0, p, _, _ => pure p
  | counter + 1, p, REG, registerValue => do
    let bitZeroBefore := IS_BIT_SET registerValue 0
    let registerValue := registerValue >>> 1
    let registerValue :=
      if IS_BIT_SET p.m_flags CARRY_FLAG then SET_FLAG_BIT registerValue 15
      else CLEAR_FLAG_BIT registerValue 15
    let p := p.withFlag CARRY_FLAG bitZeroBefore
    let p ← p.updateRegisterFromREG16 REG registerValue
    ins_RCRregisterByCLWord_loop counter p REG registerValue

/-- Embeds `Processor::ins$RCRregisterByCLWord`. -/
def ins_RCRregisterByCLWord (p : Processor) (REG : Nat) : Except Fault Processor := do
  let registerValue ← p.getRegisterFromREG16 REG
  let counter := p.CL
  ins_RCRregisterByCLWord_loop counter p REG registerValue

/-- The loop of `Processor::ins$SHRregisterByCLByte`, by recursion on the local
`counter`; the locals `registerValue` and `MSBbefore` are carried along.  The
local `bitZeroBefore` of the source is never read. -/
def ins_SHRregisterByCLByte_loop :
    Nat → Processor → Nat → Nat → Bool → Except Fault Processor
  | 0, p, _, _, _ => pure p
  | counter + 1, p, rmBits, registerValue, MSBbefore => do
    let setCarry := decide ((registerValue : Int) > SCHAR_MAX)
    let registerValue := registerValue >>> 1
    let p := p.setFlagsAfterLogicalOperationByte registerValue
    let p := p.withFlag CARRY_FLAG setCarry
    let p := p.withFlag OVERFLOW_FLAG MSBbefore
    let p ← p.updateRegisterFromREG8 rmBits registerValue
    ins_SHRregisterByCLByte_loop counter p rmBits registerValue MSBbefore

/-- Embeds `Processor::ins$SHRregisterByCLByte`. -/
def ins_SHRregisterByCLByte (p : Processor) (rmBits : Nat) : Except Fault Processor := do
  let registerValue ← p.getRegisterValueFromREG8 rmBits
  let MSBbefore := IS_BIT_SET registerValue 7
  let counter := p.CL
  ins_SHRregisterByCLByte_loop counter p rmBits registerValue MSBbefore

/-- The loop of `Processor::ins$SHRregisterByCLWord`, by recursion on the local
`counter`; the locals `registerValue` and `MSBbefore` are carried along.  The
local `bitZeroBefore` of the source is never read. -/
def ins_SHRregisterByCLWord_loop :
    Nat → Processor → Nat → Nat → Bool → Except Fault Processor
  | 0, p, _, _, _ => pure p
  | counter + 1, p, rmBits, registerValue, MSBbefore => do
    let setCarry := decide ((registerValue : Int) > SHRT_MAX)
    let registerValue := registerValue >>> 1
    let p := p.setFlagsAfterLogicalOperationWord registerValue
    let p := p.withFlag CARRY_FLAG setCarry
    let p := p.withFlag OVERFLOW_FLAG MSBbefore
    let p ← p.updateRegisterFromREG16 rmBits registerValue
    ins_SHRregisterByCLWord_loop counter p rmBits registerValue MSBbefore

/-- Embeds `Processor::ins$SHRregisterByCLWord`. -/
def ins_SHRregisterByCLWord (p : Processor) (rmBits : Nat) : Except Fault Processor := do
  let registerValue ← p.getRegisterFromREG16 rmBits
  let MSBbefore := IS_BIT_SET registerValue 15
  let counter := p.CL
  ins_SHRregisterByCLWord_loop counter p rmBits registerValue MSBbefore

/-- Embeds `Processor::ins$SHRregisterOnceByte`. -/
def ins_SHRregisterOnceByte (p : Processor) (rmBits : Nat) : Except Fault Processor := do
  let registerValue ← p.getRegisterValueFromREG8 rmBits
  let MSBbefore := IS_BIT_SET registerValue 7
  let setCarry := IS_BIT_SET registerValue 0
  let registerValue := registerValue >>> 1
  let p := p.setFlagsAfterLogicalOperationByte registerValue
  let p := p.withFlag CARRY_FLAG setCarry
  let p := p.withFlag OVERFLOW_FLAG MSBbefore
  p.updateRegisterFromREG8 rmBits registerValue

/-- Embeds `Processor::ins$SHRregisterOnceWord`. -/
def ins_SHRregisterOnceWord (p : Processor) (rmBits : Nat) : Except Fault Processor := do
  let registerValue ← p.getRegisterFromREG16 rmBits
  let MSBbefore := IS_BIT_SET registerValue 15
  let setCarry := IS_BIT_SET registerValue 0
  let registerValue := registerValue >>> 1
  let p := p.setFlagsAfterLogicalOperationWord registerValue
  let p := p.withFlag CARRY_FLAG setCarry
  let p := p.withFlag OVERFLOW_FLAG MSBbefore
  p.updateRegisterFromREG16 rmBits registerValue

/-- Embeds `Processor::loadDisplacementsFromInstructionStream`.  The two reference
parameters `displacementLowByte` and `displacementHighByte` come in with their
current values and go out, after the processor, as the second and third
component. -/
def loadDisplacementsFromInstructionStream (p : Processor) (memoryManager : MemoryManager)
    (modBits rmBits displacementLowByte displacementHighByte : Nat) : Processor × Nat × Nat :=
  if modBits = 1 then
    let displacementLowByte := memoryManager.readByte p.m_codeSegment p.m_instructionPointer
    let p := { p with m_instructionPointer := toU16 (p.m_instructionPointer + 1) }
    (p, displacementLowByte, displacementHighByte)
  else if modBits = 2 then
    let displacementLowByte := memoryManager.readByte p.m_codeSegment p.m_instructionPointer
    let p := { p with m_instructionPointer := toU16 (p.m_instructionPointer + 1) }
    let displacementHighByte := memoryManager.readByte p.m_codeSegment p.m_instructionPointer
    let p := { p with m_instructionPointer := toU16 (p.m_instructionPointer + 1) }
    (p, displacementLowByte, displacementHighByte)
  else
    if rmBits = 6 then
      let displacementLowByte := memoryManager.readByte p.m_codeSegment p.m_instructionPointer
      let p := { p with m_instructionPointer := toU16 (p.m_instructionPointer + 1) }
      let displacementHighByte :=
        memoryManager.readByte p.m_codeSegment p.m_instructionPointer
      let p := { p with m_instructionPointer := toU16 (p.m_instructionPointer + 1) }
      (p, displacementLowByte, displacementHighByte)
    else (p, displacementLowByte, displacementHighByte)

/-! ## Fetch, decode, dispatch -/

/-- Modelled from the spec: the macro `LOAD_NEXT_INSTRUCTION_BYTE` (not in the
sources) reads the byte at `CS:IP` and advances `IP` by one. -/
def LOAD_NEXT_INSTRUCTION_BYTE (p : Processor) (memoryManager : MemoryManager) :
    Nat × Processor :=
  (memoryManager.readByte p.m_codeSegment p.m_instructionPointer,
   { p with m_instructionPointer := toU16 (p.m_instructionPointer + 1) })

/-- Modelled from the spec: the macro `LOAD_NEXT_INSTRUCTION_WORD` (not in the
sources) reads the little-endian word at `CS:IP` and advances `IP` by two. -/
def LOAD_NEXT_INSTRUCTION_WORD (p : Processor) (memoryManager : MemoryManager) :
    Nat × Processor :=
  (memoryManager.readWord p.m_codeSegment p.m_instructionPointer,
   { p with m_instructionPointer := toU16 (p.m_instructionPointer + 2) })

/-- Modelled from the spec: the macro `LOAD_INCREMENT_BYTE` (not in the sources)
reads the byte at `CS:IP` as a signed 8-bit displacement and advances `IP` by one. -/
def LOAD_INCREMENT_BYTE (p : Processor) (memoryManager : MemoryManager) : Int × Processor :=
  (toI8 (memoryManager.readByte p.m_codeSegment p.m_instructionPointer),
   { p with m_instructionPointer := toU16 (p.m_instructionPointer + 1) })

/-- Modelled from the spec: the macro `LOAD_INCREMENT_WORD` (not in the sources)
reads the little-endian word at `CS:IP` as a signed 16-bit displacement and
advances `IP` by two. -/
def LOAD_INCREMENT_WORD (p : Processor) (memoryManager : MemoryManager) : Int × Processor :=
  (toI16 (memoryManager.readWord p.m_codeSegment p.m_instructionPointer),
   { p with m_instructionPointer := toU16 (p.m_instructionPointer + 2) })

/-- Modelled from the spec: the macro `IS_BIT_NOT_SET(value, bit)` (not in the
sources), the negation of `IS_BIT_SET`. -/
def IS_BIT_NOT_SET (value bit : Nat) : Bool := !IS_BIT_SET value bit

/-- The common shape of the cases `0x70 .. 0x7F` of the opcode switch: load the
displacement, then `ins$JMPshort` if the condition holds. -/
def shortJumpIf (p : Processor) (memoryManager : MemoryManager) (condition : Nat → Bool) :
    Except Fault (Processor × MemoryManager) :=
  let (increment, p) := p.LOAD_INCREMENT_BYTE memoryManager
  if condition p.m_flags then pure (p.ins_JMPshort increment, memoryManager)
  else pure (p, memoryManager)

/-- Modelled from the spec: the macro `PARSE_MOD_REG_RM_BITS` (not in the sources)
splits a ModR/M byte into `mod[7:6]`, `reg[5:3]`, `rm[2:0]`. -/
def PARSE_MOD_REG_RM_BITS (byte : Nat) : Nat × Nat × Nat :=
  (byte / 64 % 4, byte / 8 % 8, byte % 8)

/-- Modelled from the spec: the macro `IS_IN_REGISTER_MODE` (not in the sources);
`mod == 11` selects register mode. -/
def IS_IN_REGISTER_MODE (modBits : Nat) : Bool := modBits == 3

/-- The `case` labels of the opcode switch of `Processor::execute`, in the order
and in the spelling of the source. -/
def opcodeCaseLabels : List Nat :=
  [
    0x00, 0x01, 0x02, 0x03, 0x04, 0x05, 0x06, 0x07, 0x08, 0x09, 0x0A, 0x0B,
    0x0C, 0x0D, 0x0E, 0x10, 0x11, 0x12, 0x13, 0x14, 0x15, 0x16, 0x017, 0x18,
    0x19, 0x1A, 0x1B, 0x1C, 0x1D, 0x1E, 0x1F, 0x20, 0x21, 0x22, 0x23, 0x24,
    0x25, 0x26, 0x27, 0x28, 0x29, 0x2A, 0x2B, 0x2C, 0x2D, 0x2E, 0x2F, 0x30,
    0x31, 0x32, 0x33, 0x34, 0x35, 0x36, 0x37, 0x38, 0x39, 0x3A, 0x3B, 0x3C,
    0x3D, 0x3E, 0x3F, 0x40, 0x41, 0x42, 0x43, 0x44, 0x45, 0x46, 0x47, 0x48,
    0x49, 0x4A, 0x4B, 0x4C, 0x4D, 0x4E, 0x4F, 0x50, 0x51, 0x52, 0x53, 0x54,
    0x55, 0x56, 0x57, 0x58, 0x59, 0x5A, 0x5B, 0x5C, 0x5D, 0x5E, 0x5F, 0x70,
    0x71, 0x72, 0x73, 0x74, 0x75, 0x76, 0x77, 0x78, 0x79, 0x7A, 0x7B, 0x7C,
    0x7D, 0x7E, 0x7F, 0x80, 0x81, 0x82, 0x83, 0x84, 0x85, 0x86, 0x87, 0x88,
    0x89, 0x8A, 0x8B, 0x8C, 0x8D, 0x8E, 0x8F, 0x90, 0x91, 0x92, 0x93, 0x94,
    0x95, 0x96, 0x97, 0x98, 0x99, 0x9A, 0x9B, 0x9C, 0x9D, 0x9E, 0x9F, 0xA0,
    0xA1, 0xA2, 0xA3, 0xA4, 0xA5, 0xA6, 0xA7, 0xA8, 0xA9, 0xAA, 0xAB, 0xAC,
    0xAD, 0xAE, 0xAF, 0xB0, 0xB1, 0xB2, 0xB3, 0xB4, 0xB5, 0xB6, 0xB7, 0xB8,
    0xB9, 0xBA, 0xBB, 0xBC, 0xBD, 0xBE, 0xBF, 0xC2, 0xC3, 0xC4, 0xC5, 0xC6,
    0xC7, 0xCA, 0xCB, 0xCC, 0xCD, 0xCE, 0xCF, 0xD0, 0xD1, 0xD2, 0xD3, 0xD4,
    0xD5, 0xD7, 0xD8, 0xD9, 0xDA, 0xDB, 0xDC, 0xDD, 0xDE, 0xDF, 0xE0, 0xE1,
    0xE2, 0xE3, 0xE4, 0xE5, 0xE6, 0xE7, 0xE8, 0xE9, 0xEA, 0xEB, 0xEC, 0xED,
    0xEE, 0xEF, 0xF0, 0xF2, 0xF3, 0xF4, 0xF5, 0xF6, 0xF7, 0xF8, 0xF9, 0xFA,
    0xFB, 0xFC, 0xFD, 0xFE, 0xFF, 0x0F, 0x60, 0x61, 0x62, 0x63, 0x64, 0x65,
    0x66, 0x67, 0x68, 0x69, 0x6A, 0x6B, 0x6C, 0x6D, 0x6E, 0x6F, 0xC0, 0xC1,
    0xC8, 0xC9, 0xD6, 0xF1]

/-- The opcode switch of `Processor::execute` takes its `default:` branch: no `case`
label equals the opcode. -/
def takesDefaultBranch (opcode : Nat) : Bool := !opcodeCaseLabels.contains opcode

/-- The opcode switch of `Processor::execute`, for the opcodes embedded so far:
the four segment-override prefixes, the short conditional jumps `0x70 .. 0x7F`,
the register-mode forms of `0x8A` and `0x8B`, `NOP`, the string primitives `0xA5`,
`0xAA .. 0xAD`, `RET` near (`0xC3`), `CALL` near (`0xE8`), `JMP` far (`0xEA`),
`LOCK` (`0xF0`), the register-mode forms of the groups `0xF6`, `0xF7` and `0xFF`,
and the opcodes the source lists as known unused.  Every other opcode form that
has a `case` yields `outsideFragment`; an opcode without a `case` reaches
`default:`. -/
def dispatch (p : Processor) (memoryManager : MemoryManager) (opcode : Nat) :
    Except Fault (Processor × MemoryManager) :=
  match opcode with
  | 0x26 => pure ({ p with m_segmentPrefix := REGISTER_ES }, memoryManager)
  | 0x2E => pure ({ p with m_segmentPrefix := REGISTER_CS }, memoryManager)
  | 0x36 => pure ({ p with m_segmentPrefix := REGISTER_SS }, memoryManager)
  | 0x3E => pure ({ p with m_segmentPrefix := REGISTER_DS }, memoryManager)
  | 0x70 => p.shortJumpIf memoryManager (fun f => IS_BIT_SET f OVERFLOW_FLAG)
  | 0x71 => p.shortJumpIf memoryManager (fun f => IS_BIT_NOT_SET f OVERFLOW_FLAG)
  | 0x72 => p.shortJumpIf memoryManager (fun f => IS_BIT_SET f CARRY_FLAG)
  | 0x73 => p.shortJumpIf memoryManager (fun f => IS_BIT_NOT_SET f CARRY_FLAG)
  | 0x74 => p.shortJumpIf memoryManager (fun f => IS_BIT_SET f ZERO_FLAG)
  | 0x75 => p.shortJumpIf memoryManager (fun f => IS_BIT_NOT_SET f ZERO_FLAG)
  | 0x76 => p.shortJumpIf memoryManager
      (fun f => IS_BIT_SET f CARRY_FLAG || IS_BIT_SET f ZERO_FLAG)
  | 0x77 => p.shortJumpIf memoryManager
      (fun f => IS_BIT_NOT_SET f CARRY_FLAG && IS_BIT_NOT_SET f ZERO_FLAG)
  | 0x78 => p.shortJumpIf memoryManager (fun f => IS_BIT_SET f SIGN_FLAG)
  | 0x79 => p.shortJumpIf memoryManager (fun f => IS_BIT_NOT_SET f SIGN_FLAG)
  | 0x7A => p.shortJumpIf memoryManager (fun f => IS_BIT_SET f PARITY_FLAG)
  | 0x7B => p.shortJumpIf memoryManager (fun f => IS_BIT_NOT_SET f PARITY_FLAG)
  | 0x7C => p.shortJumpIf memoryManager
      (fun f => IS_BIT_SET f SIGN_FLAG != IS_BIT_SET f OVERFLOW_FLAG)
  | 0x7D => p.shortJumpIf memoryManager
      (fun f => IS_BIT_SET f SIGN_FLAG == IS_BIT_SET f OVERFLOW_FLAG)
  | 0x7E => p.shortJumpIf memoryManager
      (fun f => IS_BIT_SET f ZERO_FLAG ||
        (IS_BIT_SET f SIGN_FLAG != IS_BIT_SET f OVERFLOW_FLAG))
  | 0x7F => p.shortJumpIf memoryManager
      (fun f => IS_BIT_NOT_SET f ZERO_FLAG &&
        (IS_BIT_SET f SIGN_FLAG == IS_BIT_SET f OVERFLOW_FLAG))
  | 0x8A =>
    let (byte, p) := p.LOAD_NEXT_INSTRUCTION_BYTE memoryManager
    let (modBits, regBits, rmBits) := PARSE_MOD_REG_RM_BITS byte
    if IS_IN_REGISTER_MODE modBits then
      p.ins_MOV memoryManager (.Register8 rmBits) (.Register8 regBits)
    else .error .outsideFragment
  | 0x8B =>
    let (byte, p) := p.LOAD_NEXT_INSTRUCTION_BYTE memoryManager
    let (modBits, regBits, rmBits) := PARSE_MOD_REG_RM_BITS byte
    if IS_IN_REGISTER_MODE modBits then
      p.ins_MOV memoryManager (.Register8 rmBits) (.Register8 regBits)
    else .error .outsideFragment
  | 0x90 => pure (p, memoryManager)
  | 0xA5 => pure (p.ins_MOVSword memoryManager)
  | 0xAA => pure (p.ins_STOSbyte memoryManager)
  | 0xAB => pure (p.ins_STOSword memoryManager)
  | 0xAC => pure (p.ins_LODSbyte memoryManager, memoryManager)
  | 0xAD => pure (p.ins_LODSword memoryManager, memoryManager)
  | 0xC3 => pure (p.ins_RETnear memoryManager, memoryManager)
  | 0xE8 =>
    let (word, p) := p.LOAD_INCREMENT_WORD memoryManager
    pure (p.ins_CALLnear memoryManager word)
  | 0xEA =>
    let (instructionPointer, p) := p.LOAD_NEXT_INSTRUCTION_WORD memoryManager
    let (codeSegment, p) := p.LOAD_NEXT_INSTRUCTION_WORD memoryManager
    pure (p.ins_JMPinterSegment codeSegment instructionPointer, memoryManager)
  | 0xF0 => do pure (← p.ins_LOCK, memoryManager)
  | 0xF6 =>
    let (byte, p) := p.LOAD_NEXT_INSTRUCTION_BYTE memoryManager
    let (modBits, regBits, rmBits) := PARSE_MOD_REG_RM_BITS byte
    if IS_IN_REGISTER_MODE modBits then
      match regBits with
      | 0 =>
        let (immediate, p) := p.LOAD_NEXT_INSTRUCTION_BYTE memoryManager
        p.ins_TEST memoryManager (.Register8 rmBits) (.Immediate8 immediate)
      | 2 => .error .todo
      | 3 => .error .todo
      | 4 => do pure (← p.ins_MULregisterByte rmBits, memoryManager)
      | 5 => .error .todo
      | 6 => do pure (← p.ins_DIVregisterByte rmBits, memoryManager)
      | 7 => .error .todo
      | _ => .error .illegalInstruction
    else .error .outsideFragment
  | 0xF7 =>
    let (byte, p) := p.LOAD_NEXT_INSTRUCTION_BYTE memoryManager
    let (modBits, regBits, rmBits) := PARSE_MOD_REG_RM_BITS byte
    if IS_IN_REGISTER_MODE modBits then
      match regBits with
      | 0 =>
        let (immediate, p) := p.LOAD_NEXT_INSTRUCTION_WORD memoryManager
        p.ins_TEST memoryManager (.Register16 rmBits) (.Immediate16 immediate)
      | 2 => do pure (← p.ins_NOTregisterWord rmBits, memoryManager)
      | 3 => .error .todo
      | 4 => do pure (← p.ins_MULregisterWord rmBits, memoryManager)
      | 5 => .error .todo
      | 6 => do pure (← p.ins_DIVregisterWord rmBits, memoryManager)
      | 7 => .error .todo
      | _ => .error .illegalInstruction
    else .error .outsideFragment
  | 0xFF =>
    let (byte, p) := p.LOAD_NEXT_INSTRUCTION_BYTE memoryManager
    let (modBits, regBits, rmBits) := PARSE_MOD_REG_RM_BITS byte
    if IS_IN_REGISTER_MODE modBits then
      match regBits with
      | 2 => p.ins_INC memoryManager (.Register16 rmBits)
      | 4 => p.ins_DEC memoryManager (.Register16 rmBits)
      | _ => .error .verifyNotReached
    else .error .outsideFragment
  | 0x0F | 0x60 | 0x61 | 0x62 | 0x63 | 0x64 | 0x65 | 0x66 | 0x67 | 0x68 | 0x69 | 0x6A | 0x6B
  | 0x6C | 0x6D | 0x6E | 0x6F | 0xC0 | 0xC1 | 0xC8 | 0xC9 | 0xD6 | 0xF1 =>
    .error .unknownInstruction
  | _ => if takesDefaultBranch opcode then .error .verifyNotReached else .error .outsideFragment

/-- Embeds `Processor::execute`: the cycle counter, the segment-override age
counter, the interrupt gate, the fetch, and the opcode switch (`dispatch`).
Logging has no effect on the state and is left out. -/
def execute (p : Processor) (memoryManager : MemoryManager) (io : IOManager) :
    Except Fault (Processor × MemoryManager × IOManager) :=
  if p.m_cyclesToWait > 0 then
    pure ({ p with m_cyclesToWait := p.m_cyclesToWait - 1 }, memoryManager, io)
  else
    let p :=
      if p.m_segmentPrefix ≠ EMPTY_SEGMENT_OVERRIDE then
        { p with m_segmentPrefixCounter := p.m_segmentPrefixCounter + 1 }
      else p
    if p.m_segmentPrefixCounter = 2 then
      .error .verifyNotReached
    else if IS_BIT_SET p.m_flags INTERRUPT_ENABLE_FLAG && io.hasPendingInterrupts then
      let (interrupt, io) := io.getPendingInterrupt
      let (p, memoryManager) := p.ins_INT memoryManager interrupt
      pure (p, memoryManager, io)
    else if p.m_internalInterrupt ≠ 0 then
      let interrupt := toU16 (p.m_internalInterrupt - 1)
      let p := { p with m_internalInterrupt := 0 }
      let (p, memoryManager) := p.ins_INT memoryManager interrupt
      pure (p, memoryManager, io)
    else
      let (hopefully_an_instruction, p) := p.LOAD_NEXT_INSTRUCTION_BYTE memoryManager
      if p.m_instructionPointer = 0xf929 then
        .error .todo
      else do
        let (p, memoryManager) ← p.dispatch memoryManager hopefully_an_instruction
        pure (p, memoryManager, io)

end Processor

/-! ## Vocabulary for stating the claims -/

/-- Width in bits of an operand size. -/
def OperandSize.bits : OperandSize → Nat
  | .Byte => 8
  | .Word => 16

namespace Operand

/-- Read of an operand at a given size (`valueByte` or `valueWord`). -/
def value (o : Operand) (operandSize : OperandSize) (p : Processor) (mm : MemoryManager) :
    Except Fault Nat :=
  match operandSize with
  | .Byte => o.valueByte p mm
  | .Word => o.valueWord p mm

/-- Operands that can be a destination: a register with a valid index, or memory. -/
def writable : Operand → Bool
  | Register8 reg => decide (reg < 8)
  | Register16 reg => decide (reg < 8)
  | SegmentRegister segreg => decide (segreg < 4)
  | Memory8 _ _ => true
  | Memory16 _ _ => true
  | Immediate8 _ => false
  | Immediate16 _ => false

end Operand

/-- The overflow formula the spec gives for `ADD` at width `n`: bit `n - 1` of
`(~(a ^ b)) & (a ^ result)` with `result = (a + b) mod 2 ^ n`. -/
def specOverflowADD (n a b : Nat) : Bool :=
  Nat.testBit ((((2 ^ n - 1) ^^^ (a ^^^ b)) &&& (a ^^^ ((a + b) % 2 ^ n)))) (n - 1)

/-- The flag outcome the spec gives for a logical operation with result `result` at
width `n`: CF and OF cleared, ZF set exactly when the result is zero, SF equal to
the top bit of the result. -/
def logicalFlags (flags result n : Nat) : Prop :=
  IS_BIT_SET flags CARRY_FLAG = false ∧ IS_BIT_SET flags OVERFLOW_FLAG = false ∧
  (IS_BIT_SET flags ZERO_FLAG = true ↔ result = 0) ∧
  IS_BIT_SET flags SIGN_FLAG = Nat.testBit result (n - 1)

/-- A processor whose general registers `AX`, `BX` and FLAGS are given, every other
register zero, with no segment override, no pending internal interrupt and a
cycle counter of zero. -/
def stateWith (ax bx flags : Nat) : Processor :=
  { m_AX := ax, m_BX := bx, m_CX := 0, m_DX := 0
    m_stackPointer := 0, m_basePointer := 0, m_sourceIndex := 0, m_destinationIndex := 0
    m_codeSegment := 0, m_dataSegment := 0, m_stackSegment := 0, m_extraSegment := 0
    m_instructionPointer := 0, m_flags := flags
    m_segmentPrefix := EMPTY_SEGMENT_OVERRIDE, m_segmentPrefixCounter := 0
    m_internalInterrupt := 0, m_cyclesToWait := 0 }

/-- A memory that holds `bytes` from physical address `base` on and zero elsewhere. -/
def memoryWithBytes (base : Nat) (bytes : List Nat) : MemoryManager :=
  fun address =>
    if base ≤ address ∧ address < base + bytes.length then bytes.getD (address - base) 0 else 0

/-- The scenario of the spec for `DIV` by zero: `AX = 0x1234`, `BL = 0x00`, no flag
set, with `CS:IP = 0000:0100` and `SS:SP = 0000:0400`. -/
def divideScenario : Processor :=
  { stateWith 0x1234 0x0000 0 with m_instructionPointer := 0x100, m_stackPointer := 0x400 }

/-- A state in the middle of a program: `CS:IP = 1000:0200`, `SS:SP = 2000:0100`,
`AX = 0x1234`, `BX = 0x5678`, FLAGS `= 0x0346` (PF, ZF, TF and IF set). -/
def interruptScenario : Processor :=
  { stateWith 0x1234 0x5678 0x0346 with
    m_codeSegment := 0x1000, m_instructionPointer := 0x0200
    m_stackSegment := 0x2000, m_stackPointer := 0x0100 }

/-- A memory whose interrupt vector `0x21` (at `0000:0084`) is `F000:1234`. -/
def vectorTable : MemoryManager := memoryWithBytes 0x84 [0x34, 0x12, 0x00, 0xF0]

/-- The standard condition of the short conditional jump with opcode `0x70 .. 0x7F`,
as the spec lists it: `0x70` OF=1, `0x71` OF=0, `0x72` CF=1, `0x73` CF=0, `0x74` ZF=1,
`0x75` ZF=0, `0x76` CF=1 or ZF=1, `0x77` CF=0 and ZF=0, `0x78` SF=1, `0x79` SF=0,
`0x7A` PF=1, `0x7B` PF=0, `0x7C` SF≠OF, `0x7D` SF=OF, `0x7E` ZF=1 or SF≠OF,
`0x7F` ZF=0 and SF=OF. -/
def jumpCondition (opcode flags : Nat) : Bool :=
  let cf := Nat.testBit flags 0
  let pf := Nat.testBit flags 2
  let zf := Nat.testBit flags 6
  let sf := Nat.testBit flags 7
  let of := Nat.testBit flags 11
  match opcode with
  | 0x70 => of
  | 0x71 => !of
  | 0x72 => cf
  | 0x73 => !cf
  | 0x74 => zf
  | 0x75 => !zf
  | 0x76 => cf || zf
  | 0x77 => !cf && !zf
  | 0x78 => sf
  | 0x79 => !sf
  | 0x7A => pf
  | 0x7B => !pf
  | 0x7C => sf != of
  | 0x7D => sf == of
  | 0x7E => zf || (sf != of)
  | 0x7F => !zf && (sf == of)
  | _ => false

/-- The state `interruptScenario` (IF set) with a divide error pending: the internal
slot holds 1, which stands for vector 0. -/
def pendingDivideError : Processor := { interruptScenario with m_internalInterrupt := 1 }

/-- A memory whose vector 0 is `1111:2222` and whose vector 8 (at `0000:0020`) is
`7777:8888`. -/
def twoVectors : MemoryManager :=
  memoryWithBytes 0 ([0x22, 0x22, 0x11, 0x11] ++ List.replicate 28 0 ++ [0x88, 0x88, 0x77, 0x77])

/-- An I/O manager with the single hardware interrupt vector 8 pending. -/
def oneIRQ : IOManager := { pendingInterrupts := [0x08] }

/-- The scenario of the spec for `PUSHF` / `POPF`: FLAGS `= 0x0246`, with
`SS:SP = 2000:0100`. -/
def flagsScenario : Processor := { interruptScenario with m_flags := 0x0246 }

/-- Everything in the processor outside the eight general registers is the same
in `q` as in `p`: FLAGS, the segment registers, `IP`, and the bookkeeping of the
stepper. -/
def Processor.sameOutsideGeneralRegisters (q p : Processor) : Prop :=
  q.m_flags = p.m_flags ∧ q.m_codeSegment = p.m_codeSegment ∧
  q.m_dataSegment = p.m_dataSegment ∧ q.m_stackSegment = p.m_stackSegment ∧
  q.m_extraSegment = p.m_extraSegment ∧ q.m_instructionPointer = p.m_instructionPointer ∧
  q.m_segmentPrefix = p.m_segmentPrefix ∧
  q.m_segmentPrefixCounter = p.m_segmentPrefixCounter ∧
  q.m_internalInterrupt = p.m_internalInterrupt ∧ q.m_cyclesToWait = p.m_cyclesToWait

/-- An I/O manager with no pending hardware interrupt. -/
def quietIO : IOManager := { pendingInterrupts := [] }

/-- Run `n` consecutive steps of `Processor::execute`. -/
def steps : Nat → Processor × MemoryManager × IOManager →
    Except Fault (Processor × MemoryManager × IOManager)
  | 0, s => pure s
  | n + 1, s => do
    let s ← s.1.execute s.2.1 s.2.2
    steps n s

/-- An index register that has moved once by `size` in the direction FLAGS selects:
from `before` to `before + size` when DF is clear, to `before - size` when DF is
set, modulo `2 ^ 16`. -/
def movedOnce (size flags before after : Nat) : Prop :=
  after =
    if IS_BIT_SET flags DIRECTION_FLAG then toU16 ((before : Int) - size)
    else toU16 ((before : Int) + size)

/-- The single `MOVSW` primitive executed `n` times in sequence. -/
def MOVSword_times : Nat → Processor × MemoryManager → Processor × MemoryManager
  | 0, s => s
  | n + 1, s => MOVSword_times n (s.1.ins_MOVSword s.2)

/-- The scenario of the spec for `REP MOVSW`: `CX = 3`, `DS:SI = 3000:0010`,
`ES:DI = 4000:0020`, DF clear. -/
def stringScenario : Processor :=
  { stateWith 0 0 0 with
    m_CX := 3, m_dataSegment := 0x3000, m_sourceIndex := 0x0010
    m_extraSegment := 0x4000, m_destinationIndex := 0x0020 }

/-- A memory whose six bytes at `3000:0010` are `11 22 33 44 55 66` and which is
empty (zero) elsewhere. -/
def sixBytes : MemoryManager := memoryWithBytes 0x30010 [0x11, 0x22, 0x33, 0x44, 0x55, 0x66]

/-- A memory made of several regions of bytes, zero elsewhere; where regions
overlap the earlier one in the list is seen. -/
def memoryWithRegions : List (Nat × List Nat) → MemoryManager
  | [] => fun _ => 0
  | (base, bytes) :: rest => fun address =>
    if base ≤ address ∧ address < base + bytes.length then bytes.getD (address - base) 0
    else memoryWithRegions rest address

/-- A state in the middle of a program that is about to use a string source:
`CS:IP = 1000:0200`, `SS:SP = 2000:0100`, `DS = 0x3000`, `ES = 0x4000`,
`SI = 0x0010`, `DI = 0x0020`, `AX = 0x1234`, DF clear, no override pending. -/
def overrideScenario : Processor :=
  { interruptScenario with
    m_dataSegment := 0x3000, m_extraSegment := 0x4000
    m_sourceIndex := 0x0010, m_destinationIndex := 0x0020 }

/-- A memory with the three instruction bytes `override, opcode, NOP` at `1000:0200`
and a different word at offset `0x0010` of each segment: `0x2211` in DS, `0xBBAA`
in ES, `0xDDCC` in CS, `0xFFEE` in SS. -/
def overrideProgram (override opcode : Nat) : MemoryManager :=
  memoryWithRegions
    [(0x10200, [override, opcode, 0x90]), (0x30010, [0x11, 0x22]), (0x40010, [0xAA, 0xBB]),
      (0x10010, [0xCC, 0xDD]), (0x20010, [0xEE, 0xFF])]

/-- The base of the addressing form `rm` as the spec lists them: `BX+SI`, `BX+DI`,
`BP+SI`, `BP+DI`, `SI`, `DI`, `BP`, `BX` for `rm = 0 .. 7`. -/
def specBase (p : Processor) (rm : Nat) : Nat :=
  match rm with
  | 0 => p.m_BX + p.m_sourceIndex
  | 1 => p.m_BX + p.m_destinationIndex
  | 2 => p.m_basePointer + p.m_sourceIndex
  | 3 => p.m_basePointer + p.m_destinationIndex
  | 4 => p.m_sourceIndex
  | 5 => p.m_destinationIndex
  | 6 => p.m_basePointer
  | _ => p.m_BX

/-- The displacement of an addressing form as the spec gives it: `0` for `mod = 00`,
the sign-extension of `lo` for `mod = 01`, `hi * 256 + lo` for `mod = 10`. -/
def specDisplacement (modBits lo hi : Nat) : Int :=
  match modBits with
  | 0 => 0
  | 1 => if lo ≥ 128 then (lo : Int) - 256 else lo
  | _ => hi * 256 + lo

/-- The offset of an addressing form as the spec gives it: base plus displacement
modulo `2 ^ 16`, except that `mod = 00` with `rm = 110` is `hi * 256 + lo` alone. -/
def specEffectiveOffset (p : Processor) (modBits rm lo hi : Nat) : Nat :=
  if modBits = 0 ∧ rm = 6 then hi * 256 + lo
  else ((specBase p rm + specDisplacement modBits lo hi) % 65536).toNat

/-- The addressing forms that contain BP, as the spec lists them: `rm = 010` and
`rm = 011` for any `mod`, and `rm = 110` for `mod = 01` and for `mod = 10`. -/
def specContainsBP (modBits rm : Nat) : Bool :=
  rm == 2 || rm == 3 || (rm == 6 && (modBits == 1 || modBits == 2))

/-- A state whose `SS` is `0x2000` and whose `BP` is `0x0100`, with `DS = 0x3000`
to be handed in as the default segment. -/
def addressScenario : Processor :=
  { overrideScenario with m_basePointer := 0x0100 }

/-- A state that has to wait three more cycles while a divide error and (with
`oneIRQ`) a hardware interrupt are pending and IF is set. -/
def waitingScenario : Processor :=
  { pendingDivideError with m_cyclesToWait := 3 }

/-- The first opcode bytes the spec lists as undefined on the 8086: `0x0F`,
`0x60 .. 0x6F`, `0xC0`, `0xC1`, `0xC8`, `0xC9`, `0xD6`, `0xF1`. -/
def specUndefinedOpcode (opcode : Nat) : Bool :=
  opcode == 0x0F || (0x60 ≤ opcode && opcode ≤ 0x6F) || opcode == 0xC0 || opcode == 0xC1 ||
    opcode == 0xC8 || opcode == 0xC9 || opcode == 0xD6 || opcode == 0xF1

/-- The number of displacement bytes of an addressing form as the spec gives it:
one for `mod = 01`, two for `mod = 10` and for `mod = 00` with `rm = 110`, none in
every other case, register mode (`mod = 11`) included. -/
def specDisplacementLength (modBits rmBits : Nat) : Nat :=
  if modBits = 1 then 1
  else if modBits = 2 ∨ (modBits = 0 ∧ rmBits = 6) then 2
  else 0

/-- The processor with `IP` advanced by `count` bytes (modulo `2 ^ 16`), and
untouched when `count` is zero. -/
def Processor.advanced (p : Processor) (count : Nat) : Processor :=
  if count = 0 then p
  else { p with m_instructionPointer := toU16 ((p.m_instructionPointer : Int) + count) }

/-- A state whose `BX` is `bx` and whose `CL` is `cl`, every other register and
FLAGS zero. -/
def shiftScenario (bx cl : Nat) : Processor :=
  { stateWith 0 bx 0 with m_CX := cl }

/-- One-bit right rotation of a 17-bit quantity: bit 0 moves to bit 16, every other
bit moves one place down. -/
def rotate17 (q : Nat) : Nat := q / 2 + q % 2 * 65536

/-- The 17-bit quantity formed by CF (as bit 16) and a 16-bit register value. -/
def carryAndRegister (flags value : Nat) : Nat :=
  (IS_BIT_SET flags CARRY_FLAG).toNat * 65536 + value

/-- A state whose `BX` is `0x8001`, whose `CL` is 17 and whose FLAGS has CF and ZF
set (`0x0041`). -/
def rotateScenario : Processor :=
  { stateWith 0 0x8001 0x0041 with m_CX := 17 }

open Processor

/-! ## Flag bits -/

theorem IS_BIT_SET_SET_FLAG_BIT (f b i : Nat) :
    IS_BIT_SET (SET_FLAG_BIT f b) i = (IS_BIT_SET f i || decide (b = i)) := by
  simp [IS_BIT_SET, SET_FLAG_BIT, Nat.testBit_or, Nat.one_shiftLeft, Nat.testBit_two_pow]

theorem IS_BIT_SET_CLEAR_FLAG_BIT (f b i : Nat) (hi : i < 16) :
    IS_BIT_SET (CLEAR_FLAG_BIT f b) i = (IS_BIT_SET f i && !decide (b = i)) := by
  have h : Nat.testBit 0xFFFF i = true := by
    have : (0xFFFF : Nat) = 2 ^ 16 - 1 := by norm_num
    rw [this, Nat.testBit_two_pow_sub_one]; simpa using hi
  simp [IS_BIT_SET, CLEAR_FLAG_BIT, Nat.testBit_and, Nat.testBit_xor, Nat.one_shiftLeft,
    Nat.testBit_two_pow, h]

namespace Processor

theorem IS_BIT_SET_withFlag (p : Processor) (b i : Nat) (c : Bool) (hi : i < 16) :
    IS_BIT_SET (p.withFlag b c).m_flags i = if b = i then c else IS_BIT_SET p.m_flags i := by
  unfold withFlag
  cases c <;> by_cases h : b = i <;>
    simp [IS_BIT_SET_SET_FLAG_BIT, IS_BIT_SET_CLEAR_FLAG_BIT, hi, h]

theorem IS_BIT_SET_setFlagsAfterArithmeticOperationByte (p : Processor) (byte i : Nat)
    (hi : i < 16) :
    IS_BIT_SET (p.setFlagsAfterArithmeticOperationByte byte).m_flags i =
      if i = PARITY_FLAG then IS_PARITY_EVEN byte
      else if i = ZERO_FLAG then decide (byte = 0)
      else if i = SIGN_FLAG then IS_BIT_SET byte 7
      else IS_BIT_SET p.m_flags i := by
  simp only [setFlagsAfterArithmeticOperationByte, IS_BIT_SET_withFlag _ _ _ _ hi, eq_comm]

theorem IS_BIT_SET_setFlagsAfterArithmeticOperationWord (p : Processor) (word i : Nat)
    (hi : i < 16) :
    IS_BIT_SET (p.setFlagsAfterArithmeticOperationWord word).m_flags i =
      if i = PARITY_FLAG then IS_PARITY_EVEN word
      else if i = ZERO_FLAG then decide (word = 0)
      else if i = SIGN_FLAG then IS_BIT_SET word 15
      else IS_BIT_SET p.m_flags i := by
  simp only [setFlagsAfterArithmeticOperationWord, IS_BIT_SET_withFlag _ _ _ _ hi, eq_comm]

theorem IS_BIT_SET_setFlagsAfterLogicalOperationByte (p : Processor) (byte i : Nat)
    (hi : i < 16) :
    IS_BIT_SET (p.setFlagsAfterLogicalOperationByte byte).m_flags i =
      if i = PARITY_FLAG then IS_PARITY_EVEN byte
      else if i = ZERO_FLAG then decide (byte = 0)
      else if i = SIGN_FLAG then IS_BIT_SET byte 7
      else if i = CARRY_FLAG then false
      else if i = OVERFLOW_FLAG then false
      else IS_BIT_SET p.m_flags i := by
  simp only [setFlagsAfterLogicalOperationByte, IS_BIT_SET_withFlag _ _ _ _ hi,
    IS_BIT_SET_CLEAR_FLAG_BIT _ _ _ hi, eq_comm]
  by_cases h1 : i = CARRY_FLAG <;> by_cases h2 : i = OVERFLOW_FLAG <;> simp [h1, h2]

theorem IS_BIT_SET_setFlagsAfterLogicalOperationWord (p : Processor) (word i : Nat)
    (hi : i < 16) :
    IS_BIT_SET (p.setFlagsAfterLogicalOperationWord word).m_flags i =
      if i = PARITY_FLAG then IS_PARITY_EVEN word
      else if i = ZERO_FLAG then decide (word = 0)
      else if i = SIGN_FLAG then IS_BIT_SET word 15
      else if i = CARRY_FLAG then false
      else if i = OVERFLOW_FLAG then false
      else IS_BIT_SET p.m_flags i := by
  simp only [setFlagsAfterLogicalOperationWord, IS_BIT_SET_withFlag _ _ _ _ hi,
    IS_BIT_SET_CLEAR_FLAG_BIT _ _ _ hi, eq_comm]
  by_cases h1 : i = CARRY_FLAG <;> by_cases h2 : i = OVERFLOW_FLAG <;> simp [h1, h2]

end Processor

/-! ## Memory: a write is read back -/

theorem MemoryManager.readByte_writeByte (mm : MemoryManager) (segment offset data : Nat) :
    (mm.writeByte segment offset data).readByte segment offset = data % 256 := by
  simp [MemoryManager.readByte, MemoryManager.writeByte]

theorem MemoryManager.readWord_writeWord (mm : MemoryManager) (segment offset data : Nat) :
    (mm.writeWord segment offset data).readWord segment offset = data % 65536 := by
  have hne : MemoryManager.physicalAddress segment offset ≠
      MemoryManager.physicalAddress segment ((offset + 1) % 65536) := by
    unfold MemoryManager.physicalAddress; omega
  simp only [MemoryManager.readWord, MemoryManager.readByte, MemoryManager.writeWord,
    MemoryManager.writeByte, if_pos, if_neg hne, ↓reduceIte]
  omega

/-! ## Operands: reads are independent of FLAGS, writes leave FLAGS alone -/

namespace Operand

theorem valueByte_flags (o : Operand) (p : Processor) (mm : MemoryManager) (f : Nat) :
    o.valueByte { p with m_flags := f } mm = o.valueByte p mm := by
  cases o <;> simp only [valueByte]
  unfold getRegisterValueFromREG8; rfl

theorem valueWord_flags (o : Operand) (p : Processor) (mm : MemoryManager) (f : Nat) :
    o.valueWord { p with m_flags := f } mm = o.valueWord p mm := by
  cases o <;> simp only [valueWord]
  · unfold getRegisterFromREG16; rfl
  · unfold getSegmentRegisterValue; rfl

theorem value_flags (o : Operand) (sz : OperandSize) (p : Processor) (mm : MemoryManager)
    (f : Nat) : o.value sz { p with m_flags := f } mm = o.value sz p mm := by
  cases sz <;> simp only [value, valueByte_flags, valueWord_flags]

theorem value_withFlag (o : Operand) (sz : OperandSize) (p : Processor) (mm : MemoryManager)
    (bit : Nat) (c : Bool) : o.value sz (p.withFlag bit c) mm = o.value sz p mm :=
  value_flags o sz p mm _

theorem value_setFlagsAfterArithmeticOperationByte (o : Operand) (sz : OperandSize)
    (p : Processor) (mm : MemoryManager) (byte : Nat) :
    o.value sz (p.setFlagsAfterArithmeticOperationByte byte) mm = o.value sz p mm := by
  simp only [setFlagsAfterArithmeticOperationByte, value_withFlag]

theorem value_setFlagsAfterArithmeticOperationWord (o : Operand) (sz : OperandSize)
    (p : Processor) (mm : MemoryManager) (word : Nat) :
    o.value sz (p.setFlagsAfterArithmeticOperationWord word) mm = o.value sz p mm := by
  simp only [setFlagsAfterArithmeticOperationWord, value_withFlag]

theorem value_setFlagsAfterLogicalOperationByte (o : Operand) (sz : OperandSize)
    (p : Processor) (mm : MemoryManager) (byte : Nat) :
    o.value sz (p.setFlagsAfterLogicalOperationByte byte) mm = o.value sz p mm := by
  simp only [setFlagsAfterLogicalOperationByte, value_withFlag, value_flags]

theorem value_setFlagsAfterLogicalOperationWord (o : Operand) (sz : OperandSize)
    (p : Processor) (mm : MemoryManager) (word : Nat) :
    o.value sz (p.setFlagsAfterLogicalOperationWord word) mm = o.value sz p mm := by
  simp only [setFlagsAfterLogicalOperationWord, value_withFlag, value_flags]

/-- A byte write to a writable byte operand succeeds, leaves FLAGS alone and is read
back. -/
theorem updateByte_spec (o : Operand) (hw : o.writable = true) (hsz : o.size = .Byte)
    (p : Processor) (mm : MemoryManager) (data : Nat) :
    ∃ p1 mm1, o.updateByte p mm data = .ok (p1, mm1) ∧ p1.m_flags = p.m_flags ∧
      o.valueByte p1 mm1 = .ok (data % 256) := by
  cases o with
  | Register8 reg =>
    have hreg : reg < 8 := by simpa [writable] using hw
    interval_cases reg <;>
      refine ⟨_, _, rfl, rfl, ?_⟩ <;>
      simp [valueByte, getRegisterValueFromREG8, setAL, setAH, setBL, setBH, setCL, setCH,
        setDL, setDH, AL, AH, BL, BH, CL, CH, DL, DH, withLowByte, withHighByte, lowByte,
        highByte] <;> omega
  | Memory8 segment offset =>
    exact ⟨_, _, rfl, rfl, by simp [valueByte, MemoryManager.readByte_writeByte, pure, Except.pure]⟩
  | Register16 _ => simp [size] at hsz
  | SegmentRegister _ => simp [size] at hsz
  | Memory16 _ _ => simp [size] at hsz
  | Immediate8 _ => simp [writable] at hw
  | Immediate16 _ => simp [size] at hsz

/-- A word write to a writable word operand succeeds, leaves FLAGS alone and is read
back. -/
theorem updateWord_spec (o : Operand) (hw : o.writable = true) (hsz : o.size = .Word)
    (p : Processor) (mm : MemoryManager) (data : Nat) :
    ∃ p1 mm1, o.updateWord p mm data = .ok (p1, mm1) ∧ p1.m_flags = p.m_flags ∧
      o.valueWord p1 mm1 = .ok (data % 65536) := by
  cases o with
  | Register16 reg =>
    have hreg : reg < 8 := by simpa [writable] using hw
    interval_cases reg <;> exact ⟨_, _, rfl, rfl, rfl⟩
  | SegmentRegister segreg =>
    have hreg : segreg < 4 := by simpa [writable] using hw
    interval_cases segreg <;> exact ⟨_, _, rfl, rfl, rfl⟩
  | Memory16 segment offset =>
    exact ⟨_, _, rfl, rfl, by simp [valueWord, MemoryManager.readWord_writeWord, pure, Except.pure]⟩
  | Register8 _ => simp [size] at hsz
  | Memory8 _ _ => simp [size] at hsz
  | Immediate8 _ => simp [size] at hsz
  | Immediate16 _ => simp [writable] at hw

/-- Form of `updateByte_spec` that applies to an equation met in a proof. -/
theorem updateByte_ok (o : Operand) (hw : o.writable = true) (hsz : o.size = .Byte)
    {p : Processor} {mm : MemoryManager} {data : Nat}
    {r : Except Fault (Processor × MemoryManager)} (h : o.updateByte p mm data = r) :
    ∃ p1 mm1, r = .ok (p1, mm1) ∧ p1.m_flags = p.m_flags ∧
      o.valueByte p1 mm1 = .ok (data % 256) := by
  subst h; exact updateByte_spec o hw hsz p mm data

/-- Form of `updateWord_spec` that applies to an equation met in a proof. -/
theorem updateWord_ok (o : Operand) (hw : o.writable = true) (hsz : o.size = .Word)
    {p : Processor} {mm : MemoryManager} {data : Nat}
    {r : Except Fault (Processor × MemoryManager)} (h : o.updateWord p mm data = r) :
    ∃ p1 mm1, r = .ok (p1, mm1) ∧ p1.m_flags = p.m_flags ∧
      o.valueWord p1 mm1 = .ok (data % 65536) := by
  subst h; exact updateWord_spec o hw hsz p mm data

end Operand

/-! ## ADD and ADC -/

/-- C1 (code defect): on an addition that carries out of the destination width the
source replaces the wrapped sum by `(MAX - source) + destination (+ carry)`, so
the destination does not hold `(a + b) mod 2 ^ n`.  `ADD AL, BL` with `AL = 0xFF`,
`BL = 0x01` leaves `AL = 0xFD` (the sum wraps to `0x00`); `ADD AX, BX` with
`AX = 0xFFFF`, `BX = 0x0001` leaves `AX = 0xFFFD`; `ADC AL, BL` with the same bytes
and `CF = 1` leaves `AL = 0xFE` (the sum wraps to `0x01`). -/
theorem ins_ADD_ADC_result_on_carry_out :
    ((stateWith 0x00FF 0x0001 0).ins_ADD (memoryWithBytes 0 []) (.Register8 0)
        (.Register8 3)).map (fun r => r.1.AL) = .ok 0xFD ∧
    (0xFF + 0x01) % 2 ^ 8 = 0x00 ∧
    ((stateWith 0xFFFF 0x0001 0).ins_ADD (memoryWithBytes 0 []) (.Register16 0)
        (.Register16 3)).map (fun r => r.1.m_AX) = .ok 0xFFFD ∧
    (0xFFFF + 0x0001) % 2 ^ 16 = 0x0000 ∧
    ((stateWith 0x00FF 0x0001 1).ins_ADC (memoryWithBytes 0 []) (.Register8 0)
        (.Register8 3)).map (fun r => r.1.AL) = .ok 0xFE ∧
    (stateWith 0x00FF 0x0001 1).carryFlagValue = 1 ∧
    (0xFF + 0x01 + 1) % 2 ^ 8 = 0x01 :=
  ⟨rfl, by decide, rfl, by decide, rfl, by decide, by decide⟩

/-- The carry test of `ADD` and `ADC`, with the carry-in as `ins$ADC` reads it into
its local `carryFlag`. -/
theorem Processor.ins_ADD_ADC_carry_test (p : Processor) (mm : MemoryManager)
    (destination source : Operand) (a b : Nat)
    (hd : destination.handleSegmentOverridePrefix p = .ok (destination, p))
    (hs : source.handleSegmentOverridePrefix p = .ok (source, p))
    (hw : destination.writable = true)
    (ha : destination.value destination.size p mm = .ok a)
    (hb : source.value destination.size p mm = .ok b)
    (hlt : a < 2 ^ destination.size.bits ∧ b < 2 ^ destination.size.bits) :
    (∃ r, p.ins_ADD mm destination source = .ok r ∧
      (IS_BIT_SET r.1.m_flags CARRY_FLAG = true ↔ a + b ≥ 2 ^ destination.size.bits) ∧
      (IS_BIT_SET r.1.m_flags CARRY_FLAG = true ↔ (a + b) % 2 ^ destination.size.bits < a)) ∧
    (∃ r, p.ins_ADC mm destination source = .ok r ∧
      (IS_BIT_SET r.1.m_flags CARRY_FLAG = true ↔
        a + b + p.carryFlagValue ≥ 2 ^ destination.size.bits)) := by
  rcases hsz : destination.size with _ | _
  · simp only [hsz, Operand.value, OperandSize.bits] at ha hb hlt ⊢
    constructor
    · unfold ins_ADD
      simp only [hd, hs, hsz, bind, Except.bind, ha, hb]
      split
      · rename_i heq
        obtain ⟨p1, mm1, h1, -⟩ := Operand.updateByte_ok destination hw hsz heq
        simp at h1
      · rename_i heq
        obtain ⟨p1, mm1, h1, hf, -⟩ := Operand.updateByte_ok destination hw hsz heq
        cases h1
        refine ⟨_, rfl, ?_⟩
        simp [IS_BIT_SET_setFlagsAfterArithmeticOperationByte, hf, IS_BIT_SET_withFlag,
          CARRY_FLAG, PARITY_FLAG, ZERO_FLAG, SIGN_FLAG, OVERFLOW_FLAG, UCHAR_MAX]
        omega
    · unfold ins_ADC
      simp only [hd, hs, hsz, bind, Except.bind, ha, hb]
      split
      · rename_i heq
        obtain ⟨p1, mm1, h1, -⟩ := Operand.updateByte_ok destination hw hsz heq
        simp at h1
      · rename_i heq
        obtain ⟨p1, mm1, h1, hf, -⟩ := Operand.updateByte_ok destination hw hsz heq
        cases h1
        refine ⟨_, rfl, ?_⟩
        simp [IS_BIT_SET_setFlagsAfterArithmeticOperationByte, hf, IS_BIT_SET_withFlag,
          CARRY_FLAG, PARITY_FLAG, ZERO_FLAG, SIGN_FLAG, OVERFLOW_FLAG, UCHAR_MAX]
        omega
  · simp only [hsz, Operand.value, OperandSize.bits] at ha hb hlt ⊢
    constructor
    · unfold ins_ADD
      simp only [hd, hs, hsz, bind, Except.bind, ha, hb]
      split
      · rename_i heq
        obtain ⟨p1, mm1, h1, -⟩ := Operand.updateWord_ok destination hw hsz heq
        simp at h1
      · rename_i heq
        obtain ⟨p1, mm1, h1, hf, -⟩ := Operand.updateWord_ok destination hw hsz heq
        cases h1
        refine ⟨_, rfl, ?_⟩
        simp [IS_BIT_SET_setFlagsAfterArithmeticOperationWord, hf, IS_BIT_SET_withFlag,
          CARRY_FLAG, PARITY_FLAG, ZERO_FLAG, SIGN_FLAG, OVERFLOW_FLAG, USHRT_MAX]
        omega
    · unfold ins_ADC
      simp only [hd, hs, hsz, bind, Except.bind, ha, hb]
      split
      · rename_i heq
        obtain ⟨p1, mm1, h1, -⟩ := Operand.updateWord_ok destination hw hsz heq
        simp at h1
      · rename_i heq
        obtain ⟨p1, mm1, h1, hf, -⟩ := Operand.updateWord_ok destination hw hsz heq
        cases h1
        refine ⟨_, rfl, ?_⟩
        simp [IS_BIT_SET_setFlagsAfterArithmeticOperationWord, hf, IS_BIT_SET_withFlag,
          CARRY_FLAG, PARITY_FLAG, ZERO_FLAG, SIGN_FLAG, OVERFLOW_FLAG, USHRT_MAX]
        omega

/-- C2: for a writable destination holding `a` and a source holding `b` at the
destination width `n` (operands that override resolution leaves as they are),
`ADD` completes with `CF = 1` exactly when `a + b ≥ 2 ^ n`, equivalently when the
wrapped sum is below `a`; `ADC` completes with `CF = 1` exactly when
`a + b + c ≥ 2 ^ n`, where the carry-in `c` is bit 0 of FLAGS (CF) before the
instruction, as 0 or 1.  CF after the instruction is bit 0 of FLAGS then. -/
theorem ins_ADD_ADC_carry_flag (p : Processor) (mm : MemoryManager)
    (destination source : Operand) (a b : Nat)
    (hd : destination.handleSegmentOverridePrefix p = .ok (destination, p))
    (hs : source.handleSegmentOverridePrefix p = .ok (source, p))
    (hw : destination.writable = true)
    (ha : destination.value destination.size p mm = .ok a)
    (hb : source.value destination.size p mm = .ok b)
    (hlt : a < 2 ^ destination.size.bits ∧ b < 2 ^ destination.size.bits) :
    (∃ r, p.ins_ADD mm destination source = .ok r ∧
      (Nat.testBit r.1.m_flags 0 = true ↔ a + b ≥ 2 ^ destination.size.bits) ∧
      (Nat.testBit r.1.m_flags 0 = true ↔ (a + b) % 2 ^ destination.size.bits < a)) ∧
    (∃ r, p.ins_ADC mm destination source = .ok r ∧
      (Nat.testBit r.1.m_flags 0 = true ↔
        a + b + (Nat.testBit p.m_flags 0).toNat ≥ 2 ^ destination.size.bits)) :=
  Processor.ins_ADD_ADC_carry_test p mm destination source a b hd hs hw ha hb hlt

/-- Witness for C2: `AL = 0xFF`, `BL = 0x00`, `CF = 1`: `ADD AL, BL` leaves CF clear,
`ADC AL, BL` sets it, through the carry-in alone; with `CF = 0` before, `ADC AL, BL`
leaves CF clear. -/
theorem ins_ADD_ADC_carry_flag_witness :
    (Operand.Register8 0).handleSegmentOverridePrefix (stateWith 0x00FF 0x0000 1) =
        .ok (.Register8 0, stateWith 0x00FF 0x0000 1) ∧
    (Operand.Register8 3).handleSegmentOverridePrefix (stateWith 0x00FF 0x0000 1) =
        .ok (.Register8 3, stateWith 0x00FF 0x0000 1) ∧
    (Operand.Register8 0).writable = true ∧
    (Operand.Register8 0).value (Operand.Register8 0).size (stateWith 0x00FF 0x0000 1)
        (memoryWithBytes 0 []) = .ok 0xFF ∧
    (Operand.Register8 3).value (Operand.Register8 0).size (stateWith 0x00FF 0x0000 1)
        (memoryWithBytes 0 []) = .ok 0x00 ∧
    ((∃ r, (stateWith 0x00FF 0x0000 1).ins_ADD (memoryWithBytes 0 []) (.Register8 0)
          (.Register8 3) = .ok r ∧
        (Nat.testBit r.1.m_flags 0 = true ↔
          0xFF + 0x00 ≥ 2 ^ (Operand.Register8 0).size.bits) ∧
        (Nat.testBit r.1.m_flags 0 = true ↔
          (0xFF + 0x00) % 2 ^ (Operand.Register8 0).size.bits < 0xFF)) ∧
      (∃ r, (stateWith 0x00FF 0x0000 1).ins_ADC (memoryWithBytes 0 []) (.Register8 0)
          (.Register8 3) = .ok r ∧
        (Nat.testBit r.1.m_flags 0 = true ↔
          0xFF + 0x00 + (Nat.testBit (stateWith 0x00FF 0x0000 1).m_flags 0).toNat ≥
            2 ^ (Operand.Register8 0).size.bits))) ∧
    ((stateWith 0x00FF 0x0000 1).ins_ADD (memoryWithBytes 0 []) (.Register8 0)
        (.Register8 3)).map (fun r => Nat.testBit r.1.m_flags 0) = .ok false ∧
    ((stateWith 0x00FF 0x0000 1).ins_ADC (memoryWithBytes 0 []) (.Register8 0)
        (.Register8 3)).map (fun r => Nat.testBit r.1.m_flags 0) = .ok true ∧
    ((stateWith 0x00FF 0x0000 0).ins_ADC (memoryWithBytes 0 []) (.Register8 0)
        (.Register8 3)).map (fun r => Nat.testBit r.1.m_flags 0) = .ok false :=
  ⟨rfl, rfl, rfl, rfl, rfl,
    ins_ADD_ADC_carry_flag (stateWith 0x00FF 0x0000 1) (memoryWithBytes 0 []) (.Register8 0)
      (.Register8 3) 0xFF 0x00 rfl rfl rfl rfl rfl (by decide), rfl, rfl, rfl⟩

/-- C3 (code defect): `ADD` sets OF from the comparison `source > MAX_SIGNED - destination`
on the unsigned operand values, which is not signed overflow.  `ADD AL, BL` with
`AL = 0x80`, `BL = 0x00` leaves `AL = 0x80` and `OF = 1`, and `ADD AX, BX` with
`AX = 0x8000`, `BX = 0x0000` leaves `OF = 1`, where the spec formula gives `0`.  The
scenario of the claim (`AX = 0x7FFF`, `BX = 0x0001`) does come out as stated. -/
theorem ins_ADD_overflow_flag_not_signed_overflow :
    ((stateWith 0x0080 0x0000 0).ins_ADD (memoryWithBytes 0 []) (.Register8 0)
        (.Register8 3)).map (fun r => (r.1.AL, IS_BIT_SET r.1.m_flags OVERFLOW_FLAG)) =
      .ok (0x80, true) ∧
    specOverflowADD 8 0x80 0x00 = false ∧
    ((stateWith 0x8000 0x0000 0).ins_ADD (memoryWithBytes 0 []) (.Register16 0)
        (.Register16 3)).map (fun r => (r.1.m_AX, IS_BIT_SET r.1.m_flags OVERFLOW_FLAG)) =
      .ok (0x8000, true) ∧
    specOverflowADD 16 0x8000 0x0000 = false ∧
    ((stateWith 0x7FFF 0x0001 0).ins_ADD (memoryWithBytes 0 []) (.Register16 0)
        (.Register16 3)).map (fun r => (r.1.m_AX, IS_BIT_SET r.1.m_flags OVERFLOW_FLAG,
          IS_BIT_SET r.1.m_flags SIGN_FLAG, IS_BIT_SET r.1.m_flags ZERO_FLAG,
          IS_BIT_SET r.1.m_flags CARRY_FLAG)) = .ok (0x8000, true, true, false, false) ∧
    specOverflowADD 16 0x7FFF 0x0001 = true :=
  ⟨rfl, by decide, rfl, by decide, rfl, by decide⟩

/-! ## SUB and CMP -/

/-- C4 (code defect): `SUB` sets CF by the test of `ADD`
(`destination > MAX - source`) instead of the borrow test `destination < source`.
`SUB AL, BL` with `AL = 0x00`, `BL = 0x01` leaves `AL = 0xFF`, `OF = 0`, `SF = 1`,
`ZF = 0` and `CF = 0` although `0x00 < 0x01`; with `AL = 0xFF`, `BL = 0x01` it leaves
`CF = 1` although there is no borrow; the word form behaves alike. -/
theorem ins_SUB_carry_flag_not_borrow :
    ((stateWith 0x0000 0x0001 0).ins_SUB (memoryWithBytes 0 []) (.Register8 0)
        (.Register8 3)).map (fun r => (r.1.AL, IS_BIT_SET r.1.m_flags CARRY_FLAG,
          IS_BIT_SET r.1.m_flags OVERFLOW_FLAG, IS_BIT_SET r.1.m_flags SIGN_FLAG,
          IS_BIT_SET r.1.m_flags ZERO_FLAG)) = .ok (0xFF, false, false, true, false) ∧
    ((stateWith 0x00FF 0x0001 0).ins_SUB (memoryWithBytes 0 []) (.Register8 0)
        (.Register8 3)).map (fun r => (r.1.AL, IS_BIT_SET r.1.m_flags CARRY_FLAG)) =
      .ok (0xFE, true) ∧
    ((stateWith 0x0000 0x0001 0).ins_SUB (memoryWithBytes 0 []) (.Register16 0)
        (.Register16 3)).map (fun r => (r.1.m_AX, IS_BIT_SET r.1.m_flags CARRY_FLAG)) =
      .ok (0xFFFF, false) :=
  ⟨rfl, rfl, rfl⟩

/-- C5 (code defect): `CMP` leaves its operands unchanged, but its FLAGS differ from
those of `SUB` on the same state.  With `AL = 0x00`, `BL = 0x01`, `CMP AL, BL` gives
`CF = 1` and `SUB AL, BL` gives `CF = 0`; with `AL = 0x00`, `BL = 0x40`, `CMP` gives
`OF = 1` (it compares the source with `MAX_SIGNED - source`) and `SUB` gives
`OF = 0`. -/
theorem ins_CMP_flags_differ_from_ins_SUB :
    ((stateWith 0x0000 0x0001 0).ins_CMP (memoryWithBytes 0 []) (.Register8 0)
        (.Register8 3)).map (fun r => (r.1.AL, r.1.BL, IS_BIT_SET r.1.m_flags CARRY_FLAG)) =
      .ok (0x00, 0x01, true) ∧
    ((stateWith 0x0000 0x0001 0).ins_SUB (memoryWithBytes 0 []) (.Register8 0)
        (.Register8 3)).map (fun r => IS_BIT_SET r.1.m_flags CARRY_FLAG) = .ok false ∧
    ((stateWith 0x0000 0x0001 0).ins_CMP (memoryWithBytes 0 []) (.Register8 0)
        (.Register8 3)).map (fun r => r.1.m_flags) ≠
      ((stateWith 0x0000 0x0001 0).ins_SUB (memoryWithBytes 0 []) (.Register8 0)
        (.Register8 3)).map (fun r => r.1.m_flags) ∧
    ((stateWith 0x0000 0x0040 0).ins_CMP (memoryWithBytes 0 []) (.Register8 0)
        (.Register8 3)).map (fun r => IS_BIT_SET r.1.m_flags OVERFLOW_FLAG) = .ok true ∧
    ((stateWith 0x0000 0x0040 0).ins_SUB (memoryWithBytes 0 []) (.Register8 0)
        (.Register8 3)).map (fun r => IS_BIT_SET r.1.m_flags OVERFLOW_FLAG) = .ok false :=
  ⟨rfl, rfl, by
    have h1 : ((stateWith 0x0000 0x0001 0).ins_CMP (memoryWithBytes 0 []) (.Register8 0)
        (.Register8 3)).map (fun r => r.1.m_flags) = .ok 0x85 := rfl
    have h2 : ((stateWith 0x0000 0x0001 0).ins_SUB (memoryWithBytes 0 []) (.Register8 0)
        (.Register8 3)).map (fun r => r.1.m_flags) = .ok 0x84 := rfl
    rw [h1, h2]; simp, rfl, rfl⟩

/-! ## INC and DEC -/

/-- C6: for a writable operand holding `v` at width `n` (an operand that override
resolution leaves as it is), `INC` completes and the operand then holds
`(v + 1) mod 2 ^ n`, `DEC` completes and the operand then holds `(v - 1) mod 2 ^ n`,
and in both cases CF is what it was before the instruction. -/
theorem ins_INC_DEC_result_and_carry_flag (p : Processor) (mm : MemoryManager)
    (operand : Operand) (v : Nat)
    (ho : operand.handleSegmentOverridePrefix p = .ok (operand, p))
    (hw : operand.writable = true)
    (hv : operand.value operand.size p mm = .ok v) :
    (∃ r, p.ins_INC mm operand = .ok r ∧
      operand.value operand.size r.1 r.2 = .ok ((v + 1) % 2 ^ operand.size.bits) ∧
      IS_BIT_SET r.1.m_flags CARRY_FLAG = IS_BIT_SET p.m_flags CARRY_FLAG) ∧
    (∃ r, p.ins_DEC mm operand = .ok r ∧
      operand.value operand.size r.1 r.2 =
        .ok (((v : Int) - 1) % 2 ^ operand.size.bits).toNat ∧
      IS_BIT_SET r.1.m_flags CARRY_FLAG = IS_BIT_SET p.m_flags CARRY_FLAG) := by
  rcases hsz : operand.size with _ | _
  · simp only [hsz, OperandSize.bits] at hv ⊢
    have hv1 : operand.valueByte p mm = .ok v := hv
    constructor
    · unfold ins_INC
      simp only [ho, hsz, bind, Except.bind, hv1]
      split
      · rename_i heq
        obtain ⟨p1, mm1, h1, -⟩ := Operand.updateByte_ok operand hw hsz heq
        simp at h1
      · rename_i heq
        obtain ⟨p1, mm1, h1, hf, hr⟩ := Operand.updateByte_ok operand hw hsz heq
        cases h1
        refine ⟨_, rfl, ?_, ?_⟩
        · simp only [Operand.value_setFlagsAfterArithmeticOperationByte,
            Operand.value_withFlag]
          refine (show operand.value .Byte p1 mm1 = _ from hr).trans ?_
          simp [toU8]; omega
        · simp [IS_BIT_SET_setFlagsAfterArithmeticOperationByte, hf, IS_BIT_SET_withFlag,
            CARRY_FLAG, PARITY_FLAG, ZERO_FLAG, SIGN_FLAG, OVERFLOW_FLAG]
    · unfold ins_DEC
      simp only [ho, hsz, bind, Except.bind, hv1]
      split
      · rename_i heq
        obtain ⟨p1, mm1, h1, -⟩ := Operand.updateByte_ok operand hw hsz heq
        simp at h1
      · rename_i heq
        obtain ⟨p1, mm1, h1, hf, hr⟩ := Operand.updateByte_ok operand hw hsz heq
        cases h1
        refine ⟨_, rfl, ?_, ?_⟩
        · simp only [Operand.value_setFlagsAfterArithmeticOperationByte,
            Operand.value_withFlag]
          refine (show operand.value .Byte p1 mm1 = _ from hr).trans ?_
          simp [toU8]; omega
        · simp [IS_BIT_SET_setFlagsAfterArithmeticOperationByte, hf, IS_BIT_SET_withFlag,
            CARRY_FLAG, PARITY_FLAG, ZERO_FLAG, SIGN_FLAG, OVERFLOW_FLAG]
  · simp only [hsz, OperandSize.bits] at hv ⊢
    have hv1 : operand.valueWord p mm = .ok v := hv
    constructor
    · unfold ins_INC
      simp only [ho, hsz, bind, Except.bind, hv1]
      split
      · rename_i heq
        obtain ⟨p1, mm1, h1, -⟩ := Operand.updateWord_ok operand hw hsz heq
        simp at h1
      · rename_i heq
        obtain ⟨p1, mm1, h1, hf, hr⟩ := Operand.updateWord_ok operand hw hsz heq
        cases h1
        refine ⟨_, rfl, ?_, ?_⟩
        · simp only [Operand.value_setFlagsAfterArithmeticOperationWord,
            Operand.value_withFlag]
          refine (show operand.value .Word p1 mm1 = _ from hr).trans ?_
          simp [toU16]; omega
        · simp [IS_BIT_SET_setFlagsAfterArithmeticOperationWord, hf, IS_BIT_SET_withFlag,
            CARRY_FLAG, PARITY_FLAG, ZERO_FLAG, SIGN_FLAG, OVERFLOW_FLAG]
    · unfold ins_DEC
      simp only [ho, hsz, bind, Except.bind, hv1]
      split
      · rename_i heq
        obtain ⟨p1, mm1, h1, -⟩ := Operand.updateWord_ok operand hw hsz heq
        simp at h1
      · rename_i heq
        obtain ⟨p1, mm1, h1, hf, hr⟩ := Operand.updateWord_ok operand hw hsz heq
        cases h1
        refine ⟨_, rfl, ?_, ?_⟩
        · simp only [Operand.value_setFlagsAfterArithmeticOperationWord,
            Operand.value_withFlag]
          refine (show operand.value .Word p1 mm1 = _ from hr).trans ?_
          simp [toU16]; omega
        · simp [IS_BIT_SET_setFlagsAfterArithmeticOperationWord, hf, IS_BIT_SET_withFlag,
            CARRY_FLAG, PARITY_FLAG, ZERO_FLAG, SIGN_FLAG, OVERFLOW_FLAG]

/-- Witness for C6: `AL = 0xFF` with `CF = 1`, `INC AL` and `DEC AL`. -/
theorem ins_INC_DEC_result_and_carry_flag_witness :
    (Operand.Register8 0).handleSegmentOverridePrefix (stateWith 0x00FF 0 1) =
        .ok (.Register8 0, stateWith 0x00FF 0 1) ∧
    (Operand.Register8 0).writable = true ∧
    (Operand.Register8 0).value (Operand.Register8 0).size (stateWith 0x00FF 0 1)
        (memoryWithBytes 0 []) = .ok 0xFF ∧
    ((∃ r, (stateWith 0x00FF 0 1).ins_INC (memoryWithBytes 0 []) (.Register8 0) = .ok r ∧
        (Operand.Register8 0).value (Operand.Register8 0).size r.1 r.2 =
          .ok ((0xFF + 1) % 2 ^ (Operand.Register8 0).size.bits) ∧
        IS_BIT_SET r.1.m_flags CARRY_FLAG =
          IS_BIT_SET (stateWith 0x00FF 0 1).m_flags CARRY_FLAG) ∧
      (∃ r, (stateWith 0x00FF 0 1).ins_DEC (memoryWithBytes 0 []) (.Register8 0) = .ok r ∧
        (Operand.Register8 0).value (Operand.Register8 0).size r.1 r.2 =
          .ok ((((0xFF : Nat) : Int) - 1) % 2 ^ (Operand.Register8 0).size.bits).toNat ∧
        IS_BIT_SET r.1.m_flags CARRY_FLAG =
          IS_BIT_SET (stateWith 0x00FF 0 1).m_flags CARRY_FLAG)) :=
  ⟨rfl, rfl, rfl,
    ins_INC_DEC_result_and_carry_flag (stateWith 0x00FF 0 1) (memoryWithBytes 0 [])
      (.Register8 0) 0xFF rfl rfl rfl⟩

/-- C7 (code defect): `INC` and `DEC` both set OF by the test
`oldValue >= MAX_SIGNED`, so OF is set for every operand from `2 ^ (n - 1) - 1`
upwards.  `INC AL` with `AL = 0x80` leaves `AL = 0x81`, `OF = 1`; `DEC AL` with
`AL = 0x7F` leaves `AL = 0x7E`, `OF = 1`; `INC AX` with `AX = 0x8000` and `DEC AX`
with `AX = 0x7FFF` leave `OF = 1`.  None of these is a signed overflow. -/
theorem ins_INC_DEC_overflow_flag_not_signed_overflow :
    ((stateWith 0x0080 0 0).ins_INC (memoryWithBytes 0 []) (.Register8 0)).map
        (fun r => (r.1.AL, IS_BIT_SET r.1.m_flags OVERFLOW_FLAG)) = .ok (0x81, true) ∧
    (0x80 : Nat) ≠ 2 ^ (8 - 1) - 1 ∧
    ((stateWith 0x007F 0 0).ins_DEC (memoryWithBytes 0 []) (.Register8 0)).map
        (fun r => (r.1.AL, IS_BIT_SET r.1.m_flags OVERFLOW_FLAG)) = .ok (0x7E, true) ∧
    (0x7F : Nat) ≠ 2 ^ (8 - 1) ∧
    ((stateWith 0x8000 0 0).ins_INC (memoryWithBytes 0 []) (.Register16 0)).map
        (fun r => (r.1.m_AX, IS_BIT_SET r.1.m_flags OVERFLOW_FLAG)) = .ok (0x8001, true) ∧
    (0x8000 : Nat) ≠ 2 ^ (16 - 1) - 1 ∧
    ((stateWith 0x7FFF 0 0).ins_DEC (memoryWithBytes 0 []) (.Register16 0)).map
        (fun r => (r.1.m_AX, IS_BIT_SET r.1.m_flags OVERFLOW_FLAG)) = .ok (0x7FFE, true) ∧
    (0x7FFF : Nat) ≠ 2 ^ (16 - 1) :=
  ⟨rfl, by decide, rfl, by decide, rfl, by decide, rfl, by decide⟩

/-! ## AND, OR, XOR, TEST -/

theorem logicalFlags_setFlagsAfterLogicalOperationByte (p : Processor) (result : Nat) :
    logicalFlags (p.setFlagsAfterLogicalOperationByte result).m_flags result 8 := by
  simp [logicalFlags, IS_BIT_SET_setFlagsAfterLogicalOperationByte, CARRY_FLAG, PARITY_FLAG,
    ZERO_FLAG, SIGN_FLAG, OVERFLOW_FLAG]
  rfl

theorem logicalFlags_setFlagsAfterLogicalOperationWord (p : Processor) (result : Nat) :
    logicalFlags (p.setFlagsAfterLogicalOperationWord result).m_flags result 16 := by
  simp [logicalFlags, IS_BIT_SET_setFlagsAfterLogicalOperationWord, CARRY_FLAG, PARITY_FLAG,
    ZERO_FLAG, SIGN_FLAG, OVERFLOW_FLAG]
  rfl

/-- C8: for a writable destination holding `a` and a source holding `b` at the
destination width `n` (operands that override resolution leaves as they are),
`AND`, `OR` and `XOR` complete with the destination holding `a & b`, `a | b` and
`a ^ b`; `TEST` completes with memory and every register unchanged, so that the
destination still holds `a` and the source `b`; and after each of the four, CF and
OF are 0, ZF is 1 exactly when the computed result is 0 and SF is the top bit of
the result (`a & b` for `TEST`). -/
theorem logical_primitives (p : Processor) (mm : MemoryManager)
    (destination source : Operand) (a b : Nat)
    (hd : destination.handleSegmentOverridePrefix p = .ok (destination, p))
    (hs : source.handleSegmentOverridePrefix p = .ok (source, p))
    (hw : destination.writable = true)
    (ha : destination.value destination.size p mm = .ok a)
    (hb : source.value destination.size p mm = .ok b)
    (hlt : a < 2 ^ destination.size.bits ∧ b < 2 ^ destination.size.bits) :
    (∃ r, p.ins_AND mm destination source = .ok r ∧
      destination.value destination.size r.1 r.2 = .ok (a &&& b) ∧
      logicalFlags r.1.m_flags (a &&& b) destination.size.bits) ∧
    (∃ r, p.ins_OR mm destination source = .ok r ∧
      destination.value destination.size r.1 r.2 = .ok (a ||| b) ∧
      logicalFlags r.1.m_flags (a ||| b) destination.size.bits) ∧
    (∃ r, p.ins_XOR mm destination source = .ok r ∧
      destination.value destination.size r.1 r.2 = .ok (a ^^^ b) ∧
      logicalFlags r.1.m_flags (a ^^^ b) destination.size.bits) ∧
    (∃ r, p.ins_TEST mm destination source = .ok r ∧
      r.2 = mm ∧ r.1 = { p with m_flags := r.1.m_flags } ∧
      destination.value destination.size r.1 r.2 = .ok a ∧
      source.value destination.size r.1 r.2 = .ok b ∧
      logicalFlags r.1.m_flags (a &&& b) destination.size.bits) := by
  rcases hsz : destination.size with _ | _
  · simp only [hsz, OperandSize.bits] at ha hb hlt ⊢
    have ha1 : destination.valueByte p mm = .ok a := ha
    have hb1 : source.valueByte p mm = .ok b := hb
    refine ⟨?_, ?_, ?_, ?_⟩
    · unfold ins_AND
      simp only [hd, hs, hsz, bind, Except.bind, ha1, hb1]
      split
      · rename_i heq
        obtain ⟨p1, mm1, h1, -⟩ := Operand.updateByte_ok destination hw hsz heq
        simp at h1
      · rename_i heq
        obtain ⟨p1, mm1, h1, hf, hr⟩ := Operand.updateByte_ok destination hw hsz heq
        cases h1
        refine ⟨_, rfl, ?_, logicalFlags_setFlagsAfterLogicalOperationByte _ _⟩
        simp only [Operand.value_setFlagsAfterLogicalOperationByte]
        refine (show destination.value .Byte p1 mm1 = _ from hr).trans ?_
        rw [Nat.mod_eq_of_lt (Nat.and_lt_two_pow a hlt.2)]
    · unfold ins_OR
      simp only [hd, hs, hsz, bind, Except.bind, ha1, hb1]
      split
      · rename_i heq
        obtain ⟨p1, mm1, h1, -⟩ := Operand.updateByte_ok destination hw hsz heq
        simp at h1
      · rename_i heq
        obtain ⟨p1, mm1, h1, hf, hr⟩ := Operand.updateByte_ok destination hw hsz heq
        cases h1
        refine ⟨_, rfl, ?_, logicalFlags_setFlagsAfterLogicalOperationByte _ _⟩
        simp only [Operand.value_setFlagsAfterLogicalOperationByte]
        refine (show destination.value .Byte p1 mm1 = _ from hr).trans ?_
        rw [Nat.mod_eq_of_lt (Nat.or_lt_two_pow hlt.1 hlt.2)]
    · unfold ins_XOR
      simp only [hd, hs, hsz, bind, Except.bind, ha1, hb1]
      split
      · rename_i heq
        obtain ⟨p1, mm1, h1, -⟩ := Operand.updateByte_ok destination hw hsz heq
        simp at h1
      · rename_i heq
        obtain ⟨p1, mm1, h1, hf, hr⟩ := Operand.updateByte_ok destination hw hsz heq
        cases h1
        refine ⟨_, rfl, ?_, logicalFlags_setFlagsAfterLogicalOperationByte _ _⟩
        simp only [Operand.value_setFlagsAfterLogicalOperationByte]
        refine (show destination.value .Byte p1 mm1 = _ from hr).trans ?_
        rw [Nat.mod_eq_of_lt (Nat.xor_lt_two_pow hlt.1 hlt.2)]
    · unfold ins_TEST
      simp only [hd, hs, hsz, bind, Except.bind, ha1, hb1]
      refine ⟨_, rfl, rfl, rfl, ?_, ?_, logicalFlags_setFlagsAfterLogicalOperationByte _ _⟩
      · simp only [Operand.value_setFlagsAfterLogicalOperationByte]; exact ha
      · simp only [Operand.value_setFlagsAfterLogicalOperationByte]; exact hb
  · simp only [hsz, OperandSize.bits] at ha hb hlt ⊢
    have ha1 : destination.valueWord p mm = .ok a := ha
    have hb1 : source.valueWord p mm = .ok b := hb
    refine ⟨?_, ?_, ?_, ?_⟩
    · unfold ins_AND
      simp only [hd, hs, hsz, bind, Except.bind, ha1, hb1]
      split
      · rename_i heq
        obtain ⟨p1, mm1, h1, -⟩ := Operand.updateWord_ok destination hw hsz heq
        simp at h1
      · rename_i heq
        obtain ⟨p1, mm1, h1, hf, hr⟩ := Operand.updateWord_ok destination hw hsz heq
        cases h1
        refine ⟨_, rfl, ?_, logicalFlags_setFlagsAfterLogicalOperationWord _ _⟩
        simp only [Operand.value_setFlagsAfterLogicalOperationWord]
        refine (show destination.value .Word p1 mm1 = _ from hr).trans ?_
        rw [Nat.mod_eq_of_lt (Nat.and_lt_two_pow a hlt.2)]
    · unfold ins_OR
      simp only [hd, hs, hsz, bind, Except.bind, ha1, hb1]
      split
      · rename_i heq
        obtain ⟨p1, mm1, h1, -⟩ := Operand.updateWord_ok destination hw hsz heq
        simp at h1
      · rename_i heq
        obtain ⟨p1, mm1, h1, hf, hr⟩ := Operand.updateWord_ok destination hw hsz heq
        cases h1
        refine ⟨_, rfl, ?_, logicalFlags_setFlagsAfterLogicalOperationWord _ _⟩
        simp only [Operand.value_setFlagsAfterLogicalOperationWord]
        refine (show destination.value .Word p1 mm1 = _ from hr).trans ?_
        rw [Nat.mod_eq_of_lt (Nat.or_lt_two_pow hlt.1 hlt.2)]
    · unfold ins_XOR
      simp only [hd, hs, hsz, bind, Except.bind, ha1, hb1]
      split
      · rename_i heq
        obtain ⟨p1, mm1, h1, -⟩ := Operand.updateWord_ok destination hw hsz heq
        simp at h1
      · rename_i heq
        obtain ⟨p1, mm1, h1, hf, hr⟩ := Operand.updateWord_ok destination hw hsz heq
        cases h1
        refine ⟨_, rfl, ?_, logicalFlags_setFlagsAfterLogicalOperationWord _ _⟩
        simp only [Operand.value_setFlagsAfterLogicalOperationWord]
        refine (show destination.value .Word p1 mm1 = _ from hr).trans ?_
        rw [Nat.mod_eq_of_lt (Nat.xor_lt_two_pow hlt.1 hlt.2)]
    · unfold ins_TEST
      simp only [hd, hs, hsz, bind, Except.bind, ha1, hb1]
      refine ⟨_, rfl, rfl, rfl, ?_, ?_, logicalFlags_setFlagsAfterLogicalOperationWord _ _⟩
      · simp only [Operand.value_setFlagsAfterLogicalOperationWord]; exact ha
      · simp only [Operand.value_setFlagsAfterLogicalOperationWord]; exact hb

/-- Witness for C8: `AL = 0xF0`, `BL = 0x3C`, FLAGS `= 0x0801` (CF and OF set). -/
theorem logical_primitives_witness :
    (Operand.Register8 0).handleSegmentOverridePrefix (stateWith 0x00F0 0x003C 0x0801) =
        .ok (.Register8 0, stateWith 0x00F0 0x003C 0x0801) ∧
    (Operand.Register8 3).handleSegmentOverridePrefix (stateWith 0x00F0 0x003C 0x0801) =
        .ok (.Register8 3, stateWith 0x00F0 0x003C 0x0801) ∧
    (Operand.Register8 0).writable = true ∧
    (Operand.Register8 0).value (Operand.Register8 0).size (stateWith 0x00F0 0x003C 0x0801)
        (memoryWithBytes 0 []) = .ok 0xF0 ∧
    (Operand.Register8 3).value (Operand.Register8 0).size (stateWith 0x00F0 0x003C 0x0801)
        (memoryWithBytes 0 []) = .ok 0x3C ∧
    ((∃ r, (stateWith 0x00F0 0x003C 0x0801).ins_AND (memoryWithBytes 0 []) (.Register8 0)
          (.Register8 3) = .ok r ∧
        (Operand.Register8 0).value (Operand.Register8 0).size r.1 r.2 = .ok (0xF0 &&& 0x3C) ∧
        logicalFlags r.1.m_flags (0xF0 &&& 0x3C) (Operand.Register8 0).size.bits) ∧
      (∃ r, (stateWith 0x00F0 0x003C 0x0801).ins_OR (memoryWithBytes 0 []) (.Register8 0)
          (.Register8 3) = .ok r ∧
        (Operand.Register8 0).value (Operand.Register8 0).size r.1 r.2 = .ok (0xF0 ||| 0x3C) ∧
        logicalFlags r.1.m_flags (0xF0 ||| 0x3C) (Operand.Register8 0).size.bits) ∧
      (∃ r, (stateWith 0x00F0 0x003C 0x0801).ins_XOR (memoryWithBytes 0 []) (.Register8 0)
          (.Register8 3) = .ok r ∧
        (Operand.Register8 0).value (Operand.Register8 0).size r.1 r.2 = .ok (0xF0 ^^^ 0x3C) ∧
        logicalFlags r.1.m_flags (0xF0 ^^^ 0x3C) (Operand.Register8 0).size.bits) ∧
      (∃ r, (stateWith 0x00F0 0x003C 0x0801).ins_TEST (memoryWithBytes 0 []) (.Register8 0)
          (.Register8 3) = .ok r ∧
        r.2 = memoryWithBytes 0 [] ∧
        r.1 = { stateWith 0x00F0 0x003C 0x0801 with m_flags := r.1.m_flags } ∧
        (Operand.Register8 0).value (Operand.Register8 0).size r.1 r.2 = .ok 0xF0 ∧
        (Operand.Register8 3).value (Operand.Register8 0).size r.1 r.2 = .ok 0x3C ∧
        logicalFlags r.1.m_flags (0xF0 &&& 0x3C) (Operand.Register8 0).size.bits)) :=
  ⟨rfl, rfl, rfl, rfl, rfl,
    logical_primitives (stateWith 0x00F0 0x003C 0x0801) (memoryWithBytes 0 []) (.Register8 0)
      (.Register8 3) 0xF0 0x3C rfl rfl rfl rfl rfl (by decide)⟩

/-! ## MUL -/

theorem Processor.getRegisterValueFromREG8_ok (p : Processor) (REG : Nat) (h : REG < 8) :
    ∃ v, p.getRegisterValueFromREG8 REG = .ok v ∧ v < 256 := by
  interval_cases REG <;> refine ⟨_, rfl, ?_⟩ <;>
    simp only [AL, AH, BL, BH, CL, CH, DL, DH, lowByte, highByte] <;> omega

theorem Processor.getRegisterFromREG16_ok (p : Processor) (REG : Nat) (h : REG < 8)
    (hwf : p.WellFormed) : ∃ v, p.getRegisterFromREG16 REG = .ok v ∧ v < 65536 := by
  obtain ⟨h0, h1, h2, h3, h4, h5, h6, h7, -⟩ := hwf
  interval_cases REG <;> exact ⟨_, rfl, by assumption⟩

theorem byte_product_lt (a b : Nat) (ha : a < 256) (hb : b < 256) : a * b < 65536 := by
  nlinarith

theorem word_product_lt (a b : Nat) (ha : a < 65536) (hb : b < 65536) :
    a * b < 4294967296 := by
  nlinarith

theorem Processor.ins_MULregisterByte_eq (p : Processor) (REG v : Nat)
    (hv : p.getRegisterValueFromREG8 REG = .ok v) :
    p.ins_MULregisterByte REG =
      .ok ((({ p with m_AX := toU16 (v * p.AL) } : Processor).withFlag CARRY_FLAG
        (decide (highByte (toU16 (v * p.AL)) > 0))).withFlag OVERFLOW_FLAG
        (decide (highByte (toU16 (v * p.AL)) > 0))) := by
  unfold ins_MULregisterByte
  simp only [hv, bind, Except.bind, pure, Except.pure, AH]
  split_ifs with h <;> simp [h]

theorem Processor.ins_MULregisterWord_eq (p : Processor) (REG v : Nat)
    (hv : p.getRegisterFromREG16 REG = .ok v) :
    p.ins_MULregisterWord REG =
      .ok ((({ p with m_DX := (toU32 (v * p.m_AX) >>> 16) % 65536,
                      m_AX := (toU32 (v * p.m_AX) &&& 0xFFFF) % 65536 } : Processor).withFlag
        CARRY_FLAG (decide ((toU32 (v * p.m_AX) >>> 16) % 65536 > 0))).withFlag OVERFLOW_FLAG
        (decide ((toU32 (v * p.m_AX) >>> 16) % 65536 > 0))) := by
  unfold ins_MULregisterWord
  simp only [hv, bind, Except.bind, pure, Except.pure]
  split_ifs with h <;> simp [h]

/-- C9: `MUL r8` completes with `AX = AL * source` (the exact product) and
`CF = OF = 1` exactly when the resulting `AH` is non-zero; `MUL r16` completes with
`DX:AX = AX * source` (the exact 32-bit product) and `CF = OF = 1` exactly when the
resulting `DX` is non-zero.  The source may be any register, the accumulator
included. -/
theorem ins_MUL_exact_product (p : Processor) (REG : Nat) (hREG : REG < 8)
    (hwf : p.WellFormed) :
    (∃ v q, p.getRegisterValueFromREG8 REG = .ok v ∧ p.ins_MULregisterByte REG = .ok q ∧
      q.m_AX = p.AL * v ∧
      (IS_BIT_SET q.m_flags CARRY_FLAG = true ↔ q.AH ≠ 0) ∧
      (IS_BIT_SET q.m_flags OVERFLOW_FLAG = true ↔ q.AH ≠ 0)) ∧
    (∃ v q, p.getRegisterFromREG16 REG = .ok v ∧ p.ins_MULregisterWord REG = .ok q ∧
      q.m_DX * 65536 + q.m_AX = p.m_AX * v ∧ q.m_AX < 65536 ∧
      (IS_BIT_SET q.m_flags CARRY_FLAG = true ↔ q.m_DX ≠ 0) ∧
      (IS_BIT_SET q.m_flags OVERFLOW_FLAG = true ↔ q.m_DX ≠ 0)) := by
  constructor
  · obtain ⟨v, hv, hlt⟩ := p.getRegisterValueFromREG8_ok REG hREG
    have hAL : p.AL < 256 := by simp only [AL, lowByte]; omega
    have hprod := byte_product_lt v p.AL hlt hAL
    have hU : toU16 ((v : Int) * (p.AL : Int)) = p.AL * v := by
      have : ((v : Int) * (p.AL : Int)) = ((v * p.AL : Nat) : Int) := by push_cast; ring
      rw [this, Nat.mul_comm p.AL v]; unfold toU16; omega
    refine ⟨v, _, hv, p.ins_MULregisterByte_eq REG v hv, hU, ?_, ?_⟩
    · rw [IS_BIT_SET_withFlag _ _ _ _ (by decide), IS_BIT_SET_withFlag _ _ _ _ (by decide)]
      simp [CARRY_FLAG, OVERFLOW_FLAG, withFlag, AH, Nat.pos_iff_ne_zero]
    · rw [IS_BIT_SET_withFlag _ _ _ _ (by decide)]
      simp [withFlag, AH, Nat.pos_iff_ne_zero]
  · obtain ⟨v, hv, hlt⟩ := p.getRegisterFromREG16_ok REG hREG hwf
    have hAX : p.m_AX < 65536 := hwf.1
    have hprod := word_product_lt v p.m_AX hlt hAX
    have hU : toU32 ((v : Int) * (p.m_AX : Int)) = v * p.m_AX := by
      have : ((v : Int) * (p.m_AX : Int)) = ((v * p.m_AX : Nat) : Int) := by push_cast; ring
      rw [this]; unfold toU32; omega
    have hand : ∀ x : Nat, x &&& 0xFFFF = x % 65536 := fun x =>
      Nat.and_pow_two_sub_one_eq_mod x 16
    refine ⟨v, _, hv, p.ins_MULregisterWord_eq REG v hv, ?_, ?_, ?_, ?_⟩
    · show (toU32 (v * p.m_AX) >>> 16) % 65536 * 65536 + (toU32 (v * p.m_AX) &&& 0xFFFF) % 65536
        = p.m_AX * v
      rw [hU, hand, Nat.shiftRight_eq_div_pow, Nat.mul_comm p.m_AX v]; omega
    · show (toU32 (v * p.m_AX) &&& 0xFFFF) % 65536 < 65536
      omega
    · rw [IS_BIT_SET_withFlag _ _ _ _ (by decide), IS_BIT_SET_withFlag _ _ _ _ (by decide)]
      simp [CARRY_FLAG, OVERFLOW_FLAG, withFlag, Nat.pos_iff_ne_zero]
    · rw [IS_BIT_SET_withFlag _ _ _ _ (by decide)]
      simp [withFlag, Nat.pos_iff_ne_zero]

/-- Witness for C9: the scenario of the spec, `AL = 0xFF`, `BL = 0xFF`, `MUL BL`
(register index 3), which gives `AX = 0xFE01` and `CF = OF = 1`. -/
theorem ins_MUL_exact_product_witness :
    (3 < 8 ∧ (stateWith 0x00FF 0x00FF 0).WellFormed) ∧
    ((∃ v q, (stateWith 0x00FF 0x00FF 0).getRegisterValueFromREG8 3 = .ok v ∧
        (stateWith 0x00FF 0x00FF 0).ins_MULregisterByte 3 = .ok q ∧
        q.m_AX = (stateWith 0x00FF 0x00FF 0).AL * v ∧
        (IS_BIT_SET q.m_flags CARRY_FLAG = true ↔ q.AH ≠ 0) ∧
        (IS_BIT_SET q.m_flags OVERFLOW_FLAG = true ↔ q.AH ≠ 0)) ∧
      (∃ v q, (stateWith 0x00FF 0x00FF 0).getRegisterFromREG16 3 = .ok v ∧
        (stateWith 0x00FF 0x00FF 0).ins_MULregisterWord 3 = .ok q ∧
        q.m_DX * 65536 + q.m_AX = (stateWith 0x00FF 0x00FF 0).m_AX * v ∧ q.m_AX < 65536 ∧
        (IS_BIT_SET q.m_flags CARRY_FLAG = true ↔ q.m_DX ≠ 0) ∧
        (IS_BIT_SET q.m_flags OVERFLOW_FLAG = true ↔ q.m_DX ≠ 0))) ∧
    ((stateWith 0x00FF 0x00FF 0).ins_MULregisterByte 3).map
        (fun q => (q.m_AX, IS_BIT_SET q.m_flags CARRY_FLAG, IS_BIT_SET q.m_flags OVERFLOW_FLAG)) =
      .ok (0xFE01, true, true) :=
  ⟨⟨by decide, by decide⟩,
    ins_MUL_exact_product (stateWith 0x00FF 0x00FF 0) 3 (by decide) (by decide), rfl⟩

/-! ## DIV by zero and the interrupt gate -/

theorem toU16_sub_two_twice (sp : Nat) :
    toU16 ((toU16 ((sp : Int) - 2) : Int) - 2) = toU16 ((sp : Int) - 4) := by
  unfold toU16; omega

theorem toU16_sub_two_thrice (sp : Nat) :
    toU16 ((toU16 ((sp : Int) - 4) : Int) - 2) = toU16 ((sp : Int) - 6) := by
  unfold toU16; omega

theorem Processor.ins_DIVregisterByte_zero (p : Processor) (REG : Nat)
    (h : p.getRegisterValueFromREG8 REG = .ok 0) :
    p.ins_DIVregisterByte REG = .ok { p with m_internalInterrupt := 1 } := by
  unfold ins_DIVregisterByte
  simp [h, bind, Except.bind, pure, Except.pure]

theorem Processor.ins_DIVregisterWord_zero (p : Processor) (REG : Nat)
    (h : p.getRegisterFromREG16 REG = .ok 0) :
    p.ins_DIVregisterWord REG = .ok { p with m_internalInterrupt := 1 } := by
  unfold ins_DIVregisterWord
  simp [h, bind, Except.bind, pure, Except.pure]

theorem Processor.getRegisterValueFromREG8_congr (p q : Processor) (REG : Nat)
    (hA : q.m_AX = p.m_AX) (hB : q.m_BX = p.m_BX) (hC : q.m_CX = p.m_CX)
    (hD : q.m_DX = p.m_DX) :
    q.getRegisterValueFromREG8 REG = p.getRegisterValueFromREG8 REG := by
  unfold getRegisterValueFromREG8 AL AH BL BH CL CH DL DH
  rw [hA, hB, hC, hD]

theorem Processor.getRegisterFromREG16_congr (p q : Processor) (REG : Nat)
    (hA : q.m_AX = p.m_AX) (hB : q.m_BX = p.m_BX) (hC : q.m_CX = p.m_CX)
    (hD : q.m_DX = p.m_DX) (hSP : q.m_stackPointer = p.m_stackPointer)
    (hBP : q.m_basePointer = p.m_basePointer) (hSI : q.m_sourceIndex = p.m_sourceIndex)
    (hDI : q.m_destinationIndex = p.m_destinationIndex) :
    q.getRegisterFromREG16 REG = p.getRegisterFromREG16 REG := by
  unfold getRegisterFromREG16
  rw [hA, hB, hC, hD, hSP, hBP, hSI, hDI]

/-- The register-mode `DIV` forms of the groups `0xF6` / `0xF7` in the opcode switch. -/
theorem Processor.dispatch_DIV (q : Processor) (mm : MemoryManager) (wide : Bool) (rm : Nat)
    (hmodrm : mm.readByte q.m_codeSegment q.m_instructionPointer = 0xF0 + rm) (hrm : rm < 8) :
    q.dispatch mm (if wide then 0xF7 else 0xF6) =
      (if wide then
        ({ q with m_instructionPointer := toU16 (q.m_instructionPointer + 1) } :
          Processor).ins_DIVregisterWord rm
      else
        ({ q with m_instructionPointer := toU16 (q.m_instructionPointer + 1) } :
          Processor).ins_DIVregisterByte rm).map (fun r => (r, mm)) := by
  have h3 : (0xF0 + rm) / 64 % 4 = 3 := by omega
  have h6 : (0xF0 + rm) / 8 % 8 = 6 := by omega
  have h0 : (0xF0 + rm) % 8 = rm := by omega
  cases wide
  · simp only [Bool.false_eq_true, ↓reduceIte, dispatch, LOAD_NEXT_INSTRUCTION_BYTE, hmodrm,
      PARSE_MOD_REG_RM_BITS, h3, h6, h0, IS_IN_REGISTER_MODE]
    rfl
  · simp only [↓reduceIte, dispatch, LOAD_NEXT_INSTRUCTION_BYTE, hmodrm,
      PARSE_MOD_REG_RM_BITS, h3, h6, h0, IS_IN_REGISTER_MODE]
    rfl

/-- The override age counter as the top of a step leaves it. -/
theorem Processor.execute_age (p : Processor) :
    (if p.m_segmentPrefix ≠ EMPTY_SEGMENT_OVERRIDE then
        { p with m_segmentPrefixCounter := p.m_segmentPrefixCounter + 1 }
      else p) =
      { p with m_segmentPrefixCounter :=
          if p.m_segmentPrefix ≠ EMPTY_SEGMENT_OVERRIDE then p.m_segmentPrefixCounter + 1
          else p.m_segmentPrefixCounter } := by
  split <;> rfl

/-- A step that passes the gate (no time to wait, no override about to expire, no
interrupt to service, no debugging stop) is the opcode switch on the byte at
`CS:IP`, run with `IP` advanced by one. -/
theorem Processor.execute_fetch (p : Processor) (mm : MemoryManager) (io : IOManager)
    (hcycles : p.m_cyclesToWait = 0)
    (hcounter : (if p.m_segmentPrefix ≠ EMPTY_SEGMENT_OVERRIDE then p.m_segmentPrefixCounter + 1
      else p.m_segmentPrefixCounter) ≠ 2)
    (hpending : p.m_internalInterrupt = 0)
    (hexternal :
      (IS_BIT_SET p.m_flags INTERRUPT_ENABLE_FLAG && io.hasPendingInterrupts) = false)
    (hdebug : toU16 (p.m_instructionPointer + 1) ≠ 0xf929) :
    p.execute mm io =
      (({ p with
          m_segmentPrefixCounter :=
            if p.m_segmentPrefix ≠ EMPTY_SEGMENT_OVERRIDE then p.m_segmentPrefixCounter + 1
            else p.m_segmentPrefixCounter
          m_instructionPointer := toU16 (p.m_instructionPointer + 1) } : Processor).dispatch mm
        (mm.readByte p.m_codeSegment p.m_instructionPointer)).map
        (fun r => (r.1, r.2, io)) := by
  unfold execute
  rw [if_neg (by omega), Processor.execute_age]
  simp only [hcounter, hexternal, hpending, hdebug, LOAD_NEXT_INSTRUCTION_BYTE, ↓reduceIte,
    Bool.false_eq_true, ne_eq, not_true_eq_false]
  rfl

/-- A step that fetches a register-mode `DIV` whose divisor register is zero. -/
theorem Processor.execute_DIV_by_zero (p : Processor) (mm : MemoryManager) (io : IOManager)
    (wide : Bool) (rm : Nat)
    (hcycles : p.m_cyclesToWait = 0)
    (hcounter : (if p.m_segmentPrefix ≠ EMPTY_SEGMENT_OVERRIDE then p.m_segmentPrefixCounter + 1
      else p.m_segmentPrefixCounter) ≠ 2)
    (hpending : p.m_internalInterrupt = 0)
    (hexternal :
      (IS_BIT_SET p.m_flags INTERRUPT_ENABLE_FLAG && io.hasPendingInterrupts) = false)
    (hopcode :
      mm.readByte p.m_codeSegment p.m_instructionPointer = if wide then 0xF7 else 0xF6)
    (hmodrm : mm.readByte p.m_codeSegment (toU16 (p.m_instructionPointer + 1)) = 0xF0 + rm)
    (hrm : rm < 8)
    (hdebug : toU16 (p.m_instructionPointer + 1) ≠ 0xf929)
    (hzero :
      (if wide then p.getRegisterFromREG16 rm else p.getRegisterValueFromREG8 rm) = .ok 0) :
    p.execute mm io = .ok ({ p with
        m_segmentPrefixCounter :=
          if p.m_segmentPrefix ≠ EMPTY_SEGMENT_OVERRIDE then p.m_segmentPrefixCounter + 1
          else p.m_segmentPrefixCounter
        m_instructionPointer := toU16 (toU16 (p.m_instructionPointer + 1) + 1)
        m_internalInterrupt := 1 }, mm, io) := by
  rw [Processor.execute_fetch p mm io hcycles hcounter hpending hexternal hdebug, hopcode,
    Processor.dispatch_DIV ({ p with
      m_segmentPrefixCounter :=
        if p.m_segmentPrefix ≠ EMPTY_SEGMENT_OVERRIDE then p.m_segmentPrefixCounter + 1
        else p.m_segmentPrefixCounter
      m_instructionPointer := toU16 (p.m_instructionPointer + 1) } : Processor) mm wide rm
      hmodrm hrm]
  cases wide
  · simp only [Bool.false_eq_true, ↓reduceIte] at hzero ⊢
    have hz : ({ p with
        m_segmentPrefixCounter :=
          if p.m_segmentPrefix ≠ EMPTY_SEGMENT_OVERRIDE then p.m_segmentPrefixCounter + 1
          else p.m_segmentPrefixCounter
        m_instructionPointer := toU16 (toU16 (p.m_instructionPointer + 1) + 1) } :
          Processor).getRegisterValueFromREG8 rm = .ok 0 :=
      (Processor.getRegisterValueFromREG8_congr p _ rm rfl rfl rfl rfl).trans hzero
    rw [Processor.ins_DIVregisterByte_zero _ rm hz]
    rfl
  · simp only [↓reduceIte] at hzero ⊢
    have hz : ({ p with
        m_segmentPrefixCounter :=
          if p.m_segmentPrefix ≠ EMPTY_SEGMENT_OVERRIDE then p.m_segmentPrefixCounter + 1
          else p.m_segmentPrefixCounter
        m_instructionPointer := toU16 (toU16 (p.m_instructionPointer + 1) + 1) } :
          Processor).getRegisterFromREG16 rm = .ok 0 :=
      (Processor.getRegisterFromREG16_congr p _ rm rfl rfl rfl rfl rfl rfl rfl rfl).trans hzero
    rw [Processor.ins_DIVregisterWord_zero _ rm hz]
    rfl

/-- A step that starts with an internal interrupt pending, no time to wait, no
override about to expire and no external interrupt to service: the `INT` entry
for the pending vector, with the pending slot cleared. -/
theorem Processor.execute_internal_interrupt (p : Processor) (mm : MemoryManager)
    (io : IOManager)
    (hcycles : p.m_cyclesToWait = 0)
    (hcounter : (if p.m_segmentPrefix ≠ EMPTY_SEGMENT_OVERRIDE then p.m_segmentPrefixCounter + 1
      else p.m_segmentPrefixCounter) ≠ 2)
    (hpending : p.m_internalInterrupt ≠ 0)
    (hexternal :
      (IS_BIT_SET p.m_flags INTERRUPT_ENABLE_FLAG && io.hasPendingInterrupts) = false) :
    p.execute mm io =
      .ok ((({ p with
          m_segmentPrefixCounter :=
            if p.m_segmentPrefix ≠ EMPTY_SEGMENT_OVERRIDE then p.m_segmentPrefixCounter + 1
            else p.m_segmentPrefixCounter
          m_internalInterrupt := 0 } : Processor).ins_INT mm
            (toU16 (p.m_internalInterrupt - 1))).1,
        (({ p with
          m_segmentPrefixCounter :=
            if p.m_segmentPrefix ≠ EMPTY_SEGMENT_OVERRIDE then p.m_segmentPrefixCounter + 1
            else p.m_segmentPrefixCounter
          m_internalInterrupt := 0 } : Processor).ins_INT mm
            (toU16 (p.m_internalInterrupt - 1))).2, io) := by
  unfold execute
  rw [if_neg (by omega), Processor.execute_age]
  simp only [hcounter, hexternal, hpending, ↓reduceIte, Bool.false_eq_true, ne_eq,
    not_false_eq_true]
  rfl

/-- C10 (as amended): a step that fetches `DIV r8` (`F6 /6`) or `DIV r16` (`F7 /6`) in
register mode with the divisor register equal to 0, with no segment override
pending, completes with internal interrupt vector 0 pending (the slot holds 1)
and with nothing else changed but `IP`, which is past the two instruction bytes;
in particular `AX`, `DX` and FLAGS are unchanged.  If the following step services
no external interrupt, it completes as the `INT` entry for vector 0: the pending
slot is cleared, FLAGS, `CS` and `IP` are pushed (the pushed `IP` is the one the
`DIV` step left, so no opcode is fetched), IF and TF are cleared, and `IP` and `CS`
are loaded from `0000:0000` and `0000:0002`. -/
theorem DIV_by_zero_raises_vector_0 (p : Processor) (mm : MemoryManager) (io : IOManager)
    (wide : Bool) (rm : Nat)
    (hcycles : p.m_cyclesToWait = 0)
    (hoverride : p.m_segmentPrefix = EMPTY_SEGMENT_OVERRIDE)
    (hcounter : p.m_segmentPrefixCounter ≠ 2)
    (hpending : p.m_internalInterrupt = 0)
    (hexternal :
      (IS_BIT_SET p.m_flags INTERRUPT_ENABLE_FLAG && io.hasPendingInterrupts) = false)
    (hopcode :
      mm.readByte p.m_codeSegment p.m_instructionPointer = if wide then 0xF7 else 0xF6)
    (hmodrm : mm.readByte p.m_codeSegment (toU16 (p.m_instructionPointer + 1)) = 0xF0 + rm)
    (hrm : rm < 8)
    (hdebug : toU16 (p.m_instructionPointer + 1) ≠ 0xf929)
    (hzero :
      (if wide then p.getRegisterFromREG16 rm else p.getRegisterValueFromREG8 rm) = .ok 0) :
    ∃ p1, p.execute mm io = .ok (p1, mm, io) ∧
      p1 = { p with
        m_instructionPointer := toU16 (toU16 (p.m_instructionPointer + 1) + 1)
        m_internalInterrupt := 1 } ∧
      p1.m_internalInterrupt = 1 ∧ p1.m_AX = p.m_AX ∧ p1.m_DX = p.m_DX ∧
      p1.m_flags = p.m_flags ∧
      ∀ io1 : IOManager,
        (IS_BIT_SET p1.m_flags INTERRUPT_ENABLE_FLAG && io1.hasPendingInterrupts) = false →
        ∃ p2 mm2, p1.execute mm io1 = .ok (p2, mm2, io1) ∧
          p2.m_internalInterrupt = 0 ∧
          mm2 = ((mm.writeWord p.m_stackSegment (toU16 (p.m_stackPointer - 2)) p.m_flags).writeWord
              p.m_stackSegment (toU16 (p.m_stackPointer - 4)) p.m_codeSegment).writeWord
              p.m_stackSegment (toU16 (p.m_stackPointer - 6)) p1.m_instructionPointer ∧
          p2.m_stackPointer = toU16 (p.m_stackPointer - 6) ∧
          p2.m_flags =
            CLEAR_FLAG_BIT (CLEAR_FLAG_BIT p.m_flags INTERRUPT_ENABLE_FLAG) TRAP_FLAG ∧
          p2.m_instructionPointer = mm2.readWord 0 0 ∧
          p2.m_codeSegment = mm2.readWord 0 2 ∧
          p2.m_AX = p.m_AX ∧ p2.m_DX = p.m_DX := by
  have hage : (if p.m_segmentPrefix ≠ EMPTY_SEGMENT_OVERRIDE then p.m_segmentPrefixCounter + 1
      else p.m_segmentPrefixCounter) = p.m_segmentPrefixCounter := by
    simp [hoverride]
  have hstep := Processor.execute_DIV_by_zero p mm io wide rm hcycles (by rw [hage]; exact hcounter)
    hpending hexternal hopcode hmodrm hrm hdebug hzero
  rw [hage] at hstep
  refine ⟨_, hstep, rfl, rfl, rfl, rfl, rfl, fun io1 hext1 => ?_⟩
  have hnext := Processor.execute_internal_interrupt ({ p with
      m_instructionPointer := toU16 (toU16 (p.m_instructionPointer + 1) + 1)
      m_internalInterrupt := 1 } : Processor) mm io1 hcycles
    (by show (if p.m_segmentPrefix ≠ EMPTY_SEGMENT_OVERRIDE then p.m_segmentPrefixCounter + 1
          else p.m_segmentPrefixCounter) ≠ 2
        rw [hage]; exact hcounter)
    (by show (1 : Nat) ≠ 0
        decide) hext1
  refine ⟨_, _, hnext, rfl, ?_, ?_, rfl, ?_, ?_, rfl, rfl⟩
  · simp only [ins_INT, toU16_sub_two_twice, toU16_sub_two_thrice]
  · simp only [ins_INT, toU16_sub_two_twice, toU16_sub_two_thrice]
  · rfl
  · rfl

/-- Witness for C10 (as amended): the scenario of the spec, `AX = 0x1234`,
`BL = 0x00`, `DIV BL` (bytes `F6 F3`) at `0000:0100`. -/
theorem DIV_by_zero_raises_vector_0_witness :
    (divideScenario.m_cyclesToWait = 0 ∧
      divideScenario.m_segmentPrefix = EMPTY_SEGMENT_OVERRIDE ∧
      divideScenario.m_segmentPrefixCounter ≠ 2 ∧
      divideScenario.m_internalInterrupt = 0 ∧
      (IS_BIT_SET divideScenario.m_flags INTERRUPT_ENABLE_FLAG &&
        quietIO.hasPendingInterrupts) = false ∧
      (memoryWithBytes 0x100 [0xF6, 0xF3]).readByte divideScenario.m_codeSegment
        divideScenario.m_instructionPointer = (if false then 0xF7 else 0xF6) ∧
      (memoryWithBytes 0x100 [0xF6, 0xF3]).readByte divideScenario.m_codeSegment
        (toU16 (divideScenario.m_instructionPointer + 1)) = 0xF0 + 3 ∧
      3 < 8 ∧
      toU16 (divideScenario.m_instructionPointer + 1) ≠ 0xf929 ∧
      (if false then divideScenario.getRegisterFromREG16 3
        else divideScenario.getRegisterValueFromREG8 3) = .ok 0) ∧
    (∃ p1, divideScenario.execute (memoryWithBytes 0x100 [0xF6, 0xF3]) quietIO =
        .ok (p1, memoryWithBytes 0x100 [0xF6, 0xF3], quietIO) ∧
      p1 = { divideScenario with
        m_instructionPointer := toU16 (toU16 (divideScenario.m_instructionPointer + 1) + 1)
        m_internalInterrupt := 1 } ∧
      p1.m_internalInterrupt = 1 ∧ p1.m_AX = divideScenario.m_AX ∧
      p1.m_DX = divideScenario.m_DX ∧ p1.m_flags = divideScenario.m_flags ∧
      ∀ io1 : IOManager,
        (IS_BIT_SET p1.m_flags INTERRUPT_ENABLE_FLAG && io1.hasPendingInterrupts) = false →
        ∃ p2 mm2, p1.execute (memoryWithBytes 0x100 [0xF6, 0xF3]) io1 = .ok (p2, mm2, io1) ∧
          p2.m_internalInterrupt = 0 ∧
          mm2 = (((memoryWithBytes 0x100 [0xF6, 0xF3]).writeWord divideScenario.m_stackSegment
              (toU16 (divideScenario.m_stackPointer - 2)) divideScenario.m_flags).writeWord
              divideScenario.m_stackSegment (toU16 (divideScenario.m_stackPointer - 4))
              divideScenario.m_codeSegment).writeWord
              divideScenario.m_stackSegment (toU16 (divideScenario.m_stackPointer - 6))
              p1.m_instructionPointer ∧
          p2.m_stackPointer = toU16 (divideScenario.m_stackPointer - 6) ∧
          p2.m_flags = CLEAR_FLAG_BIT
            (CLEAR_FLAG_BIT divideScenario.m_flags INTERRUPT_ENABLE_FLAG) TRAP_FLAG ∧
          p2.m_instructionPointer = mm2.readWord 0 0 ∧
          p2.m_codeSegment = mm2.readWord 0 2 ∧
          p2.m_AX = divideScenario.m_AX ∧ p2.m_DX = divideScenario.m_DX) :=
  ⟨⟨rfl, rfl, by decide, rfl, rfl, rfl, rfl, by decide, by decide, rfl⟩,
    DIV_by_zero_raises_vector_0 divideScenario (memoryWithBytes 0x100 [0xF6, 0xF3]) quietIO
      false 3 rfl rfl (by decide) rfl rfl rfl rfl (by decide) (by decide) rfl⟩

/-- C10 (counterexample to the claim as stated): the guest bytes `26 F6 F3`
(`ES:` prefix, then `DIV BL`) at `0000:0100` with `AX = 0x1234`, `BL = 0x00` and no
hardware interrupt.  The first step leaves the `ES` override pending; the second
executes `DIV BL`, which leaves vector 0 pending and `AX` unchanged; the third
step stops at the assertion on the override age counter instead of performing
the `INT` entry. -/
theorem DIV_by_zero_under_pending_override :
    (steps 1 (divideScenario, memoryWithBytes 0x100 [0x26, 0xF6, 0xF3], quietIO)).map
        (fun s => (s.1.m_segmentPrefix, s.1.m_instructionPointer)) =
      .ok (REGISTER_ES, 0x101) ∧
    (steps 2 (divideScenario, memoryWithBytes 0x100 [0x26, 0xF6, 0xF3], quietIO)).map
        (fun s => (s.1.m_internalInterrupt, s.1.m_AX, s.1.BL, s.1.m_instructionPointer,
          s.2.2.hasPendingInterrupts)) = .ok (1, 0x1234, 0x00, 0x103, false) ∧
    (steps 3 (divideScenario, memoryWithBytes 0x100 [0x26, 0xF6, 0xF3], quietIO)).map
        (fun _ => ()) = .error .verifyNotReached :=
  ⟨rfl, rfl, rfl⟩

/-! ## Memory: writes elsewhere are not seen -/

theorem MemoryManager.physicalAddress_eq_iff (segment o1 o2 : Nat) :
    MemoryManager.physicalAddress segment o1 = MemoryManager.physicalAddress segment o2 ↔
      o1 % 65536 = o2 % 65536 := by
  unfold MemoryManager.physicalAddress; omega

theorem MemoryManager.readByte_writeByte_of_ne (mm : MemoryManager) (segment o1 o2 data : Nat)
    (h : o1 % 65536 ≠ o2 % 65536) :
    (mm.writeByte segment o2 data).readByte segment o1 = mm.readByte segment o1 := by
  have hne : MemoryManager.physicalAddress segment o1 ≠
      MemoryManager.physicalAddress segment o2 := by
    rw [Ne, MemoryManager.physicalAddress_eq_iff]; exact h
  simp only [MemoryManager.readByte, MemoryManager.writeByte, if_neg hne]

/-- A word read is not affected by a word write in the same segment whose two
bytes lie at other offsets. -/
theorem MemoryManager.readWord_writeWord_of_ne (mm : MemoryManager)
    (segment o1 o2 data : Nat)
    (h1 : o1 % 65536 ≠ o2 % 65536) (h2 : o1 % 65536 ≠ (o2 + 1) % 65536)
    (h3 : (o1 + 1) % 65536 ≠ o2 % 65536) :
    (mm.writeWord segment o2 data).readWord segment o1 = mm.readWord segment o1 := by
  unfold MemoryManager.readWord MemoryManager.writeWord
  rw [MemoryManager.readByte_writeByte_of_ne _ _ _ _ _ (by omega),
    MemoryManager.readByte_writeByte_of_ne _ _ _ _ _ (by omega),
    MemoryManager.readByte_writeByte_of_ne _ _ _ _ _ (by omega),
    MemoryManager.readByte_writeByte_of_ne _ _ _ _ _ (by omega)]

/-! ## INT and IRET -/

/-- The memory and the stack registers that `ins$INT` leaves: three words pushed
below the old `SP`, none of them overwriting another. -/
theorem Processor.ins_INT_stack (p : Processor) (mm : MemoryManager) (n : Nat) :
    (p.ins_INT mm n).1.m_stackSegment = p.m_stackSegment ∧
    (p.ins_INT mm n).1.m_stackPointer = toU16 (p.m_stackPointer - 6) ∧
    (p.ins_INT mm n).2.readWord p.m_stackSegment (toU16 (p.m_stackPointer - 6)) =
      p.m_instructionPointer % 65536 ∧
    (p.ins_INT mm n).2.readWord p.m_stackSegment (toU16 (p.m_stackPointer - 4)) =
      p.m_codeSegment % 65536 ∧
    (p.ins_INT mm n).2.readWord p.m_stackSegment (toU16 (p.m_stackPointer - 2)) =
      p.m_flags % 65536 := by
  have hmm : (p.ins_INT mm n).2 =
      ((mm.writeWord p.m_stackSegment (toU16 (p.m_stackPointer - 2)) p.m_flags).writeWord
        p.m_stackSegment (toU16 (p.m_stackPointer - 4)) p.m_codeSegment).writeWord
        p.m_stackSegment (toU16 (p.m_stackPointer - 6)) p.m_instructionPointer := by
    simp only [ins_INT, toU16_sub_two_twice, toU16_sub_two_thrice]
  have hsp : (p.ins_INT mm n).1.m_stackPointer = toU16 (p.m_stackPointer - 6) := by
    simp only [ins_INT, toU16_sub_two_twice, toU16_sub_two_thrice]
  refine ⟨rfl, hsp, ?_, ?_, ?_⟩
  · rw [hmm, MemoryManager.readWord_writeWord]
  · rw [hmm, MemoryManager.readWord_writeWord_of_ne _ _ _ _ _
      (by unfold toU16; omega) (by unfold toU16; omega) (by unfold toU16; omega),
      MemoryManager.readWord_writeWord]
  · rw [hmm, MemoryManager.readWord_writeWord_of_ne _ _ _ _ _
      (by unfold toU16; omega) (by unfold toU16; omega) (by unfold toU16; omega),
      MemoryManager.readWord_writeWord_of_ne _ _ _ _ _
      (by unfold toU16; omega) (by unfold toU16; omega) (by unfold toU16; omega),
      MemoryManager.readWord_writeWord]

theorem IS_BIT_SET_of_lt (f i : Nat) (hf : f < 65536) (hi : 16 ≤ i) : IS_BIT_SET f i = false := by
  unfold IS_BIT_SET
  apply Nat.testBit_lt_two_pow
  calc f < 2 ^ 16 := hf
    _ ≤ 2 ^ i := Nat.pow_le_pow_right (by decide) hi

theorem CLEAR_FLAG_BIT_le (f b : Nat) : CLEAR_FLAG_BIT f b ≤ f := by
  unfold CLEAR_FLAG_BIT; exact Nat.and_le_left

/-- C13: the `INT n` entry, for every vector `n` in `0..255` and every well-formed
state.  `SP` decreases by 6 modulo `2 ^ 16`; afterwards the word at `SS:SP+4` is the
FLAGS value before the instruction, the word at `SS:SP+2` the old `CS` and the word
at `SS:SP` the old `IP`; IF and TF are 0 and every other FLAGS bit is unchanged;
`IP` is the word at `0000:4n` and `CS` the word at `0000:4n+2` (memory as the
instruction leaves it). -/
theorem ins_INT_entry (p : Processor) (mm : MemoryManager) (n : Nat) (hn : n < 256)
    (hwf : p.WellFormed) :
    (p.ins_INT mm n).1.m_stackSegment = p.m_stackSegment ∧
    (p.ins_INT mm n).1.m_stackPointer = toU16 (p.m_stackPointer - 6) ∧
    (p.ins_INT mm n).2.readWord (p.ins_INT mm n).1.m_stackSegment
      (((p.ins_INT mm n).1.m_stackPointer + 4) % 65536) = p.m_flags ∧
    (p.ins_INT mm n).2.readWord (p.ins_INT mm n).1.m_stackSegment
      (((p.ins_INT mm n).1.m_stackPointer + 2) % 65536) = p.m_codeSegment ∧
    (p.ins_INT mm n).2.readWord (p.ins_INT mm n).1.m_stackSegment
      (p.ins_INT mm n).1.m_stackPointer = p.m_instructionPointer ∧
    IS_BIT_SET (p.ins_INT mm n).1.m_flags INTERRUPT_ENABLE_FLAG = false ∧
    IS_BIT_SET (p.ins_INT mm n).1.m_flags TRAP_FLAG = false ∧
    (∀ i, i ≠ INTERRUPT_ENABLE_FLAG → i ≠ TRAP_FLAG →
      IS_BIT_SET (p.ins_INT mm n).1.m_flags i = IS_BIT_SET p.m_flags i) ∧
    (p.ins_INT mm n).1.m_instructionPointer = (p.ins_INT mm n).2.readWord 0 (4 * n) ∧
    (p.ins_INT mm n).1.m_codeSegment = (p.ins_INT mm n).2.readWord 0 (4 * n + 2) := by
  obtain ⟨hss, hsp, h0, h2, h4⟩ := p.ins_INT_stack mm n
  obtain ⟨-, -, -, -, hSP, -, -, -, hCS, -, -, -, hIP, hFL⟩ := hwf
  have hfl : (p.ins_INT mm n).1.m_flags =
      CLEAR_FLAG_BIT (CLEAR_FLAG_BIT p.m_flags INTERRUPT_ENABLE_FLAG) TRAP_FLAG := rfl
  have e4 : (toU16 (p.m_stackPointer - 6) + 4) % 65536 = toU16 (p.m_stackPointer - 2) := by
    unfold toU16; omega
  have e2 : (toU16 (p.m_stackPointer - 6) + 2) % 65536 = toU16 (p.m_stackPointer - 4) := by
    unfold toU16; omega
  have en : toU16 ((n : Int) * 4) = 4 * n := by unfold toU16; omega
  have en2 : toU16 ((n : Int) * 4 + 2) = 4 * n + 2 := by unfold toU16; omega
  refine ⟨hss, hsp, ?_, ?_, ?_, ?_, ?_, ?_, ?_, ?_⟩
  · rw [hss, hsp, e4, h4, Nat.mod_eq_of_lt hFL]
  · rw [hss, hsp, e2, h2, Nat.mod_eq_of_lt hCS]
  · rw [hss, hsp, h0, Nat.mod_eq_of_lt hIP]
  · rw [hfl, IS_BIT_SET_CLEAR_FLAG_BIT _ _ _ (by decide),
      IS_BIT_SET_CLEAR_FLAG_BIT _ _ _ (by decide)]
    simp
  · rw [hfl, IS_BIT_SET_CLEAR_FLAG_BIT _ _ _ (by decide)]
    simp
  · intro i hi1 hi2
    by_cases hi : i < 16
    · rw [hfl, IS_BIT_SET_CLEAR_FLAG_BIT _ _ _ hi, IS_BIT_SET_CLEAR_FLAG_BIT _ _ _ hi]
      simp [Ne.symm hi1, Ne.symm hi2]
    · rw [IS_BIT_SET_of_lt _ i _ (by omega), IS_BIT_SET_of_lt _ i hFL (by omega)]
      rw [hfl]
      exact lt_of_le_of_lt ((CLEAR_FLAG_BIT_le _ _).trans (CLEAR_FLAG_BIT_le _ _)) hFL
  · show (p.ins_INT mm n).2.readWord 0 (toU16 ((n : Int) * 4)) = _
    rw [en]
  · show (p.ins_INT mm n).2.readWord 0 (toU16 ((n : Int) * 4 + 2)) = _
    rw [en2]

/-- Witness for C13: `INT 0x21` from `interruptScenario`. -/
theorem ins_INT_entry_witness :
    (0x21 < 256 ∧ interruptScenario.WellFormed) ∧
    ((interruptScenario.ins_INT vectorTable 0x21).1.m_stackSegment =
        interruptScenario.m_stackSegment ∧
      (interruptScenario.ins_INT vectorTable 0x21).1.m_stackPointer =
        toU16 (interruptScenario.m_stackPointer - 6) ∧
      (interruptScenario.ins_INT vectorTable 0x21).2.readWord
        (interruptScenario.ins_INT vectorTable 0x21).1.m_stackSegment
        (((interruptScenario.ins_INT vectorTable 0x21).1.m_stackPointer + 4) % 65536) =
          interruptScenario.m_flags ∧
      (interruptScenario.ins_INT vectorTable 0x21).2.readWord
        (interruptScenario.ins_INT vectorTable 0x21).1.m_stackSegment
        (((interruptScenario.ins_INT vectorTable 0x21).1.m_stackPointer + 2) % 65536) =
          interruptScenario.m_codeSegment ∧
      (interruptScenario.ins_INT vectorTable 0x21).2.readWord
        (interruptScenario.ins_INT vectorTable 0x21).1.m_stackSegment
        (interruptScenario.ins_INT vectorTable 0x21).1.m_stackPointer =
          interruptScenario.m_instructionPointer ∧
      IS_BIT_SET (interruptScenario.ins_INT vectorTable 0x21).1.m_flags
        INTERRUPT_ENABLE_FLAG = false ∧
      IS_BIT_SET (interruptScenario.ins_INT vectorTable 0x21).1.m_flags TRAP_FLAG = false ∧
      (∀ i, i ≠ INTERRUPT_ENABLE_FLAG → i ≠ TRAP_FLAG →
        IS_BIT_SET (interruptScenario.ins_INT vectorTable 0x21).1.m_flags i =
          IS_BIT_SET interruptScenario.m_flags i) ∧
      (interruptScenario.ins_INT vectorTable 0x21).1.m_instructionPointer =
        (interruptScenario.ins_INT vectorTable 0x21).2.readWord 0 (4 * 0x21) ∧
      (interruptScenario.ins_INT vectorTable 0x21).1.m_codeSegment =
        (interruptScenario.ins_INT vectorTable 0x21).2.readWord 0 (4 * 0x21 + 2)) ∧
    ((interruptScenario.ins_INT vectorTable 0x21).1.m_stackPointer,
      (interruptScenario.ins_INT vectorTable 0x21).1.m_flags,
      (interruptScenario.ins_INT vectorTable 0x21).1.m_codeSegment,
      (interruptScenario.ins_INT vectorTable 0x21).1.m_instructionPointer) =
        (0x00FA, 0x0046, 0xF000, 0x1234) :=
  ⟨⟨by decide, by decide⟩,
    ins_INT_entry interruptScenario vectorTable 0x21 (by decide) (by decide), rfl⟩

/-- C14: the `INT n` entry followed by `IRET`.  Between the two, anything may
change except `SS`, `SP` and the three stack words the entry pushed; `IRET` then
restores `IP`, `CS`, the whole FLAGS word and `SP` to their values before the entry. -/
theorem ins_INT_ins_IRET_round_trip (p : Processor) (mm : MemoryManager) (n : Nat)
    (hwf : p.WellFormed) (p1 : Processor) (mm1 : MemoryManager)
    (hSS : p1.m_stackSegment = (p.ins_INT mm n).1.m_stackSegment)
    (hSP : p1.m_stackPointer = (p.ins_INT mm n).1.m_stackPointer)
    (hw0 : mm1.readWord p1.m_stackSegment p1.m_stackPointer =
      (p.ins_INT mm n).2.readWord p1.m_stackSegment p1.m_stackPointer)
    (hw2 : mm1.readWord p1.m_stackSegment ((p1.m_stackPointer + 2) % 65536) =
      (p.ins_INT mm n).2.readWord p1.m_stackSegment ((p1.m_stackPointer + 2) % 65536))
    (hw4 : mm1.readWord p1.m_stackSegment ((p1.m_stackPointer + 4) % 65536) =
      (p.ins_INT mm n).2.readWord p1.m_stackSegment ((p1.m_stackPointer + 4) % 65536)) :
    (p1.ins_IRET mm1).m_instructionPointer = p.m_instructionPointer ∧
    (p1.ins_IRET mm1).m_codeSegment = p.m_codeSegment ∧
    (p1.ins_IRET mm1).m_flags = p.m_flags ∧
    (p1.ins_IRET mm1).m_stackPointer = p.m_stackPointer := by
  obtain ⟨hss, hsp, h0, h2, h4⟩ := p.ins_INT_stack mm n
  obtain ⟨-, -, -, -, hSPlt, -, -, -, hCS, -, -, -, hIP, hFL⟩ := hwf
  rw [hss] at hSS
  rw [hsp] at hSP
  rw [hSS, hSP] at hw0 hw2 hw4
  have e4 : (toU16 (p.m_stackPointer - 6) + 4) % 65536 = toU16 (p.m_stackPointer - 2) := by
    unfold toU16; omega
  have e2 : (toU16 (p.m_stackPointer - 6) + 2) % 65536 = toU16 (p.m_stackPointer - 4) := by
    unfold toU16; omega
  rw [e4, h4, Nat.mod_eq_of_lt hFL] at hw4
  rw [e2, h2, Nat.mod_eq_of_lt hCS] at hw2
  rw [h0, Nat.mod_eq_of_lt hIP] at hw0
  have s2 : toU16 ((toU16 (p.m_stackPointer - 6) : Int) + 2) = toU16 (p.m_stackPointer - 4) := by
    unfold toU16; omega
  have s4 : toU16 ((toU16 (p.m_stackPointer - 4) : Int) + 2) = toU16 (p.m_stackPointer - 2) := by
    unfold toU16; omega
  have s6 : toU16 ((toU16 (p.m_stackPointer - 2) : Int) + 2) = p.m_stackPointer := by
    unfold toU16; omega
  refine ⟨?_, ?_, ?_, ?_⟩
  · show mm1.readWord p1.m_stackSegment p1.m_stackPointer = _
    rw [hSS, hSP, hw0]
  · show mm1.readWord p1.m_stackSegment (toU16 ((p1.m_stackPointer : Int) + 2)) = _
    rw [hSS, hSP, s2, hw2]
  · show mm1.readWord p1.m_stackSegment
      (toU16 ((toU16 ((p1.m_stackPointer : Int) + 2) : Int) + 2)) = _
    rw [hSS, hSP, s2, s4, hw4]
  · show toU16 ((toU16 ((toU16 ((p1.m_stackPointer : Int) + 2) : Int) + 2) : Int) + 2) = _
    rw [hSP, s2, s4, s6]

/-- Witness for C14: `INT 0x21` from `interruptScenario`, immediately followed by
`IRET`. -/
theorem ins_INT_ins_IRET_round_trip_witness :
    interruptScenario.WellFormed ∧
    (((interruptScenario.ins_INT vectorTable 0x21).1.ins_IRET
        (interruptScenario.ins_INT vectorTable 0x21).2).m_instructionPointer =
        interruptScenario.m_instructionPointer ∧
      ((interruptScenario.ins_INT vectorTable 0x21).1.ins_IRET
        (interruptScenario.ins_INT vectorTable 0x21).2).m_codeSegment =
        interruptScenario.m_codeSegment ∧
      ((interruptScenario.ins_INT vectorTable 0x21).1.ins_IRET
        (interruptScenario.ins_INT vectorTable 0x21).2).m_flags = interruptScenario.m_flags ∧
      ((interruptScenario.ins_INT vectorTable 0x21).1.ins_IRET
        (interruptScenario.ins_INT vectorTable 0x21).2).m_stackPointer =
        interruptScenario.m_stackPointer) :=
  ⟨by decide,
    ins_INT_ins_IRET_round_trip interruptScenario vectorTable 0x21 (by decide)
      (interruptScenario.ins_INT vectorTable 0x21).1
      (interruptScenario.ins_INT vectorTable 0x21).2 rfl rfl rfl rfl rfl⟩

/-! ## DIV: quotient overflow, and the quotient that fits -/

/-- C11 (code defect): `DIV r8` with a quotient above `0xFF` makes internal interrupt
vector 0 pending and leaves `AX` and `DX` alone (`AX = 0x1234`, `BL = 0x01`), but
`DIV r16` with a quotient above `0xFFFF` stops in `TODO()` without making any
interrupt pending (`DX:AX = 0001:0000`, `BX = 0x0001`, quotient `0x10000`). -/
theorem ins_DIV_quotient_overflow :
    ((stateWith 0x1234 0x0001 0).ins_DIVregisterByte 3).map
        (fun q => (q.m_internalInterrupt, q.m_AX, q.m_DX)) = .ok (1, 0x1234, 0) ∧
    0x1234 / 0x01 > 0xFF ∧
    ({ stateWith 0x0000 0x0001 0 with m_DX := 0x0001 } : Processor).ins_DIVregisterWord 3 =
      .error .todo ∧
    (0x0001 * 65536 + 0x0000) / 0x0001 > 0xFFFF :=
  ⟨rfl, by decide, rfl, by decide⟩

theorem Processor.getRegisterValueFromREG8_lt (p : Processor) (REG d : Nat)
    (h : p.getRegisterValueFromREG8 REG = .ok d) : d < 256 := by
  by_cases hREG : REG < 8
  · obtain ⟨v, hv, hlt⟩ := p.getRegisterValueFromREG8_ok REG hREG
    rw [hv] at h; cases h; exact hlt
  · exfalso
    unfold getRegisterValueFromREG8 at h
    split at h <;> first | omega | cases h

theorem Processor.getRegisterFromREG16_lt (p : Processor) (REG d : Nat) (hwf : p.WellFormed)
    (h : p.getRegisterFromREG16 REG = .ok d) : d < 65536 := by
  by_cases hREG : REG < 8
  · obtain ⟨v, hv, hlt⟩ := p.getRegisterFromREG16_ok REG hREG hwf
    rw [hv] at h; cases h; exact hlt
  · exfalso
    unfold getRegisterFromREG16 at h
    split at h <;> first | omega | cases h

/-- The 32-bit dividend `DX:AX` as the source assembles it. -/
theorem Processor.dividend_eq (p : Processor) (hwf : p.WellFormed) :
    (p.m_AX ||| toU32 ((p.m_DX <<< 16 : Nat) : Int)) = p.m_DX * 65536 + p.m_AX := by
  obtain ⟨hAX, -, -, hDX, -⟩ := hwf
  have h1 : toU32 ((p.m_DX <<< 16 : Nat) : Int) = 2 ^ 16 * p.m_DX := by
    rw [Nat.shiftLeft_eq]; unfold toU32; omega
  rw [h1, Nat.lor_comm, ← Nat.mul_add_lt_is_or (by simpa using hAX)]
  omega

/-- C12: `DIV` when the quotient fits.  For `DIV r8` with divisor `d ≠ 0` and
`AX div d ≤ 0xFF`: afterwards `AL = AX div d` and `AH = AX mod d`.  For `DIV r16`
with divisor `d ≠ 0` and `(DX:AX) div d ≤ 0xFFFF`: afterwards `AX = (DX:AX) div d`
and `DX = (DX:AX) mod d`.  The pending-interrupt slot is not changed.  The divisor
register may be any register, the dividend registers included. -/
theorem ins_DIV_quotient_and_remainder (p : Processor) (REG d : Nat) (hwf : p.WellFormed)
    (hd : d ≠ 0) :
    (p.getRegisterValueFromREG8 REG = .ok d → p.m_AX / d ≤ 0xFF →
      ∃ q, p.ins_DIVregisterByte REG = .ok q ∧
        q.AL = p.m_AX / d ∧ q.AH = p.m_AX % d ∧
        q.m_internalInterrupt = p.m_internalInterrupt) ∧
    (p.getRegisterFromREG16 REG = .ok d → (p.m_DX * 65536 + p.m_AX) / d ≤ 0xFFFF →
      ∃ q, p.ins_DIVregisterWord REG = .ok q ∧
        q.m_AX = (p.m_DX * 65536 + p.m_AX) / d ∧ q.m_DX = (p.m_DX * 65536 + p.m_AX) % d ∧
        q.m_internalInterrupt = p.m_internalInterrupt) := by
  have hpos : 0 < d := Nat.pos_of_ne_zero hd
  constructor
  · intro hreg hq
    have hdlt := p.getRegisterValueFromREG8_lt REG d hreg
    have hrem : p.m_AX % d < d := Nat.mod_lt _ hpos
    unfold ins_DIVregisterByte
    simp only [hreg, bind, Except.bind, hd, ↓reduceIte, pure, Except.pure]
    generalize p.m_AX / d = Q at hq ⊢
    generalize p.m_AX % d = R at hrem ⊢
    have hquot : ¬ (Q % 65536 > 0xFF) := by omega
    simp only [hquot, ↓reduceIte]
    refine ⟨_, rfl, ?_, ?_, rfl⟩
    · simp only [AL, setAL, setAH, withLowByte, withHighByte, lowByte, highByte]; omega
    · simp only [AH, setAL, setAH, withLowByte, withHighByte, lowByte, highByte]; omega
  · intro hreg hq
    have hdlt := p.getRegisterFromREG16_lt REG d hwf hreg
    have hrem : (p.m_DX * 65536 + p.m_AX) % d < d := Nat.mod_lt _ hpos
    unfold ins_DIVregisterWord
    simp only [hreg, bind, Except.bind, hd, ↓reduceIte, p.dividend_eq hwf, pure, Except.pure]
    generalize (p.m_DX * 65536 + p.m_AX) / d = Q at hq ⊢
    generalize (p.m_DX * 65536 + p.m_AX) % d = R at hrem ⊢
    have hquot : ¬ (Q > 0xFFFF) := by omega
    simp only [hquot, ↓reduceIte]
    refine ⟨_, rfl, ?_, ?_, rfl⟩
    · show Q % 65536 = _
      omega
    · show R % 65536 = _
      omega

/-- Witness for C12: `AX = 0x0064`, `BX = 0x0007`, `DX = 0`, `DIV BL` and `DIV BX`. -/
theorem ins_DIV_quotient_and_remainder_witness :
    ((stateWith 0x0064 0x0007 0).WellFormed ∧ 7 ≠ 0) ∧
    (∃ q, (stateWith 0x0064 0x0007 0).ins_DIVregisterByte 3 = .ok q ∧
      q.AL = (stateWith 0x0064 0x0007 0).m_AX / 7 ∧
      q.AH = (stateWith 0x0064 0x0007 0).m_AX % 7 ∧
      q.m_internalInterrupt = (stateWith 0x0064 0x0007 0).m_internalInterrupt) ∧
    (∃ q, (stateWith 0x0064 0x0007 0).ins_DIVregisterWord 3 = .ok q ∧
      q.m_AX = ((stateWith 0x0064 0x0007 0).m_DX * 65536 +
        (stateWith 0x0064 0x0007 0).m_AX) / 7 ∧
      q.m_DX = ((stateWith 0x0064 0x0007 0).m_DX * 65536 +
        (stateWith 0x0064 0x0007 0).m_AX) % 7 ∧
      q.m_internalInterrupt = (stateWith 0x0064 0x0007 0).m_internalInterrupt) :=
  ⟨⟨by decide, by decide⟩,
    (ins_DIV_quotient_and_remainder (stateWith 0x0064 0x0007 0) 3 7 (by decide)
      (by decide)).1 rfl (by decide),
    (ins_DIV_quotient_and_remainder (stateWith 0x0064 0x0007 0) 3 7 (by decide)
      (by decide)).2 rfl (by decide)⟩

/-! ## The interrupt gate -/

/-- A step that finds IF set and a hardware interrupt pending (no time to wait, no
override about to expire): one vector is dequeued and its `INT` entry performed;
the internal slot is not looked at. -/
theorem Processor.execute_external_interrupt (p : Processor) (mm : MemoryManager)
    (io : IOManager)
    (hcycles : p.m_cyclesToWait = 0)
    (hcounter : (if p.m_segmentPrefix ≠ EMPTY_SEGMENT_OVERRIDE then p.m_segmentPrefixCounter + 1
      else p.m_segmentPrefixCounter) ≠ 2)
    (hexternal :
      (IS_BIT_SET p.m_flags INTERRUPT_ENABLE_FLAG && io.hasPendingInterrupts) = true) :
    p.execute mm io =
      .ok ((({ p with
          m_segmentPrefixCounter :=
            if p.m_segmentPrefix ≠ EMPTY_SEGMENT_OVERRIDE then p.m_segmentPrefixCounter + 1
            else p.m_segmentPrefixCounter } : Processor).ins_INT mm
            io.getPendingInterrupt.1).1,
        (({ p with
          m_segmentPrefixCounter :=
            if p.m_segmentPrefix ≠ EMPTY_SEGMENT_OVERRIDE then p.m_segmentPrefixCounter + 1
            else p.m_segmentPrefixCounter } : Processor).ins_INT mm
            io.getPendingInterrupt.1).2, io.getPendingInterrupt.2) := by
  unfold execute
  rw [if_neg (by omega), Processor.execute_age]
  simp only [hcounter, hexternal, ↓reduceIte]
  rfl

/-- C15 (as amended): the interrupt gate of a step with cycles-to-wait 0 and no
segment override pending.  If IF=1 and the I/O manager reports a pending external
interrupt, one external vector is dequeued and serviced, whether or not an
internal interrupt is pending, and the internal slot is left as it was.  If no
external interrupt is serviced (IF=0 or none pending) and an internal interrupt
is pending, that internal vector is serviced and its slot cleared, and no
external interrupt is dequeued. -/
theorem interrupt_gate_order (p : Processor) (mm : MemoryManager) (io : IOManager)
    (hcycles : p.m_cyclesToWait = 0)
    (hoverride : p.m_segmentPrefix = EMPTY_SEGMENT_OVERRIDE)
    (hcounter : p.m_segmentPrefixCounter ≠ 2) :
    ((IS_BIT_SET p.m_flags INTERRUPT_ENABLE_FLAG && io.hasPendingInterrupts) = true →
      p.execute mm io = .ok ((p.ins_INT mm io.getPendingInterrupt.1).1,
        (p.ins_INT mm io.getPendingInterrupt.1).2, io.getPendingInterrupt.2) ∧
      (p.ins_INT mm io.getPendingInterrupt.1).1.m_internalInterrupt = p.m_internalInterrupt ∧
      io.getPendingInterrupt.2.pendingInterrupts = io.pendingInterrupts.tail) ∧
    ((IS_BIT_SET p.m_flags INTERRUPT_ENABLE_FLAG && io.hasPendingInterrupts) = false →
      p.m_internalInterrupt ≠ 0 →
      p.execute mm io =
        .ok ((({ p with m_internalInterrupt := 0 } : Processor).ins_INT mm
            (toU16 (p.m_internalInterrupt - 1))).1,
          (({ p with m_internalInterrupt := 0 } : Processor).ins_INT mm
            (toU16 (p.m_internalInterrupt - 1))).2, io) ∧
      (({ p with m_internalInterrupt := 0 } : Processor).ins_INT mm
            (toU16 (p.m_internalInterrupt - 1))).1.m_internalInterrupt = 0) := by
  have hage : (if p.m_segmentPrefix ≠ EMPTY_SEGMENT_OVERRIDE then p.m_segmentPrefixCounter + 1
      else p.m_segmentPrefixCounter) = p.m_segmentPrefixCounter := by
    simp [hoverride]
  constructor
  · intro hext
    have h := Processor.execute_external_interrupt p mm io hcycles
      (by rw [hage]; exact hcounter) hext
    rw [hage] at h
    refine ⟨h, rfl, ?_⟩
    unfold IOManager.getPendingInterrupt
    cases hq : io.pendingInterrupts with
    | nil =>
      simp [IOManager.hasPendingInterrupts, hq] at hext
    | cons v rest => rfl
  · intro hext hint
    have h := Processor.execute_internal_interrupt p mm io hcycles
      (by rw [hage]; exact hcounter) hint hext
    rw [hage] at h
    exact ⟨h, rfl⟩

/-- Witness for C15 (as amended): `pendingDivideError` with vector 8 pending at the
I/O manager (the external interrupt is taken), and with no hardware interrupt
pending (the internal one is taken). -/
theorem interrupt_gate_order_witness :
    (pendingDivideError.m_cyclesToWait = 0 ∧
      pendingDivideError.m_segmentPrefix = EMPTY_SEGMENT_OVERRIDE ∧
      pendingDivideError.m_segmentPrefixCounter ≠ 2) ∧
    (pendingDivideError.execute twoVectors oneIRQ =
        .ok ((pendingDivideError.ins_INT twoVectors oneIRQ.getPendingInterrupt.1).1,
          (pendingDivideError.ins_INT twoVectors oneIRQ.getPendingInterrupt.1).2,
          oneIRQ.getPendingInterrupt.2) ∧
      (pendingDivideError.ins_INT twoVectors oneIRQ.getPendingInterrupt.1).1.m_internalInterrupt =
        pendingDivideError.m_internalInterrupt ∧
      oneIRQ.getPendingInterrupt.2.pendingInterrupts = oneIRQ.pendingInterrupts.tail) ∧
    (pendingDivideError.execute twoVectors quietIO =
        .ok ((({ pendingDivideError with m_internalInterrupt := 0 } : Processor).ins_INT
            twoVectors (toU16 (pendingDivideError.m_internalInterrupt - 1))).1,
          (({ pendingDivideError with m_internalInterrupt := 0 } : Processor).ins_INT
            twoVectors (toU16 (pendingDivideError.m_internalInterrupt - 1))).2, quietIO) ∧
      (({ pendingDivideError with m_internalInterrupt := 0 } : Processor).ins_INT twoVectors
            (toU16 (pendingDivideError.m_internalInterrupt - 1))).1.m_internalInterrupt = 0) :=
  ⟨⟨rfl, rfl, by decide⟩,
    (interrupt_gate_order pendingDivideError twoVectors oneIRQ rfl rfl (by decide)).1 rfl,
    (interrupt_gate_order pendingDivideError twoVectors quietIO rfl rfl (by decide)).2 rfl
      (by decide)⟩

/-- C15 (counterexample to the claim as stated): with a divide error pending
(internal slot 1), IF=1 and hardware vector 8 pending, the step services the
external vector 8 (`CS:IP` becomes `7777:8888`, not the `1111:2222` of vector 0),
dequeues it, and leaves the internal interrupt pending.  And with an `ES` override
left pending by the previous instruction (age counter 1) next to the pending
divide error, the step stops at the assertion on the age counter and services
nothing. -/
theorem interrupt_gate_services_external_first :
    (IS_BIT_SET pendingDivideError.m_flags INTERRUPT_ENABLE_FLAG = true ∧
      pendingDivideError.m_internalInterrupt = 1 ∧ pendingDivideError.m_cyclesToWait = 0 ∧
      oneIRQ.hasPendingInterrupts = true) ∧
    (pendingDivideError.execute twoVectors oneIRQ).map
        (fun s => (s.1.m_codeSegment, s.1.m_instructionPointer, s.1.m_internalInterrupt,
          s.2.2.pendingInterrupts)) = .ok (0x7777, 0x8888, 1, []) ∧
    (({ pendingDivideError with
        m_segmentPrefix := REGISTER_ES, m_segmentPrefixCounter := 1 } : Processor).execute
        twoVectors quietIO).map (fun _ => ()) = .error .verifyNotReached :=
  ⟨⟨rfl, rfl, rfl, rfl⟩, rfl, rfl⟩

/-! ## PUSH, POP, PUSHF, POPF -/

theorem toU16_mod (i : Int) : toU16 i % 65536 = toU16 i := by
  unfold toU16; omega

/-- C16 (as amended): for every 16-bit general register index `r` in `0..7`,
`PUSH r` completes, decreases `SP` by 2 modulo `2 ^ 16` and changes no other
register and no flag; afterwards the word at `SS:SP` (the new `SP`) is the value
register `r` held before the instruction when `r` is not `SP`, and the new
(decremented) value of `SP` when `r` is `SP`. -/
theorem ins_PUSHregisterWord_pushed_word (p : Processor) (mm : MemoryManager) (r : Nat)
    (hr : r < 8) (hwf : p.WellFormed) :
    ∃ v mm1, p.getRegisterFromREG16 r = .ok v ∧
      p.ins_PUSHregisterWord mm r =
        .ok ({ p with m_stackPointer := toU16 (p.m_stackPointer - 2) }, mm1) ∧
      mm1.readWord p.m_stackSegment (toU16 (p.m_stackPointer - 2)) =
        (if r = 4 then toU16 (p.m_stackPointer - 2) else v) := by
  obtain ⟨h0, h1, h2, h3, h4, h5, h6, h7, -⟩ := hwf
  interval_cases r <;> refine ⟨_, _, rfl, rfl, ?_⟩ <;>
    simp only [MemoryManager.readWord_writeWord, toU16_mod, Nat.reduceEqDiff, ↓reduceIte] <;>
    first | rfl | (apply Nat.mod_eq_of_lt; assumption)

/-- Witness for C16 (as amended): `PUSH BX` (index 3) from `interruptScenario`. -/
theorem ins_PUSHregisterWord_pushed_word_witness :
    (3 < 8 ∧ interruptScenario.WellFormed) ∧
    (∃ v mm1, interruptScenario.getRegisterFromREG16 3 = .ok v ∧
      interruptScenario.ins_PUSHregisterWord vectorTable 3 =
        .ok ({ interruptScenario with
          m_stackPointer := toU16 (interruptScenario.m_stackPointer - 2) }, mm1) ∧
      mm1.readWord interruptScenario.m_stackSegment
        (toU16 (interruptScenario.m_stackPointer - 2)) =
        (if 3 = 4 then toU16 (interruptScenario.m_stackPointer - 2) else v)) :=
  ⟨⟨by decide, by decide⟩,
    ins_PUSHregisterWord_pushed_word interruptScenario vectorTable 3 (by decide) (by decide)⟩

/-- C16 (counterexample to the claim as stated): `PUSH SP` (index 4) with
`SS:SP = 2000:0100`.  `SP` becomes `0x00FE` and the word at `SS:SP` is `0x00FE`, the
decremented `SP`, not the `0x0100` that `SP` held before the instruction. -/
theorem ins_PUSHregisterWord_SP_pushes_new_SP :
    interruptScenario.getRegisterFromREG16 4 = .ok 0x0100 ∧
    (interruptScenario.ins_PUSHregisterWord vectorTable 4).map
        (fun r => (r.1.m_stackPointer, r.2.readWord r.1.m_stackSegment r.1.m_stackPointer)) =
      .ok (0x00FE, 0x00FE) :=
  ⟨rfl, rfl⟩

/-- C17 (code defect): `POP SP` (index 4) loads `SP` with the word at `SS:SP` and then
adds 2 to it like every other `POP`.  With the word `0x1234` at `SS:SP = 2000:0100`,
`SP` ends as `0x1236`, not `0x1234`.  `POP AX` on the same state gives `AX = 0x1234`
and `SP = 0x0102`. -/
theorem ins_POPregisterWord_SP_adds_two :
    (memoryWithBytes 0x20100 [0x34, 0x12]).readWord interruptScenario.m_stackSegment
      interruptScenario.m_stackPointer = 0x1234 ∧
    (interruptScenario.ins_POPregisterWord (memoryWithBytes 0x20100 [0x34, 0x12]) 4).map
      (fun q => q.m_stackPointer) = .ok 0x1236 ∧
    (interruptScenario.ins_POPregisterWord (memoryWithBytes 0x20100 [0x34, 0x12]) 0).map
      (fun q => (q.m_AX, q.m_stackPointer)) = .ok (0x1234, 0x0102) :=
  ⟨rfl, rfl, rfl⟩

/-- C18: `PUSHF` then `POPF`.  `PUSHF` sets `SP` to `SP - 2` (modulo `2 ^ 16`), changes
nothing else in the processor and stores all 16 bits of FLAGS at `SS:SP`.  Whatever
happens next, as long as `SS`, `SP` and that stack word are as `PUSHF` left them,
`POPF` sets FLAGS back to the value pushed and `SP` back to its value before the
`PUSHF`. -/
theorem ins_PUSHF_ins_POPF_round_trip (p : Processor) (mm : MemoryManager)
    (hwf : p.WellFormed) (p1 : Processor) (mm1 : MemoryManager)
    (hSS : p1.m_stackSegment = (p.ins_PUSHF mm).1.m_stackSegment)
    (hSP : p1.m_stackPointer = (p.ins_PUSHF mm).1.m_stackPointer)
    (hword : mm1.readWord p1.m_stackSegment p1.m_stackPointer =
      (p.ins_PUSHF mm).2.readWord p1.m_stackSegment p1.m_stackPointer) :
    (p.ins_PUSHF mm).1 = { p with m_stackPointer := toU16 (p.m_stackPointer - 2) } ∧
    (p.ins_PUSHF mm).2.readWord p.m_stackSegment (toU16 (p.m_stackPointer - 2)) = p.m_flags ∧
    (p1.ins_POPF mm1).m_flags = p.m_flags ∧
    (p1.ins_POPF mm1).m_stackPointer = p.m_stackPointer := by
  obtain ⟨-, -, -, -, hSPlt, -, -, -, -, -, -, -, -, hFL⟩ := hwf
  have hpush : (p.ins_PUSHF mm).2.readWord p.m_stackSegment (toU16 (p.m_stackPointer - 2)) =
      p.m_flags := by
    show (mm.writeWord p.m_stackSegment (toU16 (p.m_stackPointer - 2)) p.m_flags).readWord
      p.m_stackSegment (toU16 (p.m_stackPointer - 2)) = p.m_flags
    rw [MemoryManager.readWord_writeWord, Nat.mod_eq_of_lt hFL]
  have hSS1 : p1.m_stackSegment = p.m_stackSegment := hSS
  have hSP1 : p1.m_stackPointer = toU16 (p.m_stackPointer - 2) := hSP
  rw [hSS1, hSP1, hpush] at hword
  refine ⟨rfl, hpush, ?_, ?_⟩
  · show mm1.readWord p1.m_stackSegment p1.m_stackPointer = _
    rw [hSS1, hSP1, hword]
  · show toU16 ((p1.m_stackPointer : Int) + 2) = _
    rw [hSP1]; unfold toU16; omega

/-- Witness for C18: the scenario of the spec, FLAGS `= 0x0246`; `PUSHF`; `MOV AX, 0`;
`POPF`. -/
theorem ins_PUSHF_ins_POPF_round_trip_witness :
    flagsScenario.WellFormed ∧
    (flagsScenario.ins_PUSHF vectorTable).1.ins_MOV (flagsScenario.ins_PUSHF vectorTable).2
        (.Register16 0) (.Immediate16 0) =
      .ok ({ (flagsScenario.ins_PUSHF vectorTable).1 with m_AX := 0 },
        (flagsScenario.ins_PUSHF vectorTable).2) ∧
    ((flagsScenario.ins_PUSHF vectorTable).1 =
        { flagsScenario with m_stackPointer := toU16 (flagsScenario.m_stackPointer - 2) } ∧
      (flagsScenario.ins_PUSHF vectorTable).2.readWord flagsScenario.m_stackSegment
        (toU16 (flagsScenario.m_stackPointer - 2)) = flagsScenario.m_flags ∧
      (({ (flagsScenario.ins_PUSHF vectorTable).1 with m_AX := 0 } : Processor).ins_POPF
        (flagsScenario.ins_PUSHF vectorTable).2).m_flags = flagsScenario.m_flags ∧
      (({ (flagsScenario.ins_PUSHF vectorTable).1 with m_AX := 0 } : Processor).ins_POPF
        (flagsScenario.ins_PUSHF vectorTable).2).m_stackPointer =
          flagsScenario.m_stackPointer) ∧
    flagsScenario.m_flags = 0x0246 :=
  ⟨by decide, rfl,
    ins_PUSHF_ins_POPF_round_trip flagsScenario vectorTable (by decide)
      { (flagsScenario.ins_PUSHF vectorTable).1 with m_AX := 0 }
      (flagsScenario.ins_PUSHF vectorTable).2 rfl rfl rfl, rfl⟩

/-! ## MOV between registers -/

/-- Writing the 16-bit register `d`: the write is read back, every other 16-bit
register and everything outside the general registers is unchanged. -/
theorem Processor.updateRegisterFromREG16_spec (p : Processor) (d data : Nat) (hd : d < 8) :
    ∃ q, p.updateRegisterFromREG16 d data = .ok q ∧
      (∀ r, r < 8 → q.getRegisterFromREG16 r =
        if r = d then .ok (data % 65536) else p.getRegisterFromREG16 r) ∧
      q.sameOutsideGeneralRegisters p := by
  interval_cases d <;>
    refine ⟨_, rfl, fun r hr => ?_, rfl, rfl, rfl, rfl, rfl, rfl, rfl, rfl, rfl, rfl⟩ <;>
    interval_cases r <;> rfl

/-- Writing the 8-bit register `d`: the write is read back, every other 8-bit
register is unchanged, every 16-bit register other than the one `d` is a half of
is unchanged, and so is everything outside the general registers. -/
theorem Processor.updateRegisterFromREG8_spec (p : Processor) (d data : Nat) (hd : d < 8) :
    ∃ q, p.updateRegisterFromREG8 d data = .ok q ∧
      (∀ r, r < 8 → q.getRegisterValueFromREG8 r =
        if r = d then .ok (data % 256) else p.getRegisterValueFromREG8 r) ∧
      (∀ r, r < 8 → r ≠ d % 4 → q.getRegisterFromREG16 r = p.getRegisterFromREG16 r) ∧
      q.sameOutsideGeneralRegisters p := by
  interval_cases d <;>
    refine ⟨_, rfl, fun r hr => ?_, fun r hr hne => ?_,
      rfl, rfl, rfl, rfl, rfl, rfl, rfl, rfl, rfl, rfl⟩ <;>
    interval_cases r <;>
    first
    | rfl
    | (exfalso; exact hne rfl)
    | (simp only [getRegisterValueFromREG8, setAL, setAH, setBL, setBH, setCL, setCH, setDL,
        setDH, AL, AH, BL, BH, CL, CH, DL, DH, withLowByte, withHighByte, lowByte, highByte,
        Nat.reduceEqDiff, ↓reduceIte, Except.ok.injEq]; omega)

/-- C19: `MOV` between two registers of the same width, at the primitive.  After
`MOV dst, src` the register `dst` holds the value `src` held before, `src` still
holds it, FLAGS and everything else outside the general registers are unchanged,
memory is unchanged, and every register that does not overlap `dst` is unchanged:
for a 16-bit `dst`, every other 16-bit register; for an 8-bit `dst`, every other
8-bit register and every 16-bit register that `dst` is not a half of. -/
theorem ins_MOV_register_to_register (p : Processor) (mm : MemoryManager) (dst src : Nat)
    (hdst : dst < 8) (hsrc : src < 8) (hwf : p.WellFormed) :
    (∃ v q, p.getRegisterFromREG16 src = .ok v ∧
      p.ins_MOV mm (.Register16 dst) (.Register16 src) = .ok (q, mm) ∧
      q.getRegisterFromREG16 dst = .ok v ∧ q.getRegisterFromREG16 src = .ok v ∧
      (∀ r, r < 8 → r ≠ dst → q.getRegisterFromREG16 r = p.getRegisterFromREG16 r) ∧
      q.sameOutsideGeneralRegisters p) ∧
    (∃ v q, p.getRegisterValueFromREG8 src = .ok v ∧
      p.ins_MOV mm (.Register8 dst) (.Register8 src) = .ok (q, mm) ∧
      q.getRegisterValueFromREG8 dst = .ok v ∧ q.getRegisterValueFromREG8 src = .ok v ∧
      (∀ r, r < 8 → r ≠ dst → q.getRegisterValueFromREG8 r = p.getRegisterValueFromREG8 r) ∧
      (∀ r, r < 8 → r ≠ dst % 4 → q.getRegisterFromREG16 r = p.getRegisterFromREG16 r) ∧
      q.sameOutsideGeneralRegisters p) := by
  constructor
  · obtain ⟨v, hv, hlt⟩ := p.getRegisterFromREG16_ok src hsrc hwf
    obtain ⟨q, hq, hget, hframe⟩ := p.updateRegisterFromREG16_spec dst v hdst
    have hmod : v % 65536 = v := Nat.mod_eq_of_lt hlt
    refine ⟨v, q, hv, ?_, ?_, ?_, ?_, hframe⟩
    · simp [ins_MOV, Operand.type, Operand.handleSegmentOverridePrefix, Operand.size,
        Operand.valueWord, Operand.updateWord, hv, hq, bind, Except.bind, pure, Except.pure]
    · rw [hget dst hdst, if_pos rfl, hmod]
    · rw [hget src hsrc]
      split
      · rw [hmod]
      · exact hv
    · intro r hr hne
      rw [hget r hr, if_neg hne]
  · obtain ⟨v, hv, hlt⟩ := p.getRegisterValueFromREG8_ok src hsrc
    obtain ⟨q, hq, hget, hget16, hframe⟩ := p.updateRegisterFromREG8_spec dst v hdst
    have hmod : v % 256 = v := Nat.mod_eq_of_lt hlt
    refine ⟨v, q, hv, ?_, ?_, ?_, ?_, hget16, hframe⟩
    · simp [ins_MOV, Operand.type, Operand.handleSegmentOverridePrefix, Operand.size,
        Operand.valueByte, Operand.updateByte, hv, hq, bind, Except.bind, pure, Except.pure]
    · rw [hget dst hdst, if_pos rfl, hmod]
    · rw [hget src hsrc]
      split
      · rw [hmod]
      · exact hv
    · intro r hr hne
      rw [hget r hr, if_neg hne]

/-- Witness for C19: `MOV AX, BX` and `MOV AL, BL` (destination index 0, source
index 3) from `interruptScenario`, where `AX = 0x1234` and `BX = 0x5678`. -/
theorem ins_MOV_register_to_register_witness :
    (0 < 8 ∧ 3 < 8 ∧ interruptScenario.WellFormed) ∧
    ((∃ v q, interruptScenario.getRegisterFromREG16 3 = .ok v ∧
        interruptScenario.ins_MOV vectorTable (.Register16 0) (.Register16 3) =
          .ok (q, vectorTable) ∧
        q.getRegisterFromREG16 0 = .ok v ∧ q.getRegisterFromREG16 3 = .ok v ∧
        (∀ r, r < 8 → r ≠ 0 →
          q.getRegisterFromREG16 r = interruptScenario.getRegisterFromREG16 r) ∧
        q.sameOutsideGeneralRegisters interruptScenario) ∧
      (∃ v q, interruptScenario.getRegisterValueFromREG8 3 = .ok v ∧
        interruptScenario.ins_MOV vectorTable (.Register8 0) (.Register8 3) =
          .ok (q, vectorTable) ∧
        q.getRegisterValueFromREG8 0 = .ok v ∧ q.getRegisterValueFromREG8 3 = .ok v ∧
        (∀ r, r < 8 → r ≠ 0 →
          q.getRegisterValueFromREG8 r = interruptScenario.getRegisterValueFromREG8 r) ∧
        (∀ r, r < 8 → r ≠ 0 % 4 →
          q.getRegisterFromREG16 r = interruptScenario.getRegisterFromREG16 r) ∧
        q.sameOutsideGeneralRegisters interruptScenario)) ∧
    (interruptScenario.ins_MOV vectorTable (.Register8 0) (.Register8 3)).map
      (fun r => (r.1.m_AX, r.1.m_BX)) = .ok (0x1278, 0x5678) :=
  ⟨⟨by decide, by decide, by decide⟩,
    ins_MOV_register_to_register interruptScenario vectorTable 0 3 (by decide) (by decide)
      (by decide), rfl⟩

/-! ## Short conditional jumps -/

theorem toU16_toU16_add (a x : Int) : toU16 ((toU16 a : Int) + x) = toU16 (a + x) := by
  unfold toU16; omega

/-- The cases `0x70 .. 0x7F` of the opcode switch, in terms of the standard
conditions. -/
theorem Processor.dispatch_short_jump (q : Processor) (mm : MemoryManager) (opcode : Nat)
    (hlo : 0x70 ≤ opcode) (hhi : opcode ≤ 0x7F) :
    q.dispatch mm opcode =
      .ok ({ q with
        m_instructionPointer :=
          if jumpCondition opcode q.m_flags then
            toU16 ((toU16 ((q.m_instructionPointer : Int) + 1) : Int) +
              toI8 (mm.readByte q.m_codeSegment q.m_instructionPointer))
          else toU16 ((q.m_instructionPointer : Int) + 1) }, mm) := by
  interval_cases opcode <;>
    simp only [dispatch, shortJumpIf, LOAD_INCREMENT_BYTE, jumpCondition, IS_BIT_SET,
      IS_BIT_NOT_SET, ins_JMPshort, OVERFLOW_FLAG, CARRY_FLAG, ZERO_FLAG, SIGN_FLAG,
      PARITY_FLAG, pure, Except.pure] <;>
    split <;> rfl

theorem jumpCondition_partner (opcode flags : Nat) (hlo : 0x70 ≤ opcode) (hhi : opcode ≤ 0x7F)
    (heven : opcode % 2 = 0) :
    jumpCondition (opcode + 1) flags = !jumpCondition opcode flags := by
  interval_cases opcode <;> first
    | (exfalso; revert heven; decide)
    | (simp only [jumpCondition] <;>
        (cases Nat.testBit flags 0 <;> cases Nat.testBit flags 2 <;>
          cases Nat.testBit flags 6 <;> cases Nat.testBit flags 7 <;>
          cases Nat.testBit flags 11 <;> rfl))

/-- C20: the short conditional jumps.  In the opcode switch, each opcode
`0x70 .. 0x7F` with displacement byte `d` at `CS:IP` takes the jump exactly under
its standard condition (`jumpCondition`); when taken, `IP` becomes the address of
the next instruction plus the sign-extended `d`, modulo `2 ^ 16`; when not taken,
`IP` is the address of the next instruction; nothing else in the processor and
nothing in memory changes.  A whole step that fetches such an opcode (no time to
wait, no override about to expire, no interrupt serviced, no debugging stop) does
the same from the opcode's address.  Each odd opcode is taken exactly when its
even partner is not. -/
theorem short_conditional_jumps (p : Processor) (mm : MemoryManager) (io : IOManager)
    (opcode : Nat) (hlo : 0x70 ≤ opcode) (hhi : opcode ≤ 0x7F) :
    p.dispatch mm opcode =
      .ok ({ p with
        m_instructionPointer :=
          if jumpCondition opcode p.m_flags then
            toU16 ((toU16 ((p.m_instructionPointer : Int) + 1) : Int) +
              toI8 (mm.readByte p.m_codeSegment p.m_instructionPointer))
          else toU16 ((p.m_instructionPointer : Int) + 1) }, mm) ∧
    (p.m_cyclesToWait = 0 →
      (if p.m_segmentPrefix ≠ EMPTY_SEGMENT_OVERRIDE then p.m_segmentPrefixCounter + 1
        else p.m_segmentPrefixCounter) ≠ 2 →
      p.m_internalInterrupt = 0 →
      (IS_BIT_SET p.m_flags INTERRUPT_ENABLE_FLAG && io.hasPendingInterrupts) = false →
      toU16 (p.m_instructionPointer + 1) ≠ 0xf929 →
      mm.readByte p.m_codeSegment p.m_instructionPointer = opcode →
      p.execute mm io =
        .ok ({ p with
          m_segmentPrefixCounter :=
            if p.m_segmentPrefix ≠ EMPTY_SEGMENT_OVERRIDE then p.m_segmentPrefixCounter + 1
            else p.m_segmentPrefixCounter
          m_instructionPointer :=
            if jumpCondition opcode p.m_flags then
              toU16 ((p.m_instructionPointer : Int) + 2 +
                toI8 (mm.readByte p.m_codeSegment (toU16 (p.m_instructionPointer + 1))))
            else toU16 ((p.m_instructionPointer : Int) + 2) }, mm, io)) ∧
    (opcode % 2 = 0 → ∀ flags, jumpCondition (opcode + 1) flags = !jumpCondition opcode flags) := by
  refine ⟨p.dispatch_short_jump mm opcode hlo hhi, ?_, fun heven flags =>
    jumpCondition_partner opcode flags hlo hhi heven⟩
  intro hcycles hcounter hpending hexternal hdebug hopcode
  rw [Processor.execute_fetch p mm io hcycles hcounter hpending hexternal hdebug, hopcode,
    Processor.dispatch_short_jump _ mm opcode hlo hhi]
  have h2 : ∀ a : Int, a + 1 + 1 = a + 2 := fun a => by omega
  simp only [Except.map, toU16_toU16_add, h2]

/-- Witness for C20: `JZ` (opcode `0x74`) with displacement `0xFE` (-2) at
`CS:IP = 1000:0200` and ZF set; the jump is taken and lands on the `JZ` itself. -/
theorem short_conditional_jumps_witness :
    (0x70 ≤ 0x74 ∧ 0x74 ≤ 0x7F) ∧
    interruptScenario.dispatch (memoryWithBytes 0x10200 [0x74, 0xFE]) 0x74 =
      .ok ({ interruptScenario with
        m_instructionPointer :=
          if jumpCondition 0x74 interruptScenario.m_flags then
            toU16 ((toU16 ((interruptScenario.m_instructionPointer : Int) + 1) : Int) +
              toI8 ((memoryWithBytes 0x10200 [0x74, 0xFE]).readByte
                interruptScenario.m_codeSegment interruptScenario.m_instructionPointer))
          else toU16 ((interruptScenario.m_instructionPointer : Int) + 1) },
        memoryWithBytes 0x10200 [0x74, 0xFE]) ∧
    interruptScenario.execute (memoryWithBytes 0x10200 [0x74, 0xFE]) quietIO =
      .ok ({ interruptScenario with
        m_segmentPrefixCounter :=
          if interruptScenario.m_segmentPrefix ≠ EMPTY_SEGMENT_OVERRIDE then
            interruptScenario.m_segmentPrefixCounter + 1
          else interruptScenario.m_segmentPrefixCounter
        m_instructionPointer :=
          if jumpCondition 0x74 interruptScenario.m_flags then
            toU16 ((interruptScenario.m_instructionPointer : Int) + 2 +
              toI8 ((memoryWithBytes 0x10200 [0x74, 0xFE]).readByte
                interruptScenario.m_codeSegment
                (toU16 (interruptScenario.m_instructionPointer + 1))))
          else toU16 ((interruptScenario.m_instructionPointer : Int) + 2) },
        memoryWithBytes 0x10200 [0x74, 0xFE], quietIO) ∧
    (∀ flags, jumpCondition (0x74 + 1) flags = !jumpCondition 0x74 flags) ∧
    (interruptScenario.execute (memoryWithBytes 0x10200 [0x74, 0xFE]) quietIO).map
      (fun s => s.1.m_instructionPointer) = .ok 0x0200 :=
  ⟨⟨by decide, by decide⟩,
    (short_conditional_jumps interruptScenario (memoryWithBytes 0x10200 [0x74, 0xFE]) quietIO
      0x74 (by decide) (by decide)).1,
    (short_conditional_jumps interruptScenario (memoryWithBytes 0x10200 [0x74, 0xFE]) quietIO
      0x74 (by decide) (by decide)).2.1 rfl (by decide) rfl rfl (by decide) rfl,
    (short_conditional_jumps interruptScenario (memoryWithBytes 0x10200 [0x74, 0xFE]) quietIO
      0x74 (by decide) (by decide)).2.2 rfl, rfl⟩

/-! ## JMP far -/

/-- The case `0xE8` of the opcode switch: the displacement word is loaded, then
`ins$CALLnear` runs with `IP` at the instruction that follows. -/
theorem Processor.dispatch_CALL_near (q : Processor) (mm : MemoryManager) :
    q.dispatch mm 0xE8 =
      .ok (({ q with m_instructionPointer := toU16 (q.m_instructionPointer + 2) } :
          Processor).ins_CALLnear mm
        (toI16 (mm.readWord q.m_codeSegment q.m_instructionPointer))) := rfl

/-- C22: `CALL` near and `RET` near.  `ins$CALLnear`, entered with `IP` at the
instruction that follows the `CALL` and with displacement `d`, sets `SP` to `SP - 2`
(modulo `2 ^ 16`), stores that `IP` at the new `SS:SP`, sets `IP` to `IP + d` modulo
`2 ^ 16` and changes nothing else in the processor (`CS` included).  Whatever
happens next, as long as `SS`, `SP` and the stack word are as the `CALL` left them,
`RET` near sets `IP` to the address pushed and `SP` to its value before the `CALL`.
A whole step that fetches opcode `0xE8` runs `ins$CALLnear` with `IP` three bytes
past the opcode and with the word after the opcode, read as signed, for `d`. -/
theorem CALL_near_RET_near_round_trip (p : Processor) (mm : MemoryManager) (d : Int)
    (hwf : p.WellFormed) (p1 : Processor) (mm1 : MemoryManager)
    (hSS : p1.m_stackSegment = (p.ins_CALLnear mm d).1.m_stackSegment)
    (hSP : p1.m_stackPointer = (p.ins_CALLnear mm d).1.m_stackPointer)
    (hword : mm1.readWord p1.m_stackSegment p1.m_stackPointer =
      (p.ins_CALLnear mm d).2.readWord p1.m_stackSegment p1.m_stackPointer) :
    (p.ins_CALLnear mm d).1 =
      { p with
        m_stackPointer := toU16 (p.m_stackPointer - 2)
        m_instructionPointer := ((p.m_instructionPointer + d) % 65536).toNat } ∧
    (p.ins_CALLnear mm d).2.readWord p.m_stackSegment (toU16 (p.m_stackPointer - 2)) =
      p.m_instructionPointer ∧
    (p1.ins_RETnear mm1).m_instructionPointer = p.m_instructionPointer ∧
    (p1.ins_RETnear mm1).m_stackPointer = p.m_stackPointer ∧
    (∀ (q : Processor) (io : IOManager), q.m_cyclesToWait = 0 →
      (if q.m_segmentPrefix ≠ EMPTY_SEGMENT_OVERRIDE then q.m_segmentPrefixCounter + 1
        else q.m_segmentPrefixCounter) ≠ 2 →
      q.m_internalInterrupt = 0 →
      (IS_BIT_SET q.m_flags INTERRUPT_ENABLE_FLAG && io.hasPendingInterrupts) = false →
      toU16 (q.m_instructionPointer + 1) ≠ 0xf929 →
      mm.readByte q.m_codeSegment q.m_instructionPointer = 0xE8 →
      q.execute mm io =
        .ok ((({ q with
            m_segmentPrefixCounter :=
              if q.m_segmentPrefix ≠ EMPTY_SEGMENT_OVERRIDE then q.m_segmentPrefixCounter + 1
              else q.m_segmentPrefixCounter
            m_instructionPointer := toU16 (q.m_instructionPointer + 3) } :
              Processor).ins_CALLnear mm
            (toI16 (mm.readWord q.m_codeSegment (toU16 (q.m_instructionPointer + 1))))).1,
          (({ q with
            m_segmentPrefixCounter :=
              if q.m_segmentPrefix ≠ EMPTY_SEGMENT_OVERRIDE then q.m_segmentPrefixCounter + 1
              else q.m_segmentPrefixCounter
            m_instructionPointer := toU16 (q.m_instructionPointer + 3) } :
              Processor).ins_CALLnear mm
            (toI16 (mm.readWord q.m_codeSegment (toU16 (q.m_instructionPointer + 1))))).2,
          io)) := by
  obtain ⟨-, -, -, -, hSPlt, -, -, -, -, -, -, -, hIP, -⟩ := hwf
  have hpush : (p.ins_CALLnear mm d).2.readWord p.m_stackSegment
      (toU16 (p.m_stackPointer - 2)) = p.m_instructionPointer := by
    show (mm.writeWord p.m_stackSegment (toU16 (p.m_stackPointer - 2))
      p.m_instructionPointer).readWord p.m_stackSegment (toU16 (p.m_stackPointer - 2)) = _
    rw [MemoryManager.readWord_writeWord, Nat.mod_eq_of_lt hIP]
  have hSS1 : p1.m_stackSegment = p.m_stackSegment := hSS
  have hSP1 : p1.m_stackPointer = toU16 (p.m_stackPointer - 2) := hSP
  rw [hSS1, hSP1, hpush] at hword
  refine ⟨rfl, hpush, ?_, ?_, ?_⟩
  · show mm1.readWord p1.m_stackSegment p1.m_stackPointer = _
    rw [hSS1, hSP1, hword]
  · show toU16 ((p1.m_stackPointer : Int) + 2) = _
    rw [hSP1]; unfold toU16; omega
  · intro q io hcycles hcounter hpending hexternal hdebug hopcode
    rw [Processor.execute_fetch q mm io hcycles hcounter hpending hexternal hdebug, hopcode,
      Processor.dispatch_CALL_near]
    have e3 : toU16 ((toU16 ((q.m_instructionPointer : Int) + 1) : Int) + 2) =
        toU16 ((q.m_instructionPointer : Int) + 3) := by unfold toU16; omega
    simp only [Except.map, e3]

/-- Witness for C22: `CALL` with displacement `0x0010` entered at `CS:IP = 1000:0200`
with `SS:SP = 2000:0100`, then `RET` near on the state and the memory the `CALL`
left. -/
theorem CALL_near_RET_near_round_trip_witness :
    interruptScenario.WellFormed ∧
    ((interruptScenario.ins_CALLnear vectorTable 0x10).1 =
      { interruptScenario with
        m_stackPointer := toU16 (interruptScenario.m_stackPointer - 2)
        m_instructionPointer :=
          ((interruptScenario.m_instructionPointer + (0x10 : Int)) % 65536).toNat } ∧
    (interruptScenario.ins_CALLnear vectorTable 0x10).2.readWord
        interruptScenario.m_stackSegment (toU16 (interruptScenario.m_stackPointer - 2)) =
      interruptScenario.m_instructionPointer ∧
    ((interruptScenario.ins_CALLnear vectorTable 0x10).1.ins_RETnear
        (interruptScenario.ins_CALLnear vectorTable 0x10).2).m_instructionPointer =
      interruptScenario.m_instructionPointer ∧
    ((interruptScenario.ins_CALLnear vectorTable 0x10).1.ins_RETnear
        (interruptScenario.ins_CALLnear vectorTable 0x10).2).m_stackPointer =
      interruptScenario.m_stackPointer) ∧
    (interruptScenario.ins_CALLnear vectorTable 0x10).1.m_stackPointer = 0x00FE ∧
    (interruptScenario.ins_CALLnear vectorTable 0x10).1.m_instructionPointer = 0x0210 ∧
    (interruptScenario.execute (memoryWithBytes 0x10200 [0xE8, 0xFD, 0xFF]) quietIO).map
      (fun s => (s.1.m_instructionPointer, s.1.m_stackPointer,
        s.2.1.readWord 0x2000 0x00FE)) = .ok (0x0200, 0x00FE, 0x0203) :=
  ⟨by decide,
    ⟨(CALL_near_RET_near_round_trip interruptScenario vectorTable 0x10 (by decide)
        (interruptScenario.ins_CALLnear vectorTable 0x10).1
        (interruptScenario.ins_CALLnear vectorTable 0x10).2 rfl rfl rfl).1,
      (CALL_near_RET_near_round_trip interruptScenario vectorTable 0x10 (by decide)
        (interruptScenario.ins_CALLnear vectorTable 0x10).1
        (interruptScenario.ins_CALLnear vectorTable 0x10).2 rfl rfl rfl).2.1,
      (CALL_near_RET_near_round_trip interruptScenario vectorTable 0x10 (by decide)
        (interruptScenario.ins_CALLnear vectorTable 0x10).1
        (interruptScenario.ins_CALLnear vectorTable 0x10).2 rfl rfl rfl).2.2.1,
      (CALL_near_RET_near_round_trip interruptScenario vectorTable 0x10 (by decide)
        (interruptScenario.ins_CALLnear vectorTable 0x10).1
        (interruptScenario.ins_CALLnear vectorTable 0x10).2 rfl rfl rfl).2.2.2.1⟩,
    rfl, rfl, rfl⟩

/-! ## String primitives: the direction flag -/

/-- C23: the direction-flag invariant.  After one execution of `MOVSW`, `STOSB`,
`STOSW`, `LODSB` or `LODSW`, every index register the primitive uses (`SI` for
`LODS`, `DI` for `STOS`, both for `MOVS`) has moved by the operand size (1 for the
byte forms, 2 for the word forms), up when DF is clear and down when DF is set,
modulo `2 ^ 16`; the index register it does not use is unchanged; FLAGS, and with
it DF, is unchanged. -/
theorem direction_flag_invariant (p : Processor) (mm : MemoryManager) :
    (movedOnce 2 p.m_flags p.m_sourceIndex (p.ins_MOVSword mm).1.m_sourceIndex ∧
      movedOnce 2 p.m_flags p.m_destinationIndex (p.ins_MOVSword mm).1.m_destinationIndex ∧
      (p.ins_MOVSword mm).1.m_flags = p.m_flags) ∧
    (movedOnce 1 p.m_flags p.m_destinationIndex (p.ins_STOSbyte mm).1.m_destinationIndex ∧
      (p.ins_STOSbyte mm).1.m_sourceIndex = p.m_sourceIndex ∧
      (p.ins_STOSbyte mm).1.m_flags = p.m_flags) ∧
    (movedOnce 2 p.m_flags p.m_destinationIndex (p.ins_STOSword mm).1.m_destinationIndex ∧
      (p.ins_STOSword mm).1.m_sourceIndex = p.m_sourceIndex ∧
      (p.ins_STOSword mm).1.m_flags = p.m_flags) ∧
    (movedOnce 1 p.m_flags p.m_sourceIndex (p.ins_LODSbyte mm).m_sourceIndex ∧
      (p.ins_LODSbyte mm).m_destinationIndex = p.m_destinationIndex ∧
      (p.ins_LODSbyte mm).m_flags = p.m_flags) ∧
    (movedOnce 2 p.m_flags p.m_sourceIndex (p.ins_LODSword mm).m_sourceIndex ∧
      (p.ins_LODSword mm).m_destinationIndex = p.m_destinationIndex ∧
      (p.ins_LODSword mm).m_flags = p.m_flags) := by
  refine ⟨?_, ?_, ?_, ?_, ?_⟩
  · unfold ins_MOVSword movedOnce
    cases h : IS_BIT_SET p.m_flags DIRECTION_FLAG <;> simp [h]
  · unfold ins_STOSbyte movedOnce
    cases h : IS_BIT_SET p.m_flags DIRECTION_FLAG <;> simp [h]
  · unfold ins_STOSword movedOnce
    cases h : IS_BIT_SET p.m_flags DIRECTION_FLAG <;> simp [h]
  · unfold ins_LODSbyte movedOnce
    cases h : IS_BIT_SET p.m_flags DIRECTION_FLAG <;>
      split_ifs <;> simp_all [setAL, RESET_SEGMENT_PREFIX]
  · unfold ins_LODSword movedOnce
    cases h : IS_BIT_SET p.m_flags DIRECTION_FLAG <;>
      split_ifs <;> simp_all [RESET_SEGMENT_PREFIX]

/-! ## REP MOVSW -/

/-- `MOVSW` neither reads nor writes `CX`. -/
theorem Processor.ins_MOVSword_CX (p : Processor) (mm : MemoryManager) (c : Nat) :
    ({ p with m_CX := c } : Processor).ins_MOVSword mm =
      ({ (p.ins_MOVSword mm).1 with m_CX := c }, (p.ins_MOVSword mm).2) := by
  unfold ins_MOVSword
  cases h : IS_BIT_SET p.m_flags DIRECTION_FLAG <;> simp [h]

theorem MOVSword_times_CX (n : Nat) (p : Processor) (mm : MemoryManager) (c : Nat) :
    MOVSword_times n ({ p with m_CX := c }, mm) =
      ({ (MOVSword_times n (p, mm)).1 with m_CX := c }, (MOVSword_times n (p, mm)).2) := by
  induction n generalizing p mm with
  | zero => rfl
  | succ n ih =>
    show MOVSword_times n (({ p with m_CX := c } : Processor).ins_MOVSword mm) = _
    rw [Processor.ins_MOVSword_CX, ih]
    rfl

/-- One turn of the loop of `ins$REP_MOVSword` is `MOVSW` followed by `CX()--`. -/
theorem Processor.ins_REP_MOVSword_succ (fuel : Nat) (p : Processor) (mm : MemoryManager)
    (h : p.m_CX ≠ 0) :
    ins_REP_MOVSword (fuel + 1) p mm =
      ins_REP_MOVSword fuel { (p.ins_MOVSword mm).1 with m_CX := toU16 (p.m_CX - 1) }
        (p.ins_MOVSword mm).2 := by
  rw [ins_REP_MOVSword, if_pos h]
  unfold ins_MOVSword
  cases hd : IS_BIT_SET p.m_flags DIRECTION_FLAG <;> simp [hd]

theorem Processor.ins_REP_MOVSword_done (fuel : Nat) (p : Processor) (mm : MemoryManager)
    (h : p.m_CX = 0) : ins_REP_MOVSword fuel p mm = some (p, mm) := by
  cases fuel <;> simp [ins_REP_MOVSword, h]

theorem Processor.ins_MOVSword_fst_CX (p : Processor) (mm : MemoryManager) :
    (p.ins_MOVSword mm).1.m_CX = p.m_CX := by
  unfold ins_MOVSword
  cases h : IS_BIT_SET p.m_flags DIRECTION_FLAG <;> simp [h]

/-- With enough fuel the loop ends, and its result is `MOVSW` executed `CX` times,
with `CX` zero. -/
theorem Processor.ins_REP_MOVSword_enough (fuel : Nat) (p : Processor) (mm : MemoryManager)
    (hCX : p.m_CX < 65536) (hfuel : p.m_CX ≤ fuel) :
    ins_REP_MOVSword fuel p mm =
      some ({ (MOVSword_times p.m_CX (p, mm)).1 with m_CX := 0 },
        (MOVSword_times p.m_CX (p, mm)).2) := by
  induction fuel generalizing p mm with
  | zero =>
    have h0 : p.m_CX = 0 := by omega
    rw [Processor.ins_REP_MOVSword_done 0 p mm h0, h0]
    show some (p, mm) = some ({ p with m_CX := 0 }, mm)
    rw [← h0]
  | succ fuel ih =>
    by_cases h0 : p.m_CX = 0
    · rw [Processor.ins_REP_MOVSword_done _ p mm h0, h0]
      show some (p, mm) = some ({ p with m_CX := 0 }, mm)
      rw [← h0]
    · have hdec : toU16 ((p.m_CX : Int) - 1) = p.m_CX - 1 := by unfold toU16; omega
      rw [Processor.ins_REP_MOVSword_succ fuel p mm h0, hdec, ih _ _ (by show p.m_CX - 1 < 65536; omega)
        (by show p.m_CX - 1 ≤ fuel; omega)]
      show some (_, _) = some (_, _)
      have hstep : MOVSword_times p.m_CX (p, mm) =
          MOVSword_times (p.m_CX - 1) (p.ins_MOVSword mm) := by
        obtain ⟨k, hk⟩ : ∃ k, p.m_CX = k + 1 := ⟨p.m_CX - 1, by omega⟩
        rw [hk]; rfl
      rw [hstep]
      show some ({ (MOVSword_times (p.m_CX - 1)
          ({ (p.ins_MOVSword mm).1 with m_CX := p.m_CX - 1 }, (p.ins_MOVSword mm).2)).1 with
          m_CX := 0 }, (MOVSword_times (p.m_CX - 1)
          ({ (p.ins_MOVSword mm).1 with m_CX := p.m_CX - 1 }, (p.ins_MOVSword mm).2)).2) = _
      rw [MOVSword_times_CX]

/-- With fewer units of fuel than `CX` the loop has not ended. -/
theorem Processor.ins_REP_MOVSword_short (fuel : Nat) (p : Processor) (mm : MemoryManager)
    (hCX : p.m_CX < 65536) (hfuel : fuel < p.m_CX) :
    ins_REP_MOVSword fuel p mm = none := by
  induction fuel generalizing p mm with
  | zero => simp [ins_REP_MOVSword]; omega
  | succ fuel ih =>
    have h0 : p.m_CX ≠ 0 := by omega
    have hdec : toU16 ((p.m_CX : Int) - 1) = p.m_CX - 1 := by unfold toU16; omega
    rw [Processor.ins_REP_MOVSword_succ fuel p mm h0, hdec]
    exact ih _ _ (by show p.m_CX - 1 < 65536; omega) (by show fuel < p.m_CX - 1; omega)

/-- C24: `REP MOVSW` started with `CX = n` (any 16-bit `n`) ends after exactly `n`
turns of its loop (`n` units of fuel are enough and fewer are not) with `CX = 0`;
the processor apart from `CX` (in particular `SI`, `DI` and FLAGS) and the memory
are those obtained by executing the single `MOVSW` primitive `n` times in sequence
from the same state and memory, whatever the two regions are. -/
theorem ins_REP_MOVSword_is_MOVSword_times (p : Processor) (mm : MemoryManager)
    (hCX : p.m_CX < 65536) :
    (∀ fuel, p.m_CX ≤ fuel →
      ins_REP_MOVSword fuel p mm =
        some ({ (MOVSword_times p.m_CX (p, mm)).1 with m_CX := 0 },
          (MOVSword_times p.m_CX (p, mm)).2)) ∧
    (∀ fuel, fuel < p.m_CX → ins_REP_MOVSword fuel p mm = none) :=
  ⟨fun fuel hfuel => Processor.ins_REP_MOVSword_enough fuel p mm hCX hfuel,
    fun fuel hfuel => Processor.ins_REP_MOVSword_short fuel p mm hCX hfuel⟩

/-- Witness for C24: the scenario of the spec, `CX = 3`, the six bytes
`11 22 33 44 55 66` at `DS:SI`, DF clear; afterwards `CX = 0`, `SI` and `DI` are six
higher and the six bytes at the old `ES:DI` are the source bytes. -/
theorem ins_REP_MOVSword_is_MOVSword_times_witness :
    stringScenario.m_CX < 65536 ∧
    ins_REP_MOVSword 3 stringScenario sixBytes =
      some ({ (MOVSword_times stringScenario.m_CX (stringScenario, sixBytes)).1 with m_CX := 0 },
        (MOVSword_times stringScenario.m_CX (stringScenario, sixBytes)).2) ∧
    ins_REP_MOVSword 2 stringScenario sixBytes = none ∧
    (ins_REP_MOVSword 3 stringScenario sixBytes).map
      (fun r => (r.1.m_CX, r.1.m_sourceIndex, r.1.m_destinationIndex,
        [0, 1, 2, 3, 4, 5].map (fun i => r.2.readByte 0x4000 (0x0020 + i)))) =
      some (0, 0x0016, 0x0026, [0x11, 0x22, 0x33, 0x44, 0x55, 0x66]) :=
  ⟨by decide,
    (ins_REP_MOVSword_is_MOVSword_times stringScenario sixBytes (by decide)).1 3 (by decide),
    (ins_REP_MOVSword_is_MOVSword_times stringScenario sixBytes (by decide)).2 2 (by decide),
    rfl⟩

/-! ## REPE CMPSB -/

/-- C25: `ins$REP_CMPSbyte` tests ZF before the first comparison.  Entered with
`CX = 3` and ZF clear it returns at once, whatever the fuel: `CX`, `SI`, `DI`, FLAGS
and the memory are as they were, no byte has been compared.  Entered in the same
state with ZF set it compares the first pair of bytes (`0x11` against `0x00`),
decrements `CX`, moves `SI` and `DI` and stops because that comparison cleared ZF. -/
theorem ins_REP_CMPSbyte_tests_ZF_before_comparing :
    stringScenario.m_CX = 3 ∧ IS_BIT_SET stringScenario.m_flags ZERO_FLAG = false ∧
    (∀ fuel, ins_REP_CMPSbyte fuel stringScenario sixBytes = some (stringScenario, sixBytes)) ∧
    (ins_REP_CMPSbyte 3 { stringScenario with m_flags := 0x0040 } sixBytes).map
      (fun r => (r.1.m_CX, r.1.m_sourceIndex, r.1.m_destinationIndex,
        IS_BIT_SET r.1.m_flags ZERO_FLAG)) = some (2, 0x0011, 0x0021, false) :=
  ⟨rfl, rfl, fun fuel => by cases fuel <;> rfl, rfl⟩

/-! ## Segment override and the string source -/

/-- C26: `ins$MOVSword` reads its source from `DS:SI` and leaves `m_segmentPrefix`
alone, whatever override is pending.  In the program `ES: MOVSW; NOP` the step on
the override makes ES pending; the step on `MOVSW` stores at `ES:DI` the word at
`DS:SI` (`0x2211`), not the word at `ES:SI` (`0xBBAA`), and leaves the override
pending; the step after it ends in the assertion for an unconsumed override. -/
theorem ins_MOVSword_ignores_override :
    (∀ (p : Processor) (mm : MemoryManager),
      (p.ins_MOVSword mm).2 = mm.writeWord p.m_extraSegment p.m_destinationIndex
        (mm.readWord p.m_dataSegment p.m_sourceIndex) ∧
      (p.ins_MOVSword mm).1.m_segmentPrefix = p.m_segmentPrefix ∧
      (p.ins_MOVSword mm).1.m_segmentPrefixCounter = p.m_segmentPrefixCounter) ∧
    (overrideProgram 0x26 0xA5).readWord 0x3000 0x0010 = 0x2211 ∧
    (overrideProgram 0x26 0xA5).readWord 0x4000 0x0010 = 0xBBAA ∧
    overrideScenario.execute (overrideProgram 0x26 0xA5) quietIO =
      .ok ({ overrideScenario with
          m_segmentPrefix := REGISTER_ES, m_instructionPointer := 0x0201 },
        overrideProgram 0x26 0xA5, quietIO) ∧
    ({ overrideScenario with
        m_segmentPrefix := REGISTER_ES, m_instructionPointer := 0x0201 } : Processor).execute
        (overrideProgram 0x26 0xA5) quietIO =
      .ok ({ overrideScenario with
          m_segmentPrefix := REGISTER_ES, m_segmentPrefixCounter := 1
          m_instructionPointer := 0x0202
          m_sourceIndex := 0x0012, m_destinationIndex := 0x0022 },
        (overrideProgram 0x26 0xA5).writeWord 0x4000 0x0020 0x2211, quietIO) ∧
    ({ overrideScenario with
        m_segmentPrefix := REGISTER_ES, m_segmentPrefixCounter := 1
        m_instructionPointer := 0x0202
        m_sourceIndex := 0x0012, m_destinationIndex := 0x0022 } : Processor).execute
        ((overrideProgram 0x26 0xA5).writeWord 0x4000 0x0020 0x2211) quietIO =
      .error .verifyNotReached := by
  refine ⟨fun p mm => ?_, rfl, rfl, rfl, rfl, rfl⟩
  unfold ins_MOVSword
  cases h : IS_BIT_SET p.m_flags DIRECTION_FLAG <;> simp [h]

/-- The low byte of a register after its low byte has been written. -/
theorem Processor.lowByte_withLowByte (word data : Nat) :
    lowByte (withLowByte word data) = data % 256 := by
  unfold lowByte withLowByte; omega

theorem MemoryManager.readByte_mod (mm : MemoryManager) (segment offset : Nat) :
    mm.readByte segment offset % 256 = mm.readByte segment offset := by
  unfold MemoryManager.readByte; omega

/-- What `ins$LODSword` leaves in `AX` and in the override, for each pending
override. -/
theorem Processor.ins_LODSword_override (p : Processor) (mm : MemoryManager) (S : Nat)
    (hS : S < 4) :
    (({ p with m_segmentPrefix := S } : Processor).ins_LODSword mm).m_AX =
      mm.readWord
        (if S = REGISTER_ES then p.m_extraSegment else if S = REGISTER_CS then p.m_codeSegment
          else if S = REGISTER_SS then p.m_stackSegment else p.m_dataSegment)
        p.m_sourceIndex ∧
    (({ p with m_segmentPrefix := S } : Processor).ins_LODSword mm).m_segmentPrefix =
      (if S = REGISTER_DS then REGISTER_DS else EMPTY_SEGMENT_OVERRIDE) ∧
    (({ p with m_segmentPrefix := S } : Processor).ins_LODSword mm).m_segmentPrefixCounter =
      (if S = REGISTER_DS then p.m_segmentPrefixCounter else 0) := by
  unfold ins_LODSword
  interval_cases S <;>
    cases h : IS_BIT_SET p.m_flags DIRECTION_FLAG <;>
    simp [h, RESET_SEGMENT_PREFIX, REGISTER_ES, REGISTER_CS, REGISTER_SS, REGISTER_DS]

/-- What `ins$LODSbyte` leaves in `AL` and in the override, for each pending
override. -/
theorem Processor.ins_LODSbyte_override (p : Processor) (mm : MemoryManager) (S : Nat)
    (hS : S < 4) :
    (({ p with m_segmentPrefix := S } : Processor).ins_LODSbyte mm).AL =
      mm.readByte
        (if S = REGISTER_ES then p.m_extraSegment else if S = REGISTER_CS then p.m_codeSegment
          else if S = REGISTER_SS then p.m_stackSegment else p.m_dataSegment)
        p.m_sourceIndex ∧
    (({ p with m_segmentPrefix := S } : Processor).ins_LODSbyte mm).m_segmentPrefix =
      EMPTY_SEGMENT_OVERRIDE ∧
    (({ p with m_segmentPrefix := S } : Processor).ins_LODSbyte mm).m_segmentPrefixCounter =
      0 := by
  unfold ins_LODSbyte
  interval_cases S <;>
    cases h : IS_BIT_SET p.m_flags DIRECTION_FLAG <;>
    simp [h, RESET_SEGMENT_PREFIX, REGISTER_ES, REGISTER_CS, REGISTER_SS, REGISTER_DS, setAL, AL,
      EXTRA_SEGMENT, CODE_SEGMENT, STACK_SEGMENT, DATA_SEGMENT, Processor.lowByte_withLowByte,
      MemoryManager.readByte_mod]

/-- C27: `ins$LODSword` under a DS override loads `AX` from `DS:SI` but leaves the
override pending: in the program `DS: LODSW; NOP` the step after the `LODSW` ends
in the assertion for an unconsumed override.  Under an ES, CS or SS override
`ins$LODSword` loads `AX` from the overriding segment at `SI` and no override is
pending afterwards; `ins$LODSbyte` does so for `AL` under each of the four
overrides, DS included. -/
theorem ins_LODSword_DS_override_stays_pending :
    (overrideScenario.execute (overrideProgram 0x3E 0xAD) quietIO =
        .ok ({ overrideScenario with
            m_segmentPrefix := REGISTER_DS, m_instructionPointer := 0x0201 },
          overrideProgram 0x3E 0xAD, quietIO) ∧
      ({ overrideScenario with
          m_segmentPrefix := REGISTER_DS, m_instructionPointer := 0x0201 } : Processor).execute
          (overrideProgram 0x3E 0xAD) quietIO =
        .ok ({ overrideScenario with
            m_AX := 0x2211, m_sourceIndex := 0x0012
            m_segmentPrefix := REGISTER_DS, m_segmentPrefixCounter := 1
            m_instructionPointer := 0x0202 },
          overrideProgram 0x3E 0xAD, quietIO) ∧
      ({ overrideScenario with
          m_AX := 0x2211, m_sourceIndex := 0x0012
          m_segmentPrefix := REGISTER_DS, m_segmentPrefixCounter := 1
          m_instructionPointer := 0x0202 } : Processor).execute
          (overrideProgram 0x3E 0xAD) quietIO =
        .error .verifyNotReached) ∧
    (∀ (p : Processor) (mm : MemoryManager),
      ((({ p with m_segmentPrefix := REGISTER_DS } : Processor).ins_LODSword mm).m_AX =
          mm.readWord p.m_dataSegment p.m_sourceIndex ∧
        (({ p with m_segmentPrefix := REGISTER_DS } : Processor).ins_LODSword mm).m_segmentPrefix =
          REGISTER_DS) ∧
      ((({ p with m_segmentPrefix := REGISTER_ES } : Processor).ins_LODSword mm).m_AX =
          mm.readWord p.m_extraSegment p.m_sourceIndex ∧
        (({ p with m_segmentPrefix := REGISTER_ES } : Processor).ins_LODSword mm).m_segmentPrefix =
          EMPTY_SEGMENT_OVERRIDE) ∧
      ((({ p with m_segmentPrefix := REGISTER_CS } : Processor).ins_LODSword mm).m_AX =
          mm.readWord p.m_codeSegment p.m_sourceIndex ∧
        (({ p with m_segmentPrefix := REGISTER_CS } : Processor).ins_LODSword mm).m_segmentPrefix =
          EMPTY_SEGMENT_OVERRIDE) ∧
      ((({ p with m_segmentPrefix := REGISTER_SS } : Processor).ins_LODSword mm).m_AX =
          mm.readWord p.m_stackSegment p.m_sourceIndex ∧
        (({ p with m_segmentPrefix := REGISTER_SS } : Processor).ins_LODSword mm).m_segmentPrefix =
          EMPTY_SEGMENT_OVERRIDE) ∧
      ((({ p with m_segmentPrefix := REGISTER_DS } : Processor).ins_LODSbyte mm).AL =
          mm.readByte p.m_dataSegment p.m_sourceIndex ∧
        (({ p with m_segmentPrefix := REGISTER_DS } : Processor).ins_LODSbyte mm).m_segmentPrefix =
          EMPTY_SEGMENT_OVERRIDE) ∧
      ((({ p with m_segmentPrefix := REGISTER_ES } : Processor).ins_LODSbyte mm).AL =
          mm.readByte p.m_extraSegment p.m_sourceIndex ∧
        (({ p with m_segmentPrefix := REGISTER_ES } : Processor).ins_LODSbyte mm).m_segmentPrefix =
          EMPTY_SEGMENT_OVERRIDE) ∧
      ((({ p with m_segmentPrefix := REGISTER_CS } : Processor).ins_LODSbyte mm).AL =
          mm.readByte p.m_codeSegment p.m_sourceIndex ∧
        (({ p with m_segmentPrefix := REGISTER_CS } : Processor).ins_LODSbyte mm).m_segmentPrefix =
          EMPTY_SEGMENT_OVERRIDE) ∧
      ((({ p with m_segmentPrefix := REGISTER_SS } : Processor).ins_LODSbyte mm).AL =
          mm.readByte p.m_stackSegment p.m_sourceIndex ∧
        (({ p with m_segmentPrefix := REGISTER_SS } : Processor).ins_LODSbyte mm).m_segmentPrefix =
          EMPTY_SEGMENT_OVERRIDE)) :=
  ⟨⟨rfl, rfl, rfl⟩, fun p mm =>
    ⟨⟨(Processor.ins_LODSword_override p mm REGISTER_DS (by decide)).1,
        (Processor.ins_LODSword_override p mm REGISTER_DS (by decide)).2.1⟩,
      ⟨(Processor.ins_LODSword_override p mm REGISTER_ES (by decide)).1,
        (Processor.ins_LODSword_override p mm REGISTER_ES (by decide)).2.1⟩,
      ⟨(Processor.ins_LODSword_override p mm REGISTER_CS (by decide)).1,
        (Processor.ins_LODSword_override p mm REGISTER_CS (by decide)).2.1⟩,
      ⟨(Processor.ins_LODSword_override p mm REGISTER_SS (by decide)).1,
        (Processor.ins_LODSword_override p mm REGISTER_SS (by decide)).2.1⟩,
      ⟨(Processor.ins_LODSbyte_override p mm REGISTER_DS (by decide)).1,
        (Processor.ins_LODSbyte_override p mm REGISTER_DS (by decide)).2.1⟩,
      ⟨(Processor.ins_LODSbyte_override p mm REGISTER_ES (by decide)).1,
        (Processor.ins_LODSbyte_override p mm REGISTER_ES (by decide)).2.1⟩,
      ⟨(Processor.ins_LODSbyte_override p mm REGISTER_CS (by decide)).1,
        (Processor.ins_LODSbyte_override p mm REGISTER_CS (by decide)).2.1⟩,
      ⟨(Processor.ins_LODSbyte_override p mm REGISTER_SS (by decide)).1,
        (Processor.ins_LODSbyte_override p mm REGISTER_SS (by decide)).2.1⟩⟩⟩

/-! ## Effective address -/

/-- The direct address of `mod = 00`, `rm = 110`, as the source assembles it. -/
theorem direct_address_eq (lo hi : Nat) (hlo : lo < 256) (hhi : hi < 256) :
    hi % 256 * 256 % 65536 ||| lo % 256 = hi * 256 + lo := by
  have h1 : hi % 256 * 256 % 65536 = 2 ^ 8 * hi := by omega
  have h2 : lo % 256 = lo := Nat.mod_eq_of_lt hlo
  rw [h1, h2, ← Nat.mul_add_lt_is_or (by simpa using hlo)]
  omega

/-- The 16-bit displacement of `mod = 10`, as the source assembles it. -/
theorem full_displacement_eq (lo hi : Nat) (hlo : lo < 256) (hhi : hi < 256) :
    SET8BITREGISTERHIGH (SET8BITREGISTERLOW 0 lo) hi = hi * 256 + lo := by
  unfold SET8BITREGISTERHIGH SET8BITREGISTERLOW withHighByte withLowByte lowByte highByte
  omega

/-- The sign-extended displacement of `mod = 01`. -/
theorem signExtendByteToWord_eq (lo : Nat) (hlo : lo < 256) :
    signExtendByteToWord lo = if lo ≥ 128 then lo + 65280 else lo := by
  unfold signExtendByteToWord toU16 toI8
  rw [Nat.mod_eq_of_lt hlo]
  split_ifs <;> omega

/-- C28: effective-address offsets.  For every `mod` in `00, 01, 10`, every `rm` in
`0 .. 7`, all register values and all displacement bytes `lo`, `hi`,
`getEffectiveAddressFromBits` returns the offset `(base(rm) + disp) mod 2 ^ 16`,
where the base is `BX+SI, BX+DI, BP+SI, BP+DI, SI, DI, BP, BX` and `disp` is `0` for
`mod = 00`, the sign-extension of `lo` for `mod = 01` and `hi * 256 + lo` for
`mod = 10`; except that `mod = 00` with `rm = 110` returns `hi * 256 + lo` alone. -/
theorem getEffectiveAddressFromBits_offset (p : Processor)
    (rmBits modBits isWord lo hi defaultSegment : Nat)
    (hmod : modBits < 3) (hrm : rmBits < 8) (hlo : lo < 256) (hhi : hi < 256) :
    (p.getEffectiveAddressFromBits rmBits modBits isWord lo hi defaultSegment).map Prod.snd =
      .ok (specEffectiveOffset p modBits rmBits lo hi) := by
  have hd := direct_address_eq lo hi hlo hhi
  have hf := full_displacement_eq lo hi hlo hhi
  have hs := signExtendByteToWord_eq lo hlo
  interval_cases modBits <;> interval_cases rmBits <;>
    simp only [getEffectiveAddressFromBits, specEffectiveOffset, specBase, specDisplacement,
      Except.map, pure, Except.pure, hd, hf, hs] <;>
    (try simp) <;> first | omega | (split_ifs <;> omega)

/-- Witness for C28: `[BP + disp8]` with `BP = 0x0100` and `lo = 0xFE` (-2) is
offset `0x00FE`; the direct address with `lo = 0x34`, `hi = 0x12` is `0x1234`. -/
theorem getEffectiveAddressFromBits_offset_witness :
    (addressScenario.getEffectiveAddressFromBits 6 1 0 0xFE 0x00 0x3000).map Prod.snd =
      .ok (specEffectiveOffset addressScenario 1 6 0xFE 0x00) ∧
    specEffectiveOffset addressScenario 1 6 0xFE 0x00 = 0x00FE ∧
    (addressScenario.getEffectiveAddressFromBits 6 0 0 0x34 0x12 0x3000).map Prod.snd =
      .ok 0x1234 :=
  ⟨getEffectiveAddressFromBits_offset addressScenario 6 1 0 0xFE 0x00 0x3000
      (by decide) (by decide) (by decide) (by decide), rfl, rfl⟩

/-- C29: default segment selection.  `getEffectiveAddressFromBits` returns SS for
`rm = 010` and `rm = 011` at every `mod` and for `rm = 110` at `mod = 01`, and the
default segment handed in for every other form, the `[BP + disp16]` form
(`mod = 10`, `rm = 110`) included: with `SS = 0x2000` and default segment `0x3000`
that form resolves to segment `0x3000`, where `[BP + disp8]` resolves to `0x2000`. -/
theorem getEffectiveAddressFromBits_segment (p : Processor) (modBits : Fin 3) (rmBits : Fin 8)
    (isWord lo hi defaultSegment : Nat) :
    (p.getEffectiveAddressFromBits rmBits modBits isWord lo hi defaultSegment).map Prod.fst =
      .ok (if modBits.val = 2 ∧ rmBits.val = 6 then defaultSegment
        else if specContainsBP modBits rmBits then p.m_stackSegment else defaultSegment) ∧
    specContainsBP 2 6 = true ∧
    addressScenario.m_stackSegment = 0x2000 ∧
    addressScenario.getEffectiveAddressFromBits 6 2 1 0x34 0x12 0x3000 = .ok (0x3000, 0x1334) ∧
    addressScenario.getEffectiveAddressFromBits 6 1 1 0x34 0x12 0x3000 = .ok (0x2000, 0x0134) := by
  refine ⟨?_, rfl, rfl, rfl, rfl⟩
  obtain ⟨m, hm⟩ := modBits
  obtain ⟨r, hr⟩ := rmBits
  interval_cases m <;> interval_cases r <;> rfl

/-! ## Reset -/

/-- C30: `reset()` sets FLAGS = 0, IP = 0, CS = 0xFFFF and DS = SS = ES = 0 from
every prior state, and calling it twice gives the same state as calling it once. -/
theorem reset_values_and_idempotent (p : Processor) :
    p.reset.m_flags = 0 ∧ p.reset.m_instructionPointer = 0 ∧
    p.reset.m_codeSegment = 0xFFFF ∧ p.reset.m_dataSegment = 0 ∧
    p.reset.m_stackSegment = 0 ∧ p.reset.m_extraSegment = 0 ∧
    p.reset.reset = p.reset :=
  ⟨rfl, rfl, rfl, rfl, rfl, rfl, rfl⟩

/-! ## The cycle counter -/

/-- C31: a step that begins with the cycles-to-wait counter above zero only
decrements that counter: the processor is otherwise the same (registers, FLAGS,
override state, pending internal interrupt), the memory is the same, and the I/O
manager, with its queue of pending interrupts, is the same. -/
theorem cycles_to_wait_step (p : Processor) (mm : MemoryManager) (io : IOManager)
    (hcycles : p.m_cyclesToWait > 0) :
    p.execute mm io = .ok ({ p with m_cyclesToWait := p.m_cyclesToWait - 1 }, mm, io) := by
  unfold execute
  rw [if_pos hcycles]
  rfl

/-- Witness for C31: three cycles to wait, a divide error pending, a hardware
interrupt pending with IF set; the step leaves two cycles to wait and both
interrupts pending. -/
theorem cycles_to_wait_step_witness :
    waitingScenario.m_cyclesToWait > 0 ∧
    waitingScenario.execute twoVectors oneIRQ =
      .ok ({ waitingScenario with m_cyclesToWait := waitingScenario.m_cyclesToWait - 1 },
        twoVectors, oneIRQ) ∧
    (waitingScenario.execute twoVectors oneIRQ).map
      (fun s => (s.1.m_cyclesToWait, s.1.m_internalInterrupt, s.1.m_instructionPointer,
        s.2.2.pendingInterrupts)) = .ok (2, 1, 0x0200, [0x08]) :=
  ⟨by decide, cycles_to_wait_step waitingScenario twoVectors oneIRQ (by decide), rfl⟩

/-! ## Undefined opcodes and LOCK -/

/-- The `case` of the known unused opcodes: the fault is raised before anything
is read or written. -/
theorem Processor.dispatch_undefined (q : Processor) (mm : MemoryManager) (opcode : Nat)
    (hop : specUndefinedOpcode opcode = true) :
    q.dispatch mm opcode = .error .unknownInstruction := by
  have hlt : opcode < 256 := by
    simp only [specUndefinedOpcode, Bool.or_eq_true, Bool.and_eq_true, beq_iff_eq,
      decide_eq_true_eq] at hop
    omega
  interval_cases opcode <;> first | rfl | (exfalso; revert hop; decide)

/-- C33: `ins$LOCK` is `TODO()`: the opcode switch on `0xF0` stops in the
unimplemented fault from every state, and so does a step that fetches `0xF0`
(here at `CS:IP = 1000:0200`); the step does not complete. -/
theorem LOCK_is_unimplemented :
    (∀ (p : Processor) (mm : MemoryManager), p.dispatch mm 0xF0 = .error .todo) ∧
    interruptScenario.execute (memoryWithBytes 0x10200 [0xF0, 0x90]) quietIO = .error .todo :=
  ⟨fun _ _ => rfl, rfl⟩

/-! ## Instructions with no memory operand leave the override state alone -/

/-- A memory that holds one byte at `CS:IP` gives that byte back. -/
theorem readByte_memoryWithBytes_singleton (segment offset byte : Nat) (h : byte < 256) :
    (memoryWithBytes (MemoryManager.physicalAddress segment offset) [byte]).readByte
      segment offset = byte := by
  simp only [MemoryManager.readByte, memoryWithBytes, List.length_singleton]
  rw [if_pos ⟨le_refl _, by omega⟩]
  simp only [Nat.sub_self, List.getD_cons_zero]
  omega

/-- C36: in register mode (ModR/M byte `11 reg rm` at `CS:IP`) the cases `0x8A` and
`0x8B` both call `ins$MOV` with the 8-bit register `rm` as destination and the
8-bit register `reg` as source.  With `AX = 0x1234` and `BX = 0x5678`, the bytes
`8A C3` (`MOV AL, BL`) leave `AX = 0x1234` and make `BX = 0x5634`: `BL` received
`AL`; the bytes `8B C3` (`MOV AX, BX`) do exactly the same, where `AX` should have
become `0x5678`. -/
theorem MOV_register_mode_destination_is_rm :
    (∀ (p : Processor) (reg rm : Fin 8),
      p.dispatch (memoryWithBytes (MemoryManager.physicalAddress p.m_codeSegment
          p.m_instructionPointer) [0xC0 + 8 * reg + rm]) 0x8A =
        ({ p with m_instructionPointer := toU16 (p.m_instructionPointer + 1) } :
          Processor).ins_MOV (memoryWithBytes (MemoryManager.physicalAddress p.m_codeSegment
            p.m_instructionPointer) [0xC0 + 8 * reg + rm]) (.Register8 rm) (.Register8 reg) ∧
      p.dispatch (memoryWithBytes (MemoryManager.physicalAddress p.m_codeSegment
          p.m_instructionPointer) [0xC0 + 8 * reg + rm]) 0x8B =
        ({ p with m_instructionPointer := toU16 (p.m_instructionPointer + 1) } :
          Processor).ins_MOV (memoryWithBytes (MemoryManager.physicalAddress p.m_codeSegment
            p.m_instructionPointer) [0xC0 + 8 * reg + rm]) (.Register8 rm) (.Register8 reg)) ∧
    (interruptScenario.m_AX = 0x1234 ∧ interruptScenario.m_BX = 0x5678) ∧
    (interruptScenario.execute (memoryWithBytes 0x10200 [0x8A, 0xC3]) quietIO).map
      (fun s => (s.1.m_AX, s.1.m_BX)) = .ok (0x1234, 0x5634) ∧
    (interruptScenario.execute (memoryWithBytes 0x10200 [0x8B, 0xC3]) quietIO).map
      (fun s => (s.1.m_AX, s.1.m_BX)) = .ok (0x1234, 0x5634) := by
  refine ⟨fun p reg rm => ?_, ⟨rfl, rfl⟩, rfl, rfl⟩
  obtain ⟨reg, hreg⟩ := reg
  obtain ⟨rm, hrm⟩ := rm
  have hbyte := readByte_memoryWithBytes_singleton p.m_codeSegment p.m_instructionPointer
    (0xC0 + 8 * reg + rm) (by omega)
  have h1 : (0xC0 + 8 * reg + rm) / 64 % 4 = 3 := by omega
  have h2 : (0xC0 + 8 * reg + rm) / 8 % 8 = reg := by omega
  have h3 : (0xC0 + 8 * reg + rm) % 8 = rm := by omega
  constructor <;>
    (simp only [dispatch, LOAD_NEXT_INSTRUCTION_BYTE, hbyte, PARSE_MOD_REG_RM_BITS,
      IS_IN_REGISTER_MODE, h1, h2, h3]
     rfl)

/-- C37: in register mode the group `0xFF` performs `INC` on `reg = 010` and `DEC`
on `reg = 100`; every other `reg`, `000` and `001` included, reaches
`VERIFY_NOT_REACHED()`.  With `AX = 0x1234`: the bytes `FF C0` (`INC AX`) and
`FF C8` (`DEC AX`) stop in the assertion, `FF D0` makes `AX = 0x1235` and `FF E0`
makes `AX = 0x1233`. -/
theorem group_FF_register_mode_uses_reg_010_and_100 :
    interruptScenario.execute (memoryWithBytes 0x10200 [0xFF, 0xC0]) quietIO =
      .error .verifyNotReached ∧
    interruptScenario.execute (memoryWithBytes 0x10200 [0xFF, 0xC8]) quietIO =
      .error .verifyNotReached ∧
    (interruptScenario.execute (memoryWithBytes 0x10200 [0xFF, 0xD0]) quietIO).map
      (fun s => s.1.m_AX) = .ok 0x1235 ∧
    (interruptScenario.execute (memoryWithBytes 0x10200 [0xFF, 0xE0]) quietIO).map
      (fun s => s.1.m_AX) = .ok 0x1233 :=
  ⟨rfl, rfl, rfl, rfl⟩

/-! ## The opcode switch has a case for every byte -/

set_option maxRecDepth 100000 in
/-- Every byte value is among the `case` labels of the opcode switch. -/
theorem takesDefaultBranch_byte : ∀ b : Fin 256, takesDefaultBranch b = false := by
  decide

set_option maxRecDepth 100000 in
/-- The opcode switch has 256 `case` labels. -/
theorem opcodeCaseLabels_length : opcodeCaseLabels.length = 256 := by
  decide

/-- C38: the opcode switch of `Processor::execute` has 256 `case` labels and
every byte value `0 .. 255` is one of them; the opcode a step
fetches is a byte, so the `default:` branch (`VERIFY_NOT_REACHED()`) is never
taken. -/
theorem opcode_switch_has_every_case (p : Processor) (mm : MemoryManager) :
    opcodeCaseLabels.length = 256 ∧
    (∀ b : Fin 256, b.val ∈ opcodeCaseLabels) ∧
    takesDefaultBranch (mm.readByte p.m_codeSegment p.m_instructionPointer) = false := by
  have hmem : ∀ b : Fin 256, b.val ∈ opcodeCaseLabels := fun b => by
    have h := takesDefaultBranch_byte b
    simpa [takesDefaultBranch] using h
  refine ⟨opcodeCaseLabels_length, hmem, ?_⟩
  have hlt : mm.readByte p.m_codeSegment p.m_instructionPointer < 256 := by
    unfold MemoryManager.readByte; omega
  exact takesDefaultBranch_byte ⟨_, hlt⟩

/-! ## The displacement loader -/

/-- C39: `loadDisplacementsFromInstructionStream` tests `rm = 110` in the branch it
takes for every `mod` other than `01` and `10`, so for `mod = 11` with `rm = 110`
it reads two bytes and advances `IP` by two, where the spec has no displacement;
for every other `mod` and `rm` it advances `IP` by the number of displacement
bytes the spec gives, fills the low output (and the high one when there are two
bytes) and, when that number is zero, leaves both outputs as they came in.  At `CS:IP = 1000:0200` with the bytes `AA BB` there, `mod = 11`,
`rm = 110` gives `IP = 0x0202` and the outputs `0xAA`, `0xBB`. -/
theorem loadDisplacements_register_mode_rm_110 :
    (∀ (p : Processor) (mm : MemoryManager) (modBits : Fin 4) (rmBits : Fin 8) (lo hi : Nat),
      (p.loadDisplacementsFromInstructionStream mm modBits rmBits lo hi).1 =
        p.advanced (if modBits.val = 3 ∧ rmBits.val = 6 then 2
          else specDisplacementLength modBits rmBits) ∧
      (p.loadDisplacementsFromInstructionStream mm modBits rmBits lo hi).2 =
        (if modBits.val = 3 ∧ rmBits.val = 6 ∨ specDisplacementLength modBits rmBits = 2 then
          (mm.readByte p.m_codeSegment p.m_instructionPointer,
            mm.readByte p.m_codeSegment (toU16 (p.m_instructionPointer + 1)))
        else if specDisplacementLength modBits rmBits = 1 then
          (mm.readByte p.m_codeSegment p.m_instructionPointer, hi)
        else (lo, hi))) ∧
    specDisplacementLength 3 6 = 0 ∧
    interruptScenario.loadDisplacementsFromInstructionStream
        (memoryWithBytes 0x10200 [0xAA, 0xBB]) 3 6 0 0 =
      ({ interruptScenario with m_instructionPointer := 0x0202 }, 0xAA, 0xBB) := by
  refine ⟨fun p mm modBits rmBits lo hi => ?_, rfl, rfl⟩
  obtain ⟨m, hm⟩ := modBits
  obtain ⟨r, hr⟩ := rmBits
  have e2 : toU16 ((toU16 ((p.m_instructionPointer : Int) + 1) : Int) + 1) =
      toU16 ((p.m_instructionPointer : Int) + 2) := by unfold toU16; omega
  interval_cases m <;> interval_cases r <;>
    simp [loadDisplacementsFromInstructionStream, specDisplacementLength, Processor.advanced, e2]

/-! ## SHR by CL -/

/-- C35: the by-`CL` forms of `SHR` set CF from the top bit of the value before
each shift (`registerValue > SCHAR_MAX`, `> SHRT_MAX`), not from the bit shifted
out.  `SHR BL, CL` with `BL = 0x01`, `CL = 1` leaves `BL = 0x00` and CF clear, where
bit 0 of `0x01` is set and the shift-by-1 form leaves CF set; with `BL = 0x80`,
`CL = 1` it leaves `BL = 0x40` and CF set, where bit 0 of `0x80` is clear; with
`BL = 0x06`, `CL = 2` it leaves `BL = 0x01` and CF clear, where bit 1 of `0x06` is
set.  `SHR BX, CL` with `BX = 0x0001`, `CL = 1` leaves `BX = 0` and CF clear, where
the shift-by-1 form leaves CF set. -/
theorem ins_SHRregisterByCL_carry_is_top_bit :
    ((shiftScenario 0x01 1).ins_SHRregisterByCLByte 3).map
        (fun q => (q.BL, IS_BIT_SET q.m_flags CARRY_FLAG)) = .ok (0x00, false) ∧
    ((shiftScenario 0x01 1).ins_SHRregisterOnceByte 3).map
        (fun q => (q.BL, IS_BIT_SET q.m_flags CARRY_FLAG)) = .ok (0x00, true) ∧
    ((shiftScenario 0x80 1).ins_SHRregisterByCLByte 3).map
        (fun q => (q.BL, IS_BIT_SET q.m_flags CARRY_FLAG)) = .ok (0x40, true) ∧
    ((shiftScenario 0x06 2).ins_SHRregisterByCLByte 3).map
        (fun q => (q.BL, IS_BIT_SET q.m_flags CARRY_FLAG)) = .ok (0x01, false) ∧
    ((shiftScenario 0x0001 1).ins_SHRregisterByCLWord 3).map
        (fun q => (q.m_BX, IS_BIT_SET q.m_flags CARRY_FLAG)) = .ok (0x0000, false) ∧
    ((shiftScenario 0x0001 1).ins_SHRregisterOnceWord 3).map
        (fun q => (q.m_BX, IS_BIT_SET q.m_flags CARRY_FLAG)) = .ok (0x0000, true) :=
  ⟨rfl, rfl, rfl, rfl, rfl, rfl⟩

/-! ## RCR by CL -/

theorem rotate17_lt (x : Nat) (h : x < 131072) : rotate17 x < 131072 := by
  unfold rotate17; omega

/-- Seventeen rotations of a 17-bit quantity give it back. -/
theorem rotate17_seventeen (x : Nat) (h : x < 131072) : rotate17^[17] x = x := by
  simp only [Function.iterate_succ, Function.iterate_zero, Function.comp, rotate17, id]
  omega

/-- The register value after one turn of the loop of `RCR`: shifted right, with the
old CF in bit 15. -/
theorem rcr_value (rv : Nat) (c : Bool) (h : rv < 65536) :
    (if c = true then SET_FLAG_BIT (rv >>> 1) 15 else CLEAR_FLAG_BIT (rv >>> 1) 15) =
      rv / 2 + c.toNat * 32768 := by
  have hs : rv >>> 1 = rv / 2 := by rw [Nat.shiftRight_eq_div_pow]
  have hlt : rv / 2 < 2 ^ 15 := by omega
  cases c
  · simp only [Bool.false_eq_true, ↓reduceIte, CLEAR_FLAG_BIT, hs, Bool.toNat_false]
    have : (0xFFFF ^^^ (1 <<< 15) : Nat) = 2 ^ 15 - 1 := by decide
    rw [this, Nat.and_pow_two_sub_one_eq_mod, Nat.mod_eq_of_lt hlt]
    omega
  · simp only [↓reduceIte, SET_FLAG_BIT, hs, Bool.toNat_true]
    have : (1 <<< 15 : Nat) = 2 ^ 15 * 1 := by decide
    rw [this, Nat.lor_comm, ← Nat.mul_add_lt_is_or hlt]
    omega

theorem IS_BIT_SET_zero (x : Nat) : IS_BIT_SET x 0 = decide (x % 2 = 1) := by
  unfold IS_BIT_SET; exact Nat.testBit_zero x

/-- `updateRegisterFromREG16` succeeds on a register index, leaves FLAGS alone and
is read back. -/
theorem Processor.updateRegisterFromREG16_read (p : Processor) (REG data : Nat)
    (hREG : REG < 8) :
    ∃ q, p.updateRegisterFromREG16 REG data = .ok q ∧ q.m_flags = p.m_flags ∧
      q.getRegisterFromREG16 REG = .ok (data % 65536) := by
  interval_cases REG <;> exact ⟨_, rfl, rfl, rfl⟩

/-- The loop of `ins$RCRregisterByCLWord` ends for every `counter`; it rotates the
17-bit quantity made of CF and the register `counter` times and touches no flag
other than CF. -/
theorem Processor.ins_RCRregisterByCLWord_loop_spec (counter : Nat) (p : Processor)
    (REG registerValue : Nat) (hREG : REG < 8) (hrv : registerValue < 65536) :
    ∃ q, ins_RCRregisterByCLWord_loop counter p REG registerValue = .ok q ∧
      (counter = 0 → q = p) ∧
      (counter ≠ 0 → q.getRegisterFromREG16 REG =
        .ok (rotate17^[counter] (carryAndRegister p.m_flags registerValue) % 65536)) ∧
      IS_BIT_SET q.m_flags CARRY_FLAG =
        decide (65536 ≤ rotate17^[counter] (carryAndRegister p.m_flags registerValue)) ∧
      (∀ i, i < 16 → i ≠ CARRY_FLAG → IS_BIT_SET q.m_flags i = IS_BIT_SET p.m_flags i) := by
  induction counter generalizing p registerValue with
  | zero =>
    refine ⟨p, rfl, fun _ => rfl, fun h => absurd rfl h, ?_, fun _ _ _ => rfl⟩
    simp only [Function.iterate_zero, id, carryAndRegister]
    apply Bool.eq_iff_iff.mpr
    rw [decide_eq_true_iff]
    have hb : (IS_BIT_SET p.m_flags CARRY_FLAG).toNat ≤ 1 := Bool.toNat_le _
    constructor
    · intro h; rw [h, Bool.toNat_true]; omega
    · intro h
      by_contra hne
      rw [Bool.not_eq_true] at hne
      rw [hne, Bool.toNat_false] at h
      omega
  | succ counter ih =>
    have hval := rcr_value registerValue (IS_BIT_SET p.m_flags CARRY_FLAG) hrv
    obtain ⟨p1, hp1, hflags1, hread1⟩ :=
      (p.withFlag CARRY_FLAG (IS_BIT_SET registerValue 0)).updateRegisterFromREG16_read REG
        (registerValue / 2 + (IS_BIT_SET p.m_flags CARRY_FLAG).toNat * 32768) hREG
    have hb : (IS_BIT_SET p.m_flags CARRY_FLAG).toNat ≤ 1 := Bool.toNat_le _
    have hlt1 : registerValue / 2 + (IS_BIT_SET p.m_flags CARRY_FLAG).toNat * 32768 < 65536 := by
      omega
    have hCF1 : IS_BIT_SET p1.m_flags CARRY_FLAG = IS_BIT_SET registerValue 0 := by
      rw [hflags1, IS_BIT_SET_withFlag _ _ _ _ (by decide)]; simp
    have hother1 : ∀ i, i < 16 → i ≠ CARRY_FLAG →
        IS_BIT_SET p1.m_flags i = IS_BIT_SET p.m_flags i := by
      intro i hi hne
      rw [hflags1, IS_BIT_SET_withFlag _ _ _ _ hi, if_neg (Ne.symm hne)]
    have hrot : carryAndRegister p1.m_flags
        (registerValue / 2 + (IS_BIT_SET p.m_flags CARRY_FLAG).toNat * 32768) =
        rotate17 (carryAndRegister p.m_flags registerValue) := by
      unfold carryAndRegister rotate17
      rw [hCF1, IS_BIT_SET_zero]
      cases IS_BIT_SET p.m_flags CARRY_FLAG <;> by_cases h2 : registerValue % 2 = 1 <;>
        simp [h2] <;> omega
    obtain ⟨q, hq, hq0, hqreg, hqCF, hqother⟩ := ih p1 _ hlt1
    have hloop : ins_RCRregisterByCLWord_loop (counter + 1) p REG registerValue = .ok q := by
      rw [ins_RCRregisterByCLWord_loop]
      simp only [hval, hp1, bind, Except.bind]
      exact hq
    rw [hrot] at hqreg hqCF
    refine ⟨q, hloop, fun h => absurd h (Nat.succ_ne_zero _), fun _ => ?_, ?_, ?_⟩
    · rw [Function.iterate_succ_apply]
      by_cases hc : counter = 0
      · subst hc
        rw [hq0 rfl, hread1]
        simp only [Function.iterate_zero, id]
        rw [← hrot]
        unfold carryAndRegister
        congr 1
        omega
      · exact hqreg hc
    · rw [Function.iterate_succ_apply]; exact hqCF
    · intro i hi hne
      rw [hqother i hi hne, hother1 i hi hne]

theorem rotate17_iterate_lt (k x : Nat) (h : x < 131072) : rotate17^[k] x < 131072 := by
  induction k generalizing x with
  | zero => exact h
  | succ k ih => rw [Function.iterate_succ_apply]; exact ih _ (rotate17_lt x h)

theorem carryAndRegister_lt (flags value : Nat) (h : value < 65536) :
    carryAndRegister flags value < 131072 := by
  unfold carryAndRegister
  have hb : (IS_BIT_SET flags CARRY_FLAG).toNat ≤ 1 := Bool.toNat_le _
  omega

/-- Bit 16 of the 17-bit quantity is CF. -/
theorem carryAndRegister_bit16 (flags value : Nat) (h : value < 65536) :
    IS_BIT_SET flags CARRY_FLAG = decide (65536 ≤ carryAndRegister flags value) := by
  apply Bool.eq_iff_iff.mpr
  rw [decide_eq_true_iff]
  unfold carryAndRegister
  have hb : (IS_BIT_SET flags CARRY_FLAG).toNat ≤ 1 := Bool.toNat_le _
  constructor
  · intro h1; rw [h1, Bool.toNat_true]; omega
  · intro h1
    by_contra hne
    rw [Bool.not_eq_true] at hne
    rw [hne, Bool.toNat_false] at h1
    omega

/-- A 17-bit quantity is made of its bit 16 and its low 16 bits. -/
theorem carryAndRegister_of_bits (flags Q : Nat) (hQ : Q < 131072)
    (hCF : IS_BIT_SET flags CARRY_FLAG = decide (65536 ≤ Q)) :
    carryAndRegister flags (Q % 65536) = Q := by
  unfold carryAndRegister
  rw [hCF]
  by_cases h : 65536 ≤ Q
  · rw [decide_eq_true h, Bool.toNat_true]; omega
  · rw [decide_eq_false h, Bool.toNat_false]; omega

/-- C40: `RCR r16, CL`.  For every register index and every well-formed state the
loop ends (for every `CL` in `0 .. 255`) and the 17-bit quantity made of CF (as
bit 16) and the register is afterwards the quantity before, rotated right by one
bit `CL` times; no flag other than CF changes; with `CL = 0` nothing changes at
all; with `CL = 17` the register and CF have their values from before the
instruction. -/
theorem ins_RCRregisterByCLWord_rotates (p : Processor) (REG : Nat) (hREG : REG < 8)
    (hwf : p.WellFormed) :
    ∃ v w q, p.getRegisterFromREG16 REG = .ok v ∧ p.ins_RCRregisterByCLWord REG = .ok q ∧
      q.getRegisterFromREG16 REG = .ok w ∧
      carryAndRegister q.m_flags w = rotate17^[p.CL] (carryAndRegister p.m_flags v) ∧
      (∀ i, i < 16 → i ≠ CARRY_FLAG → IS_BIT_SET q.m_flags i = IS_BIT_SET p.m_flags i) ∧
      (p.CL = 0 → q = p) ∧
      (p.CL = 17 → w = v ∧
        IS_BIT_SET q.m_flags CARRY_FLAG = IS_BIT_SET p.m_flags CARRY_FLAG) := by
  obtain ⟨v, hv, hvlt⟩ := p.getRegisterFromREG16_ok REG hREG hwf
  obtain ⟨q, hq, hq0, hqreg, hqCF, hqother⟩ :=
    Processor.ins_RCRregisterByCLWord_loop_spec p.CL p REG v hREG hvlt
  have hins : p.ins_RCRregisterByCLWord REG = .ok q := by
    unfold ins_RCRregisterByCLWord
    simp only [hv, bind, Except.bind]
    exact hq
  have hQlt := rotate17_iterate_lt p.CL _ (carryAndRegister_lt p.m_flags v hvlt)
  have hbits := carryAndRegister_of_bits q.m_flags _ hQlt hqCF
  have hread : q.getRegisterFromREG16 REG =
      .ok (rotate17^[p.CL] (carryAndRegister p.m_flags v) % 65536) := by
    by_cases hc : p.CL = 0
    · rw [hq0 hc, hv, hc]
      simp only [Function.iterate_zero, id, carryAndRegister]
      congr 1
      omega
    · exact hqreg hc
  refine ⟨v, _, q, hv, hins, hread, hbits, hqother, hq0, fun h17 => ?_⟩
  have hid : rotate17^[p.CL] (carryAndRegister p.m_flags v) = carryAndRegister p.m_flags v := by
    rw [h17]; exact rotate17_seventeen _ (carryAndRegister_lt p.m_flags v hvlt)
  rw [hid] at hqCF ⊢
  have hb : (IS_BIT_SET p.m_flags CARRY_FLAG).toNat ≤ 1 := Bool.toNat_le _
  refine ⟨by unfold carryAndRegister; omega, ?_⟩
  rw [hqCF]
  exact (carryAndRegister_bit16 p.m_flags v hvlt).symm

/-- Witness for C40: `RCR BX, CL` with `BX = 0x8001`, `CL = 17`, CF and ZF set; the
seventeen rotations give `BX = 0x8001` and FLAGS `0x0041` back.  With `CL = 1` the
same state gives `BX = 0xC000` and CF set; with `CL = 0` nothing changes. -/
theorem ins_RCRregisterByCLWord_rotates_witness :
    (3 < 8 ∧ rotateScenario.WellFormed) ∧
    (∃ v w q, rotateScenario.getRegisterFromREG16 3 = .ok v ∧
      rotateScenario.ins_RCRregisterByCLWord 3 = .ok q ∧
      q.getRegisterFromREG16 3 = .ok w ∧
      carryAndRegister q.m_flags w =
        rotate17^[rotateScenario.CL] (carryAndRegister rotateScenario.m_flags v) ∧
      (∀ i, i < 16 → i ≠ CARRY_FLAG →
        IS_BIT_SET q.m_flags i = IS_BIT_SET rotateScenario.m_flags i) ∧
      (rotateScenario.CL = 0 → q = rotateScenario) ∧
      (rotateScenario.CL = 17 → w = v ∧
        IS_BIT_SET q.m_flags CARRY_FLAG = IS_BIT_SET rotateScenario.m_flags CARRY_FLAG)) ∧
    (rotateScenario.ins_RCRregisterByCLWord 3).map (fun q => (q.m_BX, q.m_flags)) =
      .ok (0x8001, 0x0041) ∧
    (({ rotateScenario with m_CX := 1 } : Processor).ins_RCRregisterByCLWord 3).map
      (fun q => (q.m_BX, q.m_flags)) = .ok (0xC000, 0x0041) ∧
    ({ rotateScenario with m_CX := 0 } : Processor).ins_RCRregisterByCLWord 3 =
      .ok { rotateScenario with m_CX := 0 } :=
  ⟨⟨by decide, by decide⟩,
    ins_RCRregisterByCLWord_rotates rotateScenario 3 (by decide) (by decide), rfl, rfl, rfl⟩

end Cepums
